import Mathlib

/-!
Verification of the allocation/tally-log reconciliation engine of the
tally-system backend. The definitions below are a shallow embedding of the
CRUD layer (`app/crud/tally_log_entry.py`, `app/crud/allocation_details.py`,
`app/crud/weight_classification.py`, `app/crud/tally_session.py`) over an
explicit relational state. Floats are modelled as rationals; SQLAlchemy row
objects are records; a raised `ValueError` is an `Except.error`; a commit is
the returned state.
-/

namespace Tally

/-- Role of a tally log entry (`TallyLogEntryRole`). -/
inductive Role where
  | tally
  | dispatcher
  deriving DecidableEq, Repr

/-- Status of a tally session (`TallySessionStatus`). -/
inductive SessionStatus where
  | ongoing
  | completed
  | cancelled
  deriving DecidableEq, Repr

/-- Row of the `tally_sessions` table. -/
structure TallySession where
  id : Nat
  customer_id : Nat
  plant_id : Nat
  status : SessionStatus
  session_number : Nat
  deriving DecidableEq, Repr

/-- Row of the `weight_classifications` table (columns per migrations 017/020:
optional bounds, category string, optional `default_heads`). -/
structure WeightClassification where
  id : Nat
  plant_id : Nat
  classification : String
  description : Option String
  min_weight : Option Rat
  max_weight : Option Rat
  category : String
  default_heads : Option Rat
  deriving DecidableEq, Repr

/-- Row of the `allocation_details` table (with the `heads` column of
migration 007). -/
structure AllocationDetails where
  id : Nat
  tally_session_id : Nat
  weight_classification_id : Nat
  required_bags : Rat
  allocated_bags_tally : Rat
  allocated_bags_dispatcher : Rat
  heads : Option Rat
  deriving DecidableEq, Repr

/-- Row of the `tally_log_entries` table (with the transfer-tracking columns
of migration 018). `transferred_at` is an abstract clock tick. -/
structure TallyLogEntry where
  id : Nat
  tally_session_id : Nat
  weight_classification_id : Nat
  role : Role
  weight : Rat
  heads : Option Rat
  notes : Option String
  original_session_id : Option Nat
  transferred_at : Option Nat
  deriving DecidableEq, Repr

/-- One audited value in a `TallyLogEntryAudit.changes` JSON map. -/
inductive AuditValue where
  | num (q : Rat)
  | str (s : String)
  | null
  deriving DecidableEq, Repr

/-- One field change recorded in an audit row. -/
structure AuditChange where
  field : String
  old : AuditValue
  new : AuditValue
  deriving DecidableEq, Repr

/-- Row of the `tally_log_entry_audit` table. -/
structure AuditEntry where
  tally_log_entry_id : Nat
  user_id : Nat
  changes : List AuditChange
  deriving DecidableEq, Repr

/-- The relational state touched by the engine, plus id counters and a clock. -/
structure DB where
  sessions : List TallySession
  classifications : List WeightClassification
  allocations : List AllocationDetails
  entries : List TallyLogEntry
  audits : List AuditEntry
  nextSessionId : Nat
  nextWcId : Nat
  nextAllocId : Nat
  nextEntryId : Nat
  now : Nat
  deriving DecidableEq, Repr

/-- The empty database. -/
def emptyDB : DB :=
  { sessions := [], classifications := [], allocations := [], entries := [],
    audits := [], nextSessionId := 1, nextWcId := 1, nextAllocId := 1, nextEntryId := 1,
    now := 0 }

/-- `crud.tally_session.get_tally_session`. -/
def get_tally_session (db : DB) (session_id : Nat) : Option TallySession :=
  db.sessions.find? (fun s => s.id == session_id)

/-- `crud.weight_classification.get_weight_classification`. -/
def get_weight_classification (db : DB) (wc_id : Nat) : Option WeightClassification :=
  db.classifications.find? (fun wc => wc.id == wc_id)

/-- `crud.tally_log_entry.get_tally_log_entry`. -/
def get_tally_log_entry (db : DB) (entry_id : Nat) : Option TallyLogEntry :=
  db.entries.find? (fun e => e.id == entry_id)

/-- Key predicate of the `AllocationDetails` queries filtering on
`tally_session_id` and `weight_classification_id`. -/
def allocation_matches (session_id wc_id : Nat) (a : AllocationDetails) : Bool :=
  a.tally_session_id == session_id && a.weight_classification_id == wc_id

/-- The `db.query(AllocationDetails).filter(...).first()` lookup used by every
operation. -/
def find_allocation (db : DB) (session_id wc_id : Nat) : Option AllocationDetails :=
  db.allocations.find? (allocation_matches session_id wc_id)

/-- The zeroed allocation row built from `AllocationDetailsCreate` defaults
(`required_bags=0`, both allocated counts 0, `heads=0.0`). -/
def new_allocation (id session_id wc_id : Nat) : AllocationDetails :=
  { id := id, tally_session_id := session_id, weight_classification_id := wc_id,
    required_bags := 0, allocated_bags_tally := 0, allocated_bags_dispatcher := 0,
    heads := some 0 }

/-- The get-or-create step: add a zeroed allocation row for the key if none
exists. -/
def ensure_allocation (db : DB) (session_id wc_id : Nat) : DB :=
  if (find_allocation db session_id wc_id).isSome then db
  else { db with
    allocations := db.allocations ++ [new_allocation db.nextAllocId session_id wc_id],
    nextAllocId := db.nextAllocId + 1 }

/-- In-place mutation of the allocation rows matching a key. -/
def modify_allocation (db : DB) (session_id wc_id : Nat)
    (f : AllocationDetails → AllocationDetails) : DB :=
  { db with allocations :=
      db.allocations.map (fun a => if allocation_matches session_id wc_id a then f a else a) }

/-- `allocation.allocated_bags_<role> += 1` depending on role. -/
def increment_role (a : AllocationDetails) (role : Role) : AllocationDetails :=
  match role with
  | .tally => { a with allocated_bags_tally := a.allocated_bags_tally + 1 }
  | .dispatcher => { a with allocated_bags_dispatcher := a.allocated_bags_dispatcher + 1 }

/-- `allocation.allocated_bags_<role> = max(0.0, .. - 1)` depending on role. -/
def decrement_role (a : AllocationDetails) (role : Role) : AllocationDetails :=
  match role with
  | .tally => { a with allocated_bags_tally := max 0 (a.allocated_bags_tally - 1) }
  | .dispatcher => { a with allocated_bags_dispatcher := max 0 (a.allocated_bags_dispatcher - 1) }

/-- `if allocation.heads is None: allocation.heads = 0.0; allocation.heads += h`. -/
def add_heads (a : AllocationDetails) (h : Rat) : AllocationDetails :=
  { a with heads := some (a.heads.getD 0 + h) }

/-- `allocation.heads = max(0.0, (heads or 0.0) - h)`. -/
def sub_heads (a : AllocationDetails) (h : Rat) : AllocationDetails :=
  { a with heads := some (max 0 (a.heads.getD 0 - h)) }

/-- Payload of `TallyLogEntryCreate` as the crud layer receives it (after
pydantic parsing). -/
structure TallyLogEntryCreate where
  tally_session_id : Nat
  weight_classification_id : Nat
  role : Role
  weight : Rat
  heads : Option Rat
  notes : Option String
  deriving DecidableEq, Repr

/-- Raw JSON-level create request, distinguishing an absent `heads` field from
an explicit `heads: null`. -/
structure RawTallyLogEntryInput where
  tally_session_id : Nat
  weight_classification_id : Nat
  role : Role
  weight : Rat
  heads_provided : Bool
  heads : Option Rat
  notes : Option String
  deriving DecidableEq, Repr

/-- Pydantic parsing of `TallyLogEntryCreate`: the schema declares
`heads: Optional[float] = 15.0`, so an absent `heads` field parses to
`some 15`; a provided field (including an explicit null) keeps its value. -/
def parse_tally_log_entry_create (raw : RawTallyLogEntryInput) : TallyLogEntryCreate :=
  { tally_session_id := raw.tally_session_id
    weight_classification_id := raw.weight_classification_id
    role := raw.role
    weight := raw.weight
    heads := if raw.heads_provided then raw.heads else some 15
    notes := raw.notes }

/-- `crud.tally_log_entry.create_tally_log_entry`. -/
def create_tally_log_entry (db : DB) (log_entry : TallyLogEntryCreate) :
    Except String (DB × TallyLogEntry) :=
  match get_tally_session db log_entry.tally_session_id with
  | none => .error "Tally session not found"
  | some _ =>
    match get_weight_classification db log_entry.weight_classification_id with
    | none => .error "Weight classification not found"
    | some wc =>
      let heads_value : Rat := log_entry.heads.getD (wc.default_heads.getD 15)
      let db := ensure_allocation db log_entry.tally_session_id log_entry.weight_classification_id
      let db := modify_allocation db log_entry.tally_session_id log_entry.weight_classification_id
        (fun a => add_heads (increment_role a log_entry.role) heads_value)
      let entry : TallyLogEntry :=
        { id := db.nextEntryId
          tally_session_id := log_entry.tally_session_id
          weight_classification_id := log_entry.weight_classification_id
          role := log_entry.role
          weight := log_entry.weight
          heads := some heads_value
          notes := log_entry.notes
          original_session_id := none
          transferred_at := none }
      .ok ({ db with entries := db.entries ++ [entry], nextEntryId := db.nextEntryId + 1 },
        entry)

/-- `crud.tally_log_entry.delete_tally_log_entry`. -/
def delete_tally_log_entry (db : DB) (entry_id : Nat) : Option (DB × TallyLogEntry) :=
  match get_tally_log_entry db entry_id with
  | none => none
  | some log_entry =>
    let default_heads : Rat :=
      match get_weight_classification db log_entry.weight_classification_id with
      | some wc => wc.default_heads.getD 15
      | none => 15
    let heads_value : Rat := log_entry.heads.getD default_heads
    let db :=
      if (find_allocation db log_entry.tally_session_id log_entry.weight_classification_id).isSome
      then modify_allocation db log_entry.tally_session_id log_entry.weight_classification_id
        (fun a => sub_heads (decrement_role a log_entry.role) heads_value)
      else db
    some ({ db with entries := db.entries.eraseP (fun e => e.id == entry_id) }, log_entry)

/-- Lifting of a raised validation error over the subsequent write: the write
happens only when the check passed. -/
def and_then {β : Type} (check : Except String Unit) (v : β) : Except String β :=
  match check with
  | .error e => .error e
  | .ok _ => .ok v

/-- Payload of `TallyLogEntryUpdate` with exclude_unset semantics: `heads` and
`notes` distinguish an absent field from an explicit null via their `.._set`
flag; the other fields are modelled as present-with-value or absent. -/
structure TallyLogEntryUpdate where
  weight : Option Rat := none
  role : Option Role := none
  heads_set : Bool := false
  heads : Option Rat := none
  notes_set : Bool := false
  notes : Option String := none
  weight_classification_id : Option Nat := none
  tally_session_id : Option Nat := none
  deriving DecidableEq, Repr

/-- The `.value` of a role as stored in audit rows. -/
def role_value : Role → String
  | .tally => "tally"
  | .dispatcher => "dispatcher"

/-- The display string used by the update audit for a session. -/
def session_display (db : DB) (session_id : Nat) : String :=
  match get_tally_session db session_id with
  | some s => "Session #" ++ toString s.session_number
  | none => "Session ID " ++ toString session_id

/-- The display string used by the update audit for a classification. -/
def wc_display (db : DB) (wc_id : Nat) : String :=
  match get_weight_classification db wc_id with
  | some wc => wc.classification ++ " (" ++ wc.category ++ ")"
  | none => "WC ID " ++ toString wc_id

/-- The validations of `update_tally_log_entry` (target session exists, same
plant, ongoing, when the session changes; classification exists and same
plant, when the classification changes). -/
def update_checks (db : DB) (log_entry : TallyLogEntry) (u : TallyLogEntryUpdate) :
    Except String Unit :=
  let old_session_id := log_entry.tally_session_id
  let old_wc_id := log_entry.weight_classification_id
  let new_session_id := u.tally_session_id.getD old_session_id
  let new_wc_id := u.weight_classification_id.getD old_wc_id
  let session_check : Except String Unit :=
    if new_session_id ≠ old_session_id then
      match get_tally_session db new_session_id with
      | none => .error "Target session not found"
      | some new_session =>
        match get_tally_session db old_session_id with
        | some old_session =>
          if old_session.plant_id ≠ new_session.plant_id then
            .error "Cannot change session to a different plant"
          else if new_session.status ≠ .ongoing then
            .error "Target session must be ongoing to update log entries"
          else .ok ()
        | none =>
          if new_session.status ≠ .ongoing then
            .error "Target session must be ongoing to update log entries"
          else .ok ()
    else .ok ()
  match session_check with
  | .error e => .error e
  | .ok _ =>
    if new_wc_id ≠ old_wc_id then
      match get_weight_classification db new_wc_id with
      | none => .error "Weight classification not found"
      | some new_wc =>
        match get_weight_classification db old_wc_id with
        | some old_wc =>
          if old_wc.plant_id ≠ new_wc.plant_id then
            .error "Cannot change weight classification to a different plant"
          else .ok ()
        | none => .ok ()
    else .ok ()

/-- The `old_heads_value` of the update: stored heads, else the old
classification's default, else 15. -/
def update_old_heads_value (db : DB) (log_entry : TallyLogEntry) : Rat :=
  log_entry.heads.getD
    (((get_weight_classification db log_entry.weight_classification_id).bind
      (fun wc => wc.default_heads)).getD 15)

/-- The heads value finally written and added to the new allocation: the
explicit value if heads was supplied (null resolving to the new
classification's default), the new classification's default if only the
classification changed, otherwise the stored heads (with default fallback). -/
def update_new_heads_value (db : DB) (log_entry : TallyLogEntry)
    (u : TallyLogEntryUpdate) : Rat :=
  let new_wc_id := u.weight_classification_id.getD log_entry.weight_classification_id
  let new_default_heads :=
    ((get_weight_classification db new_wc_id).bind (fun wc => wc.default_heads)).getD 15
  if u.heads_set then u.heads.getD new_default_heads
  else if new_wc_id ≠ log_entry.weight_classification_id then new_default_heads
  else log_entry.heads.getD new_default_heads

/-- The mutated log entry row written by the update's setattr loop (plus the
heads adjustment when the classification changes without an explicit heads). -/
def update_entry_result (db : DB) (log_entry : TallyLogEntry)
    (u : TallyLogEntryUpdate) : TallyLogEntry :=
  let old_wc_id := log_entry.weight_classification_id
  let new_wc_id := u.weight_classification_id.getD old_wc_id
  let new_default_heads :=
    ((get_weight_classification db new_wc_id).bind (fun wc => wc.default_heads)).getD 15
  { log_entry with
    tally_session_id := u.tally_session_id.getD log_entry.tally_session_id,
    weight_classification_id := new_wc_id,
    role := u.role.getD log_entry.role,
    weight := u.weight.getD log_entry.weight,
    heads :=
      if u.heads_set then some (u.heads.getD new_default_heads)
      else if new_wc_id ≠ old_wc_id then some new_default_heads
      else log_entry.heads,
    notes := if u.notes_set then u.notes else log_entry.notes }

/-- The audit changes map of the update, in the source's insertion order,
comparing final resolved values. -/
def update_changes (db : DB) (log_entry : TallyLogEntry) (u : TallyLogEntryUpdate) :
    List AuditChange :=
  let old_session_id := log_entry.tally_session_id
  let old_wc_id := log_entry.weight_classification_id
  let new_session_id := u.tally_session_id.getD old_session_id
  let new_wc_id := u.weight_classification_id.getD old_wc_id
  let new_role := u.role.getD log_entry.role
  let new_weight := u.weight.getD log_entry.weight
  let new_notes := if u.notes_set then u.notes else log_entry.notes
  let old_default_heads :=
    ((get_weight_classification db old_wc_id).bind (fun wc => wc.default_heads)).getD 15
  let new_default_heads :=
    ((get_weight_classification db new_wc_id).bind (fun wc => wc.default_heads)).getD 15
  let old_heads_value := log_entry.heads.getD old_default_heads
  let new_heads := if u.heads_set then u.heads else log_entry.heads
  let new_heads_value := new_heads.getD new_default_heads
  (if u.weight.isSome ∧ new_weight ≠ log_entry.weight then
    [⟨"weight", .num log_entry.weight, .num new_weight⟩] else [])
  ++ (if u.role.isSome ∧ new_role ≠ log_entry.role then
    [⟨"role", .str (role_value log_entry.role), .str (role_value new_role)⟩] else [])
  ++ (if u.heads_set then
      (if new_heads_value ≠ old_heads_value then
        [⟨"heads", .num old_heads_value, .num new_heads_value⟩] else [])
    else if new_wc_id ≠ old_wc_id then
      (if new_heads_value ≠ old_heads_value then
        [⟨"heads", .num old_heads_value, .num new_heads_value⟩] else [])
    else [])
  ++ (if u.notes_set ∧ new_notes.getD "" ≠ log_entry.notes.getD "" then
    [⟨"notes", .str (log_entry.notes.getD ""), .str (new_notes.getD "")⟩] else [])
  ++ (if u.weight_classification_id.isSome ∧ new_wc_id ≠ old_wc_id then
    [⟨"weight_classification", .str (wc_display db old_wc_id),
      .str (wc_display db new_wc_id)⟩] else [])
  ++ (if u.tally_session_id.isSome ∧ new_session_id ≠ old_session_id then
    [⟨"tally_session", .str (session_display db old_session_id),
      .str (session_display db new_session_id)⟩] else [])

/-- The shared shape of the update and transfer mutation bodies: decrement the
old entry's allocation (clamped, when the row exists), replace the entry row
by its mutated version, then get-or-create and increment the new version's
allocation. -/
def reaggregate_entry (db : DB) (entry_id : Nat) (old : TallyLogEntry)
    (old_hv : Rat) (new : TallyLogEntry) (new_hv : Rat) : DB :=
  let db1 :=
    if (find_allocation db old.tally_session_id old.weight_classification_id).isSome then
      modify_allocation db old.tally_session_id old.weight_classification_id
        (fun a => sub_heads (decrement_role a old.role) old_hv)
    else db
  let db2 := { db1 with
    entries := db1.entries.map (fun e => if e.id == entry_id then new else e) }
  let db3 := ensure_allocation db2 new.tally_session_id new.weight_classification_id
  modify_allocation db3 new.tally_session_id new.weight_classification_id
    (fun a => add_heads (increment_role a new.role) new_hv)

/-- The effects of the update's first transaction: decrement the old
allocation (clamped), rewrite the entry row, get-or-create and increment the
new allocation. -/
def update_apply (db : DB) (entry_id : Nat) (log_entry : TallyLogEntry)
    (u : TallyLogEntryUpdate) : DB :=
  reaggregate_entry db entry_id log_entry (update_old_heads_value db log_entry)
    (update_entry_result db log_entry u) (update_new_heads_value db log_entry u)

/-- `crud.tally_log_entry.update_tally_log_entry`. The source commits the
decrement/mutate/increment, then writes the audit row and commits a second
time, so the result carries both durable states: the state at the first
commit and the final state (which adds the audit row when the changes map is
non-empty). `.ok none` is the not-found return. -/
def update_tally_log_entry (db : DB) (entry_id : Nat) (entry_update : TallyLogEntryUpdate)
    (user_id : Nat) : Except String (Option (DB × DB × TallyLogEntry)) :=
  match get_tally_log_entry db entry_id with
  | none => .ok none
  | some log_entry =>
    and_then (update_checks db log_entry entry_update)
      (let committed1 := update_apply db entry_id log_entry entry_update
       let changes := update_changes db log_entry entry_update
       some (committed1,
         (if changes ≠ [] then
           { committed1 with audits :=
               committed1.audits ++ [⟨entry_id, user_id, changes⟩] }
         else committed1),
         update_entry_result db log_entry entry_update))

/-- One step of the `defaultdict(int)` grouping: bump the count of a key,
appending the key with count 1 on first sight. -/
def bump_key (l : List ((Nat × Nat) × Nat)) (k : Nat × Nat) : List ((Nat × Nat) × Nat) :=
  if l.any (fun p => p.1 == k) then l.map (fun p => if p.1 == k then (p.1, p.2 + 1) else p)
  else l ++ [(k, 1)]

/-- The `allocation_transfers` map of `transfer_tally_log_entries`: TALLY-role
entries grouped and counted by (source session, classification), in insertion
order. Dispatcher entries are not counted. -/
def group_tally_counts (entries : List TallyLogEntry) : List ((Nat × Nat) × Nat) :=
  entries.foldl (fun acc e =>
    if e.role == Role.tally then
      bump_key acc (e.tally_session_id, e.weight_classification_id)
    else acc) []

/-- The per-entry body of the transfer loop: decrement the source allocation
(clamped), stamp the transfer-tracking fields, reassign the session, and
get-or-create and increment the target allocation. -/
def move_entry (target_session_id : Nat) (db : DB) (e : TallyLogEntry) : DB :=
  let default_heads :=
    ((get_weight_classification db e.weight_classification_id).bind
      (fun wc => wc.default_heads)).getD 15
  let heads_value := e.heads.getD default_heads
  reaggregate_entry db e.id e heads_value
    { e with
      original_session_id := some (e.original_session_id.getD e.tally_session_id),
      transferred_at := some db.now,
      tally_session_id := target_session_id }
    heads_value

/-- The per-group body of the required_bags transfer: when the source
allocation exists with positive required_bags, move
`min(tally_count, required_bags)` from it to the target allocation. -/
def move_required (target_session_id : Nat) (db : DB) (g : (Nat × Nat) × Nat) : DB :=
  match find_allocation db g.1.1 g.1.2 with
  | none => db
  | some source_allocation =>
    if 0 < source_allocation.required_bags then
      let t := min (g.2 : Rat) source_allocation.required_bags
      let db1 := modify_allocation db g.1.1 g.1.2
        (fun a => { a with required_bags := max 0 (a.required_bags - t) })
      let db2 := ensure_allocation db1 target_session_id g.1.2
      modify_allocation db2 target_session_id g.1.2
        (fun a => { a with required_bags := a.required_bags + t })
    else db

/-- The entries loaded by the transfer's `id.in_(entry_ids)` query. -/
def transfer_entries (db : DB) (entry_ids : List Nat) : List TallyLogEntry :=
  db.entries.filter (fun e => entry_ids.contains e.id)

/-- `crud.tally_log_entry.transfer_tally_log_entries`: all validations run
before any mutation; the mutations commit once at the end. -/
def transfer_tally_log_entries (db : DB) (entry_ids : List Nat)
    (target_session_id : Nat) : Except String (DB × Nat) :=
  if entry_ids.isEmpty then .error "No entry IDs provided"
  else
    let entries := transfer_entries db entry_ids
    if entries.length ≠ entry_ids.length then .error "Some entries not found"
    else if entries.any (fun e => e.tally_session_id == target_session_id) then
      .error "Entry is already in the target session"
    else
      let source_session_ids := (entries.map (fun e => e.tally_session_id)).dedup
      if source_session_ids.any (fun sid => (get_tally_session db sid).isNone) then
        .error "Some source sessions not found"
      else
        let source_plant_ids := (source_session_ids.filterMap
          (fun sid => (get_tally_session db sid).map (fun s => s.plant_id))).dedup
        match source_plant_ids with
        | [] => .error "Entries must be from sessions in the same plant"
        | source_plant_id :: rest =>
          if rest ≠ [] then .error "Entries must be from sessions in the same plant"
          else
            match get_tally_session db target_session_id with
            | none => .error "Target session not found"
            | some target_session =>
              if target_session.plant_id ≠ source_plant_id then
                .error "Target session must be in the same plant as source entries"
              else if target_session.status ≠ .ongoing then
                .error "Target session must be ongoing to transfer log entries"
              else
                let wc_ids := (entries.map (fun e => e.weight_classification_id)).dedup
                if wc_ids.any (fun w => (get_weight_classification db w).isNone) then
                  .error "Weight classification not found"
                else if wc_ids.any (fun w =>
                    match get_weight_classification db w with
                    | some wc => wc.plant_id ≠ source_plant_id
                    | none => false) then
                  .error "Weight classification does not belong to the same plant"
                else
                  let db1 := entries.foldl (move_entry target_session_id) db
                  let db2 := (group_tally_counts entries).foldl
                    (move_required target_session_id) db1
                  .ok (db2, entries.length)

/-- Read a key's count out of the grouping assoc list (0 when absent). -/
def group_count (l : List ((Nat × Nat) × Nat)) (k : Nat × Nat) : Nat :=
  ((l.find? (fun g => g.1 == k)).map (fun g => g.2)).getD 0

/-- The committed state of a transfer request: the new state on success, the
unchanged state when the single transaction rolled back on a raise. -/
def run_transfer (db : DB) (entry_ids : List Nat) (target_session_id : Nat) : DB :=
  match transfer_tally_log_entries db entry_ids target_session_id with
  | .ok (db', _) => db'
  | .error _ => db

/-- Payload of `TallySessionCreate`. -/
structure TallySessionCreate where
  customer_id : Nat
  plant_id : Nat
  status : SessionStatus
  deriving DecidableEq, Repr

/-- The `max(session_number)` aggregate with `coalesce(.., 0)` over one
customer's sessions. -/
def max_session_number (db : DB) (customer_id : Nat) : Nat :=
  (db.sessions.filter (fun s => s.customer_id == customer_id)).foldl
    (fun m s => max m s.session_number) 0

/-- `crud.tally_session.create_tally_session`. -/
def create_tally_session (db : DB) (ts : TallySessionCreate) : DB × TallySession :=
  let next_session_number := max_session_number db ts.customer_id + 1
  let sess : TallySession :=
    { id := db.nextSessionId, customer_id := ts.customer_id, plant_id := ts.plant_id,
      status := ts.status, session_number := next_session_number }
  ({ db with sessions := db.sessions ++ [sess], nextSessionId := db.nextSessionId + 1 }, sess)

/-- `crud.tally_session.delete_tally_session`; the session row cascades to its
allocation details and log entries. -/
def delete_tally_session (db : DB) (session_id : Nat) : DB × Bool :=
  match get_tally_session db session_id with
  | none => (db, false)
  | some _ =>
    ({ db with
        sessions := db.sessions.eraseP (fun s => s.id == session_id),
        allocations := db.allocations.filter (fun a => !(a.tally_session_id == session_id)),
        entries := db.entries.filter (fun e => !(e.tally_session_id == session_id)) },
      true)

/-- `crud.allocation_details.reset_allocated_bags_for_session`. Returns the
new state, the allocations_updated count and the log_entries_deleted count. -/
def reset_allocated_bags_for_session (db : DB) (session_id : Nat)
    (reset_tally reset_dispatcher : Bool) : DB × Nat × Nat :=
  let allocations := db.allocations.filter (fun a => a.tally_session_id == session_id)
  if allocations.isEmpty then (db, 0, 0)
  else
    let tally_deleted :=
      if reset_tally then
        db.entries.countP (fun e => e.tally_session_id == session_id && e.role == Role.tally)
      else 0
    let entries1 :=
      if reset_tally then
        db.entries.filter (fun e => !(e.tally_session_id == session_id && e.role == Role.tally))
      else db.entries
    let dispatcher_deleted :=
      if reset_dispatcher then
        entries1.countP (fun e => e.tally_session_id == session_id && e.role == Role.dispatcher)
      else 0
    let entries2 :=
      if reset_dispatcher then
        entries1.filter
          (fun e => !(e.tally_session_id == session_id && e.role == Role.dispatcher))
      else entries1
    let updated_count := if reset_tally || reset_dispatcher then allocations.length else 0
    ({ db with
        entries := entries2,
        allocations := db.allocations.map (fun a =>
          if a.tally_session_id == session_id then
            (fun b => if reset_dispatcher then { b with allocated_bags_dispatcher := 0 } else b)
              (if reset_tally then { a with allocated_bags_tally := 0 } else a)
          else a) },
      updated_count, tally_deleted + dispatcher_deleted)

/-- `crud.allocation_details.get_allocation_detail`. -/
def get_allocation_detail (db : DB) (allocation_id : Nat) : Option AllocationDetails :=
  db.allocations.find? (fun a => a.id == allocation_id)

/-- Payload of `AllocationDetailsUpdate` (only `weight_classification_id` and
`required_bags` are editable). -/
structure AllocationDetailsUpdate where
  weight_classification_id : Option Nat := none
  required_bags : Option Rat := none
  deriving DecidableEq, Repr

/-- `crud.allocation_details.update_allocation_detail`; `.ok none` is the
not-found return, `.error` a raised conflict. -/
def update_allocation_detail (db : DB) (allocation_id : Nat)
    (u : AllocationDetailsUpdate) : Except String (Option (DB × AllocationDetails)) :=
  match get_allocation_detail db allocation_id with
  | none => .ok none
  | some db_allocation =>
    let check : Except String Unit :=
      match u.weight_classification_id with
      | none => .ok ()
      | some new_wc_id =>
        if new_wc_id ≠ db_allocation.weight_classification_id then
          let log_entry_count := db.entries.countP (fun e =>
            e.tally_session_id == db_allocation.tally_session_id
              && e.weight_classification_id == db_allocation.weight_classification_id)
          if log_entry_count > 0 then
            .error "Cannot change weight classification because there are existing log entries for this allocation."
          else if (db.allocations.any (fun a =>
              a.tally_session_id == db_allocation.tally_session_id
                && a.weight_classification_id == new_wc_id
                && a.id != allocation_id)) then
            .error "Allocation detail already exists for this session and weight classification"
          else .ok ()
        else .ok ()
    let updated : AllocationDetails :=
      { db_allocation with
        weight_classification_id :=
          u.weight_classification_id.getD db_allocation.weight_classification_id,
        required_bags := u.required_bags.getD db_allocation.required_bags }
    match check with
    | .error e => .error e
    | .ok _ =>
      .ok (some ({ db with allocations :=
          db.allocations.map (fun a => if a.id == allocation_id then updated else a) },
        updated))

/-- `crud.allocation_details.delete_allocation_detail`: bulk-deletes the log
entries of the allocation's (session, classification) key, then the row. -/
def delete_allocation_detail (db : DB) (allocation_id : Nat) : DB × Bool :=
  match get_allocation_detail db allocation_id with
  | none => (db, false)
  | some db_allocation =>
    ({ db with
        entries := db.entries.filter (fun e =>
          !(e.tally_session_id == db_allocation.tally_session_id
            && e.weight_classification_id == db_allocation.weight_classification_id)),
        allocations := db.allocations.eraseP (fun a => a.id == allocation_id) },
      true)

/-! ### Read accessors over the state -/
/-- The `allocated_bags_tally` aggregate read at a key, 0 if the row is absent. -/
def alloc_tally (db : DB) (S C : Nat) : Rat :=
  ((find_allocation db S C).map (·.allocated_bags_tally)).getD 0

/-- The `allocated_bags_dispatcher` aggregate read at a key, 0 if absent. -/
def alloc_dispatcher (db : DB) (S C : Nat) : Rat :=
  ((find_allocation db S C).map (·.allocated_bags_dispatcher)).getD 0

/-- The `heads` aggregate read at a key, 0 if the row or the column is absent. -/
def alloc_heads (db : DB) (S C : Nat) : Rat :=
  ((find_allocation db S C).map (fun a => a.heads.getD 0)).getD 0

/-- The `required_bags` value read at a key, 0 if the row is absent. -/
def required_of (db : DB) (S C : Nat) : Rat :=
  ((find_allocation db S C).map (·.required_bags)).getD 0

/-- Number of log entries at a key with a given role. -/
def role_count (db : DB) (S C : Nat) (r : Role) : Nat :=
  db.entries.countP
    (fun e => e.tally_session_id == S && e.weight_classification_id == C && e.role == r)

/-- The `allocated_bags_tally` / `allocated_bags_dispatcher` column of a row,
selected by role. -/
def alloc_col (a : AllocationDetails) : Role → Rat
  | .tally => a.allocated_bags_tally
  | .dispatcher => a.allocated_bags_dispatcher

/-- The allocated-bags aggregate of a role read at a key, 0 if the row is
absent. -/
def alloc_role (db : DB) (S C : Nat) (r : Role) : Rat :=
  ((find_allocation db S C).map (fun a => alloc_col a r)).getD 0

/-- Indicator of one log entry counting towards a (key, role) aggregate. -/
def role_ind (S C : Nat) (r : Role) (e : TallyLogEntry) : Nat :=
  if e.tally_session_id = S ∧ e.weight_classification_id = C ∧ e.role = r then 1 else 0

/-- C1's invariant: at every (session, classification) key, each
allocated-bags column equals the number of live log entries of that key and
role. -/
def Consistent (db : DB) : Prop :=
  ∀ S C : Nat,
    alloc_tally db S C = (role_count db S C Role.tally : Rat)
    ∧ alloc_dispatcher db S C = (role_count db S C Role.dispatcher : Rat)

/-- Primary-key discipline of the `tally_log_entries` table: ids are unique
and stay below the id counter. -/
def EntriesWF (db : DB) : Prop :=
  (db.entries.map (fun e => e.id)).Nodup ∧ ∀ e ∈ db.entries, e.id < db.nextEntryId

/-- Per-row non-negativity of an `allocation_details` row. -/
def NonNegRow (a : AllocationDetails) : Prop :=
  0 ≤ a.required_bags ∧ 0 ≤ a.allocated_bags_tally
    ∧ 0 ≤ a.allocated_bags_dispatcher ∧ ∀ q ∈ a.heads, 0 ≤ q

/-- C7's starting condition: no negative numeric field anywhere the engine
reads from — allocation rows, stored entry heads, classification defaults. -/
def NonNegState (db : DB) : Prop :=
  (∀ a ∈ db.allocations, NonNegRow a)
    ∧ (∀ e ∈ db.entries, ∀ q ∈ e.heads, 0 ≤ q)
    ∧ (∀ wc ∈ db.classifications, ∀ q ∈ wc.default_heads, 0 ≤ q)

/-- One API call of the tally-log engine. -/
inductive Op where
  | createEntry (input : TallyLogEntryCreate)
  | updateEntry (entry_id : Nat) (u : TallyLogEntryUpdate) (user_id : Nat)
  | deleteEntry (entry_id : Nat)
  | transferEntries (entry_ids : List Nat) (target_session_id : Nat)
  | resetAllocations (session_id : Nat) (reset_tally reset_dispatcher : Bool)

/-- The committed state after one API call: the returned state on success, the
unchanged state on a raise (the transaction rolls back) or on a not-found. -/
def applyOp (db : DB) : Op → DB
  | .createEntry c =>
    match create_tally_log_entry db c with
    | .ok (db', _) => db'
    | .error _ => db
  | .updateEntry entry_id u user_id =>
    match update_tally_log_entry db entry_id u user_id with
    | .ok (some (_, dbFinal, _)) => dbFinal
    | .ok none => db
    | .error _ => db
  | .deleteEntry entry_id =>
    match delete_tally_log_entry db entry_id with
    | some (db', _) => db'
    | none => db
  | .transferEntries entry_ids target => run_transfer db entry_ids target
  | .resetAllocations session_id rt rd =>
    (reset_allocated_bags_for_session db session_id rt rd).1

/-- The committed state after a sequence of API calls. -/
def applyOps (db : DB) (ops : List Op) : DB :=
  ops.foldl applyOp db

/-- The pydantic field validators relevant to the allocation columns: a
supplied `heads` must be non-negative (`validate_heads` in
`schemas/tally_log_entry.py`). -/
def Op.Valid : Op → Prop
  | .createEntry c => ∀ q ∈ c.heads, 0 ≤ q
  | .updateEntry _ u _ => ∀ q ∈ u.heads, 0 ≤ q
  | _ => True

/-! ### Characterization of allocation lookups after each primitive write -/
/-- Key preservation for a row-update function. -/
def KeyPreserving (f : AllocationDetails → AllocationDetails) : Prop :=
  ∀ a, (f a).tally_session_id = a.tally_session_id
    ∧ (f a).weight_classification_id = a.weight_classification_id

/-- The log entry row persisted by a successful create. -/
def create_result_entry (db1 : DB) (c : TallyLogEntryCreate) (v : Rat) : TallyLogEntry :=
  { id := db1.nextEntryId
    tally_session_id := c.tally_session_id
    weight_classification_id := c.weight_classification_id
    role := c.role
    weight := c.weight
    heads := some v
    notes := c.notes
    original_session_id := none
    transferred_at := none }

/-! ### Weight classification validation (`crud/weight_classification.py`) -/
/-- Comparison of a normalized lower bound against a normalized upper bound:
an absent min is −infinity and an absent max is +infinity, so the comparison
is vacuously true whenever either side is absent. -/
def bound_le (mn mx : Option Rat) : Bool :=
  match mn, mx with
  | none, _ => true
  | _, none => true
  | some a, some b => a ≤ b

/-- `_ranges_overlap`: catch-all (both bounds absent) overlaps everything,
otherwise the normalized `min1 <= max2 and min2 <= max1` test. -/
def ranges_overlap (min1 max1 min2 max2 : Option Rat) : Bool :=
  if (min1.isNone && max1.isNone) || (min2.isNone && max2.isNone) then true
  else bound_le min1 max2 && bound_le min2 max1

/-- The `if exclude_id and existing_wc.id == exclude_id` skip (note the Python
truthiness: an exclude_id of 0 never excludes). -/
def wc_excluded (exclude_id : Option Nat) (wc : WeightClassification) : Bool :=
  match exclude_id with
  | some e => decide (e ≠ 0) && (wc.id == e)
  | none => false

/-- The first existing classification of the plant+category that collides
with the proposed range (skipping the excluded id); `_check_overlaps` raises
on it. Returns `none` for Byproduct, which skips range checking. -/
def overlap_conflict (db : DB) (plant_id : Nat) (category : String)
    (min_weight max_weight : Option Rat) (exclude_id : Option Nat) :
    Option WeightClassification :=
  if category == "Byproduct" then none
  else
    (db.classifications.filter
      (fun wc => wc.plant_id == plant_id && wc.category == category)).find?
      (fun wc => !(wc_excluded exclude_id wc)
        && ranges_overlap min_weight max_weight wc.min_weight wc.max_weight)

/-- `_check_overlaps`. -/
def check_overlaps (db : DB) (plant_id : Nat) (category : String)
    (min_weight max_weight : Option Rat) (exclude_id : Option Nat) :
    Except String Unit :=
  match overlap_conflict db plant_id category min_weight max_weight exclude_id with
  | some wc => .error ("Weight range overlaps with existing classification "
      ++ wc.classification ++ " for the same plant and category")
  | none => .ok ()

/-- `_check_byproduct_duplicates`: first duplicate-name or duplicate-description
violation among the plant's byproducts, as its error message. -/
def byproduct_conflict (db : DB) (plant_id : Nat) (classification : String)
    (description : Option String) (exclude_id : Option Nat) : Option String :=
  (db.classifications.filter
    (fun wc => wc.plant_id == plant_id && wc.category == "Byproduct")).findSome?
    (fun ewc =>
      if wc_excluded exclude_id ewc then none
      else if ewc.classification.toLower == classification.toLower then
        some ("A byproduct with classification " ++ ewc.classification
          ++ " already exists for this plant.")
      else
        match description, ewc.description with
        | some d, some ed =>
          if d != "" && ed != "" && (ed.toLower.trim == d.toLower.trim) then
            some ("A byproduct with description " ++ ed ++ " already exists for this plant.")
          else none
        | _, _ => none)

/-- `_check_byproduct_duplicates` as a fallible check. -/
def check_byproduct_duplicates (db : DB) (plant_id : Nat) (classification : String)
    (description : Option String) (exclude_id : Option Nat) : Except String Unit :=
  match byproduct_conflict db plant_id classification description exclude_id with
  | some msg => .error msg
  | none => .ok ()

/-- Payload of `WeightClassificationCreate`. -/
structure WeightClassificationCreate where
  plant_id : Nat
  classification : String
  description : Option String
  min_weight : Option Rat
  max_weight : Option Rat
  category : String
  default_heads : Option Rat
  deriving DecidableEq, Repr

/-- The row inserted by `create_weight_classification`. -/
def created_wc (db : DB) (w : WeightClassificationCreate) : WeightClassification :=
  { id := db.nextWcId, plant_id := w.plant_id, classification := w.classification,
    description := w.description, min_weight := w.min_weight,
    max_weight := w.max_weight, category := w.category,
    default_heads := w.default_heads }

/-- `crud.weight_classification.create_weight_classification`. -/
def create_weight_classification (db : DB) (w : WeightClassificationCreate) :
    Except String (DB × WeightClassification) :=
  let check : Except String Unit :=
    if w.category == "Byproduct" then
      check_byproduct_duplicates db w.plant_id w.classification w.description none
    else
      check_overlaps db w.plant_id w.category w.min_weight w.max_weight none
  and_then check
    ({ db with
        classifications := db.classifications ++ [created_wc db w],
        nextWcId := db.nextWcId + 1 },
      created_wc db w)

/-- Payload of `WeightClassificationUpdate` with exclude_unset semantics:
`description`, `min_weight`, `max_weight` and `default_heads` distinguish an
absent field from an explicit null via their `.._set` flag. -/
structure WeightClassificationUpdate where
  classification : Option String := none
  description_set : Bool := false
  description : Option String := none
  min_weight_set : Bool := false
  min_weight : Option Rat := none
  max_weight_set : Bool := false
  max_weight : Option Rat := none
  category : Option String := none
  default_heads_set : Bool := false
  default_heads : Option Rat := none
  deriving DecidableEq, Repr

/-- The `final_*` values of `update_weight_classification` followed by the
setattr loop: supplied fields replace the stored ones. -/
def apply_wc_update (wc : WeightClassification) (u : WeightClassificationUpdate) :
    WeightClassification :=
  { wc with
    classification := u.classification.getD wc.classification,
    description := if u.description_set then u.description else wc.description,
    min_weight := if u.min_weight_set then u.min_weight else wc.min_weight,
    max_weight := if u.max_weight_set then u.max_weight else wc.max_weight,
    category := u.category.getD wc.category,
    default_heads := if u.default_heads_set then u.default_heads else wc.default_heads }

/-- `crud.weight_classification.update_weight_classification`; `.ok none` is
the not-found return, `.error` a raised conflict. -/
def update_weight_classification (db : DB) (wc_id : Nat)
    (u : WeightClassificationUpdate) : Except String (Option (DB × WeightClassification)) :=
  match get_weight_classification db wc_id with
  | none => .ok none
  | some db_wc =>
    let final := apply_wc_update db_wc u
    let check : Except String Unit :=
      if final.category == "Byproduct" then
        if u.classification.isSome || u.description_set || u.category.isSome then
          check_byproduct_duplicates db db_wc.plant_id final.classification
            final.description (some wc_id)
        else .ok ()
      else
        if u.min_weight_set || u.max_weight_set || u.category.isSome then
          check_overlaps db db_wc.plant_id final.category final.min_weight
            final.max_weight (some wc_id)
        else .ok ()
    and_then check
      (some ({ db with classifications :=
          db.classifications.map (fun w => if w.id == wc_id then final else w) },
        final))

/-- Overlap of normalized intervals as the spec words it: absent min is −∞,
absent max is +∞, and two intervals overlap exactly when
`min1 ≤ max2 AND min2 ≤ max1`. -/
def spec_ranges_overlap (min1 max1 min2 max2 : Option Rat) : Prop :=
  bound_le min1 max2 = true ∧ bound_le min2 max1 = true

instance spec_ranges_overlap_dec (min1 max1 min2 max2 : Option Rat) :
    Decidable (spec_ranges_overlap min1 max1 min2 max2) :=
  inferInstanceAs (Decidable (_ ∧ _))

/-- C6 witness state: plant 1 with "OS" Dressed [18, ∞) and "P4" Dressed
[16, 17] (non-overlapping). -/
def db6 : DB :=
  { emptyDB with
    classifications :=
      [⟨1, 1, "OS", none, some 18, none, "Dressed", some 15⟩,
       ⟨2, 1, "P4", none, some 16, some 17, "Dressed", some 15⟩],
    nextWcId := 3 }

/-- C8 witness state: one session with one allocation and two entries of
different roles. -/
def db8 : DB :=
  { emptyDB with
    sessions := [⟨1, 1, 1, .ongoing, 1⟩],
    classifications := [⟨1, 1, "OS", none, some 18, none, "Dressed", some 15⟩],
    allocations := [⟨1, 1, 1, 5, 1, 1, some 30⟩],
    entries :=
      [⟨1, 1, 1, .tally, 2, some 15, none, none, none⟩,
       ⟨2, 1, 1, .dispatcher, 2, some 15, none, none, none⟩],
    nextSessionId := 2, nextWcId := 2, nextAllocId := 2, nextEntryId := 3 }

/-- C10 witness state: two allocations of session 1 and one entry under the
first allocation's key. -/
def db10 : DB :=
  { emptyDB with
    sessions := [⟨1, 1, 1, .ongoing, 1⟩],
    classifications :=
      [⟨1, 1, "OS", none, some 18, none, "Dressed", some 15⟩,
       ⟨2, 1, "P4", none, some 16, some 17, "Dressed", some 15⟩],
    allocations := [⟨1, 1, 1, 5, 1, 0, some 15⟩, ⟨2, 1, 2, 3, 0, 0, some 0⟩],
    entries := [⟨1, 1, 1, .tally, 2, some 15, none, none, none⟩],
    nextSessionId := 2, nextWcId := 3, nextAllocId := 3, nextEntryId := 2 }

/-- C5 witness state: session 1 holds five TALLY entries of classification 1
with required_bags 3; session 2 of the same plant is the (ongoing) transfer
target. -/
def db5 : DB :=
  { emptyDB with
    sessions := [⟨1, 1, 1, .ongoing, 1⟩, ⟨2, 1, 1, .ongoing, 2⟩],
    classifications := [⟨1, 1, "OS", none, some 18, none, "Dressed", some 15⟩],
    allocations := [⟨1, 1, 1, 3, 5, 0, some 75⟩],
    entries :=
      [⟨1, 1, 1, .tally, 2, some 15, none, none, none⟩,
       ⟨2, 1, 1, .tally, 2, some 15, none, none, none⟩,
       ⟨3, 1, 1, .tally, 2, some 15, none, none, none⟩,
       ⟨4, 1, 1, .tally, 2, some 15, none, none, none⟩,
       ⟨5, 1, 1, .tally, 2, some 15, none, none, none⟩],
    nextSessionId := 3, nextWcId := 2, nextAllocId := 2, nextEntryId := 6 }

/-- C4 witness state: entry 1 in ongoing session 1, completed session 2 in
the same plant. -/
def dbT4 : DB :=
  { emptyDB with
    sessions := [⟨1, 1, 1, .ongoing, 1⟩, ⟨2, 1, 1, .completed, 2⟩],
    classifications := [⟨1, 1, "OS", none, some 18, none, "Dressed", some 15⟩],
    allocations := [⟨1, 1, 1, 3, 1, 0, some 15⟩],
    entries := [⟨1, 1, 1, .tally, 2, some 15, none, none, none⟩],
    nextSessionId := 3, nextWcId := 2, nextAllocId := 2, nextEntryId := 2 }

/-- State for the C3 and C7 concrete runs: one ongoing session, one
classification, one TALLY entry with a consistent allocation row. -/
def dbU3 : DB :=
  { emptyDB with
    sessions := [⟨1, 1, 1, .ongoing, 1⟩],
    classifications := [⟨1, 1, "OS", none, some 18, none, "Dressed", some 15⟩],
    allocations := [⟨1, 1, 1, 0, 1, 0, some 15⟩],
    entries := [⟨1, 1, 1, .tally, 2, some 15, none, none, none⟩],
    nextSessionId := 2, nextWcId := 2, nextAllocId := 2, nextEntryId := 2 }

/-! ### C2: heads default resolution on create -/
/-- State for the C2 counterexample: one ongoing session, one classification
whose default_heads is 10 (different from the schema default 15). -/
def dbC2 : DB :=
  { emptyDB with
    sessions := [⟨1, 1, 1, .ongoing, 1⟩],
    classifications := [⟨1, 1, "OS", none, some 18, none, "Dressed", some 10⟩],
    nextSessionId := 2 }

/-- Raw create request with the heads field absent from the input. -/
def rawC2 : RawTallyLogEntryInput :=
  { tally_session_id := 1, weight_classification_id := 1, role := .tally,
    weight := 21/10, heads_provided := false, heads := none, notes := none }

/-- The committed state of a successful create, as a function of the resolved
heads value. -/
def created_db (db : DB) (c : TallyLogEntryCreate) (v : Rat) : DB :=
  let db1 := modify_allocation
    (ensure_allocation db c.tally_session_id c.weight_classification_id)
    c.tally_session_id c.weight_classification_id
    (fun a => add_heads (increment_role a c.role) v)
  { db1 with
    entries := db1.entries ++ [create_result_entry db1 c v],
    nextEntryId := db1.nextEntryId + 1 }

/-- The committed state of a successful per-entry delete, as a function of the
resolved heads value. -/
def deleted_db (db : DB) (entry_id : Nat) (old : TallyLogEntry) (hv : Rat) : DB :=
  let db1 :=
    if (find_allocation db old.tally_session_id old.weight_classification_id).isSome then
      modify_allocation db old.tally_session_id old.weight_classification_id
        (fun a => sub_heads (decrement_role a old.role) hv)
    else db
  { db1 with entries := db1.entries.eraseP (fun x => x.id == entry_id) }

/-- Concrete run for C1: two sessions of one plant, one classification, a mix
of creates, an update, a delete, a transfer and a reset. -/
def dbC1 : DB :=
  { emptyDB with
    sessions := [⟨1, 1, 1, .ongoing, 1⟩, ⟨2, 1, 1, .ongoing, 2⟩],
    classifications := [⟨1, 1, "OS", none, some 1, some 2, "Dressed", some 15⟩],
    nextSessionId := 3, nextWcId := 2 }

def opsC1 : List Op :=
  [ .createEntry ⟨1, 1, .tally, 2, none, none⟩,
    .createEntry ⟨1, 1, .tally, 2, some 3, none⟩,
    .createEntry ⟨1, 1, .dispatcher, 2, none, none⟩,
    .updateEntry 2 { role := some .dispatcher } 7,
    .deleteEntry 3,
    .transferEntries [1] 2,
    .resetAllocations 2 true false ]

/-- Concrete run for C7: creates, per-entry deletes (one a not-found no-op),
a transfer and a full reset. -/
def dbC7 : DB :=
  { emptyDB with
    sessions := [⟨1, 1, 1, .ongoing, 1⟩, ⟨2, 1, 1, .ongoing, 2⟩],
    classifications := [⟨1, 1, "OS", none, some 1, some 2, "Dressed", some 15⟩],
    nextSessionId := 3, nextWcId := 2 }

def opsC7 : List Op :=
  [ .createEntry ⟨1, 1, .tally, 2, none, none⟩,
    .createEntry ⟨1, 1, .dispatcher, 2, none, none⟩,
    .deleteEntry 1,
    .deleteEntry 1,
    .transferEntries [2] 2,
    .resetAllocations 1 true true ]

theorem and_then_error_iff {β : Type} (c : Except String Unit) (v : β) :
    (∃ e, and_then c v = .error e) ↔ ∃ e, c = .error e := by
  cases c <;> simp [and_then]

theorem and_then_ok {β : Type} (c : Except String Unit) (v : β) (h : c = .ok ()) :
    and_then c v = .ok v := by
  rw [h]; rfl

/-! ### List toolbox -/
theorem find?_map_pred {α : Type} (g : α → α) (p : α → Bool) (l : List α)
    (hpg : ∀ a, p (g a) = p a) : (l.map g).find? p = (l.find? p).map g := by
  induction l with
  | nil => simp
  | cons a t ih =>
    cases hpa : p a with
    | true => simp [List.find?_cons, hpg, hpa]
    | false => simp [List.find?_cons, hpg, hpa, ih]

theorem find?_append_or {α : Type} (p : α → Bool) (l l' : List α) :
    (l ++ l').find? p = ((l.find? p).orElse (fun _ => l'.find? p)) := by
  induction l with
  | nil => simp
  | cons a t ih =>
    cases hpa : p a with
    | true => simp [List.find?_cons, hpa]
    | false => simp [List.find?_cons, hpa, ih]

theorem countP_eraseP {α : Type} (p q : α → Bool) (l : List α) (a : α)
    (h : l.find? q = some a) :
    (l.eraseP q).countP p + (if p a then 1 else 0) = l.countP p := by
  induction l with
  | nil => simp at h
  | cons b t ih =>
    cases hqb : q b with
    | true =>
      simp only [List.find?_cons, hqb, cond_true, Option.some.injEq] at h
      subst h
      simp [List.eraseP_cons, hqb, List.countP_cons]
    | false =>
      simp only [List.find?_cons, hqb, cond_false] at h
      simp only [List.eraseP_cons, hqb, cond_false, List.countP_cons]
      have := ih h
      omega

theorem map_update_id {α : Type} (key : α → Nat) (k : Nat) (new : α) (t : List α)
    (h : ∀ x ∈ t, key x ≠ k) :
    t.map (fun x => if key x == k then new else x) = t := by
  induction t with
  | nil => rfl
  | cons b r ih =>
    have hb : (key b == k) = false := by
      simpa using h b (List.mem_cons_self b r)
    simp only [List.map_cons, hb, Bool.false_eq_true, if_false]
    rw [ih (fun x hx => h x (List.mem_cons_of_mem _ hx))]

theorem countP_map_update {α : Type} (p : α → Bool) (key : α → Nat) (l : List α)
    (k : Nat) (new old : α)
    (hfind : l.find? (fun x => key x == k) = some old)
    (hnodup : (l.map key).Nodup) :
    (l.map (fun x => if key x == k then new else x)).countP p + (if p old then 1 else 0)
      = l.countP p + (if p new then 1 else 0) := by
  induction l with
  | nil => simp at hfind
  | cons b t ih =>
    simp only [List.map_cons, List.nodup_cons, List.mem_map] at hnodup
    cases hb : (key b == k) with
    | true =>
      simp only [List.find?_cons, hb, cond_true, Option.some.injEq] at hfind
      have hbk : key b = k := by simpa using hb
      have ht : t.map (fun x => if key x == k then new else x) = t := by
        apply map_update_id
        intro x hx hxk
        exact hnodup.1 ⟨x, hx, by rw [hxk, hbk]⟩
      subst hfind
      simp only [List.map_cons, hb, if_true, ht, List.countP_cons]
      omega
    | false =>
      simp only [List.find?_cons, hb, cond_false] at hfind
      simp only [List.map_cons, hb, Bool.false_eq_true, if_false, List.countP_cons]
      have := ih hfind hnodup.2
      omega

theorem find?_of_mem_nodup {α : Type} (key : α → Nat) (l : List α) (a : α)
    (ha : a ∈ l) (hnodup : (l.map key).Nodup) :
    l.find? (fun x => key x == key a) = some a := by
  induction l with
  | nil => simp at ha
  | cons b t ih =>
    simp only [List.map_cons, List.nodup_cons, List.mem_map] at hnodup
    rcases List.mem_cons.1 ha with rfl | hat
    · simp [List.find?_cons]
    · have hbk : (key b == key a) = false := by
        simp only [beq_eq_false_iff_ne, ne_eq]
        intro hk
        exact hnodup.1 ⟨a, hat, hk.symm⟩
      simp only [List.find?_cons, hbk, cond_false]
      exact ih hat hnodup.2

theorem keyPreserving_increment_role (r : Role) :
    KeyPreserving (fun a => increment_role a r) := by
  intro a; cases r <;> simp [increment_role]

theorem keyPreserving_decrement_role (r : Role) :
    KeyPreserving (fun a => decrement_role a r) := by
  intro a; cases r <;> simp [decrement_role]

theorem keyPreserving_comp {f g : AllocationDetails → AllocationDetails}
    (hf : KeyPreserving f) (hg : KeyPreserving g) :
    KeyPreserving (fun a => g (f a)) := by
  intro a
  exact ⟨((hg (f a)).1).trans (hf a).1, ((hg (f a)).2).trans (hf a).2⟩

theorem keyPreserving_add_heads (h : Rat) :
    KeyPreserving (fun a => add_heads a h) := by
  intro a; simp [add_heads]

theorem keyPreserving_sub_heads (h : Rat) :
    KeyPreserving (fun a => sub_heads a h) := by
  intro a; simp [sub_heads]

theorem allocation_matches_of_keyPreserving {f : AllocationDetails → AllocationDetails}
    (hf : KeyPreserving f) (S C : Nat) (a : AllocationDetails) :
    allocation_matches S C (f a) = allocation_matches S C a := by
  simp [allocation_matches, (hf a).1, (hf a).2]

theorem find_allocation_modify_same (db : DB) (S C : Nat)
    {f : AllocationDetails → AllocationDetails} (hf : KeyPreserving f) :
    find_allocation (modify_allocation db S C f) S C = (find_allocation db S C).map f := by
  unfold find_allocation modify_allocation
  rw [find?_map_pred]
  · cases hfa : db.allocations.find? (allocation_matches S C) with
    | none => simp
    | some a =>
      have := List.find?_some hfa
      simp [Option.map, this]
  · intro a
    by_cases h : allocation_matches S C a = true
    · rw [if_pos h, allocation_matches_of_keyPreserving hf, h]
    · rw [if_neg h]

theorem find_allocation_modify_other (db : DB) (S C S' C' : Nat)
    {f : AllocationDetails → AllocationDetails} (hf : KeyPreserving f)
    (h : ¬(S' = S ∧ C' = C)) :
    find_allocation (modify_allocation db S C f) S' C' = find_allocation db S' C' := by
  unfold find_allocation modify_allocation
  rw [find?_map_pred]
  · cases hfa : db.allocations.find? (allocation_matches S' C') with
    | none => simp
    | some a =>
      have hm := List.find?_some hfa
      have : allocation_matches S C a = false := by
        simp only [allocation_matches, Bool.and_eq_true, beq_iff_eq] at hm ⊢
        simp only [Bool.and_eq_false_iff, beq_eq_false_iff_ne, ne_eq]
        by_contra hcon
        push_neg at hcon
        exact h ⟨by omega, by omega⟩
      simp [Option.map, this]
  · intro a
    by_cases hsc : allocation_matches S C a = true
    · rw [if_pos hsc]
      by_cases hm : allocation_matches S' C' a = true
      · exfalso
        simp only [allocation_matches, Bool.and_eq_true, beq_iff_eq] at hsc hm
        exact h ⟨by omega, by omega⟩
      · have h1 : allocation_matches S' C' a = false := by simpa using hm
        rw [allocation_matches_of_keyPreserving hf, h1]
    · rw [if_neg hsc]

theorem find_allocation_ensure_same (db : DB) (S C : Nat) :
    find_allocation (ensure_allocation db S C) S C =
      some ((find_allocation db S C).getD (new_allocation db.nextAllocId S C)) := by
  unfold ensure_allocation
  cases hfa : find_allocation db S C with
  | some a => simp [hfa]
  | none =>
    simp only [hfa, Option.isSome_none, Bool.false_eq_true, if_false, Option.getD_none]
    unfold find_allocation at hfa ⊢
    simp only
    rw [find?_append_or, hfa]
    simp [allocation_matches, new_allocation]

theorem find_allocation_ensure_other (db : DB) (S C S' C' : Nat)
    (h : ¬(S' = S ∧ C' = C)) :
    find_allocation (ensure_allocation db S C) S' C' = find_allocation db S' C' := by
  unfold ensure_allocation
  cases hfa : find_allocation db S C with
  | some a => simp [hfa]
  | none =>
    simp only [hfa, Option.isSome_none, Bool.false_eq_true, if_false]
    unfold find_allocation
    simp only
    rw [find?_append_or]
    cases hfb : db.allocations.find? (allocation_matches S' C') with
    | some b => simp [hfb]
    | none =>
      simp only [hfb, Option.orElse]
      have : allocation_matches S' C' (new_allocation db.nextAllocId S C) = false := by
        simp only [allocation_matches, new_allocation, Bool.and_eq_false_iff,
          beq_eq_false_iff_ne, ne_eq]
        by_contra hcon
        push_neg at hcon
        exact h ⟨hcon.1.symm, hcon.2.symm⟩
      simp [List.find?, this]

/-! ### Field projections of the aggregate writes -/
@[simp] theorem add_heads_heads (a : AllocationDetails) (h : Rat) :
    (add_heads a h).heads = some (a.heads.getD 0 + h) := rfl

@[simp] theorem add_heads_tally (a : AllocationDetails) (h : Rat) :
    (add_heads a h).allocated_bags_tally = a.allocated_bags_tally := rfl

@[simp] theorem add_heads_dispatcher (a : AllocationDetails) (h : Rat) :
    (add_heads a h).allocated_bags_dispatcher = a.allocated_bags_dispatcher := rfl

@[simp] theorem add_heads_required (a : AllocationDetails) (h : Rat) :
    (add_heads a h).required_bags = a.required_bags := rfl

@[simp] theorem sub_heads_heads (a : AllocationDetails) (h : Rat) :
    (sub_heads a h).heads = some (max 0 (a.heads.getD 0 - h)) := rfl

@[simp] theorem sub_heads_tally (a : AllocationDetails) (h : Rat) :
    (sub_heads a h).allocated_bags_tally = a.allocated_bags_tally := rfl

@[simp] theorem sub_heads_dispatcher (a : AllocationDetails) (h : Rat) :
    (sub_heads a h).allocated_bags_dispatcher = a.allocated_bags_dispatcher := rfl

@[simp] theorem sub_heads_required (a : AllocationDetails) (h : Rat) :
    (sub_heads a h).required_bags = a.required_bags := rfl

@[simp] theorem increment_role_heads (a : AllocationDetails) (r : Role) :
    (increment_role a r).heads = a.heads := by cases r <;> rfl

@[simp] theorem increment_role_required (a : AllocationDetails) (r : Role) :
    (increment_role a r).required_bags = a.required_bags := by cases r <;> rfl

@[simp] theorem decrement_role_heads (a : AllocationDetails) (r : Role) :
    (decrement_role a r).heads = a.heads := by cases r <;> rfl

@[simp] theorem decrement_role_required (a : AllocationDetails) (r : Role) :
    (decrement_role a r).required_bags = a.required_bags := by cases r <;> rfl

theorem increment_role_tally (a : AllocationDetails) (r : Role) :
    (increment_role a r).allocated_bags_tally =
      a.allocated_bags_tally + (if r = .tally then 1 else 0) := by
  cases r <;> simp [increment_role]

theorem increment_role_dispatcher (a : AllocationDetails) (r : Role) :
    (increment_role a r).allocated_bags_dispatcher =
      a.allocated_bags_dispatcher + (if r = .dispatcher then 1 else 0) := by
  cases r <;> simp [increment_role]

theorem decrement_role_tally (a : AllocationDetails) (r : Role) :
    (decrement_role a r).allocated_bags_tally =
      if r = .tally then max 0 (a.allocated_bags_tally - 1) else a.allocated_bags_tally := by
  cases r <;> simp [decrement_role]

theorem decrement_role_dispatcher (a : AllocationDetails) (r : Role) :
    (decrement_role a r).allocated_bags_dispatcher =
      if r = .dispatcher then max 0 (a.allocated_bags_dispatcher - 1)
      else a.allocated_bags_dispatcher := by
  cases r <;> simp [decrement_role]

/-! ### Frame projections of the allocation writes -/
@[simp] theorem modify_allocation_entries (db : DB) (S C : Nat) (f) :
    (modify_allocation db S C f).entries = db.entries := rfl

@[simp] theorem modify_allocation_sessions (db : DB) (S C : Nat) (f) :
    (modify_allocation db S C f).sessions = db.sessions := rfl

@[simp] theorem modify_allocation_classifications (db : DB) (S C : Nat) (f) :
    (modify_allocation db S C f).classifications = db.classifications := rfl

@[simp] theorem modify_allocation_audits (db : DB) (S C : Nat) (f) :
    (modify_allocation db S C f).audits = db.audits := rfl

@[simp] theorem modify_allocation_nextEntryId (db : DB) (S C : Nat) (f) :
    (modify_allocation db S C f).nextEntryId = db.nextEntryId := rfl

@[simp] theorem ensure_allocation_entries (db : DB) (S C : Nat) :
    (ensure_allocation db S C).entries = db.entries := by
  unfold ensure_allocation; split <;> rfl

@[simp] theorem ensure_allocation_sessions (db : DB) (S C : Nat) :
    (ensure_allocation db S C).sessions = db.sessions := by
  unfold ensure_allocation; split <;> rfl

@[simp] theorem ensure_allocation_classifications (db : DB) (S C : Nat) :
    (ensure_allocation db S C).classifications = db.classifications := by
  unfold ensure_allocation; split <;> rfl

@[simp] theorem ensure_allocation_audits (db : DB) (S C : Nat) :
    (ensure_allocation db S C).audits = db.audits := by
  unfold ensure_allocation; split <;> rfl

@[simp] theorem ensure_allocation_nextEntryId (db : DB) (S C : Nat) :
    (ensure_allocation db S C).nextEntryId = db.nextEntryId := by
  unfold ensure_allocation; split <;> rfl

@[simp] theorem find_allocation_update_entries (db : DB) (es : List TallyLogEntry)
    (n S C : Nat) :
    find_allocation { db with entries := es, nextEntryId := n } S C
      = find_allocation db S C := rfl

/-- Equation lemma for the successful `create_tally_log_entry` path. -/
theorem create_tally_log_entry_eq (db : DB) (c : TallyLogEntryCreate)
    (s0 : TallySession) (wc : WeightClassification)
    (hs : get_tally_session db c.tally_session_id = some s0)
    (hwc : get_weight_classification db c.weight_classification_id = some wc) :
    create_tally_log_entry db c =
      (let v : Rat := c.heads.getD (wc.default_heads.getD 15)
       let db1 := modify_allocation
         (ensure_allocation db c.tally_session_id c.weight_classification_id)
         c.tally_session_id c.weight_classification_id
         (fun a => add_heads (increment_role a c.role) v)
       .ok ({ db1 with
                entries := db1.entries ++ [create_result_entry db1 c v],
                nextEntryId := db1.nextEntryId + 1 },
         create_result_entry db1 c v)) := by
  unfold create_tally_log_entry
  rw [hs, hwc]
  rfl

/-- Equation lemma for the create path when the session is missing. -/
theorem create_tally_log_entry_no_session (db : DB) (c : TallyLogEntryCreate)
    (hs : get_tally_session db c.tally_session_id = none) :
    create_tally_log_entry db c = .error "Tally session not found" := by
  unfold create_tally_log_entry
  rw [hs]

theorem ranges_overlap_iff_spec (min1 max1 min2 max2 : Option Rat) :
    ranges_overlap min1 max1 min2 max2 = true ↔
      spec_ranges_overlap min1 max1 min2 max2 := by
  unfold ranges_overlap spec_ranges_overlap bound_le
  cases min1 <;> cases max1 <;> cases min2 <;> cases max2 <;>
    simp [Option.isNone]

theorem wc_excluded_none (wc : WeightClassification) : wc_excluded none wc = false := rfl

theorem wc_excluded_some_iff (eid : Nat) (wc : WeightClassification) (h0 : eid ≠ 0) :
    wc_excluded (some eid) wc = false ↔ wc.id ≠ eid := by
  simp [wc_excluded, h0]

theorem spec_ranges_overlap_symm (m1 M1 m2 M2 : Option Rat) :
    spec_ranges_overlap m1 M1 m2 M2 ↔ spec_ranges_overlap m2 M2 m1 M1 := by
  unfold spec_ranges_overlap
  exact and_comm

theorem check_overlaps_error_iff (db : DB) (plant_id : Nat) (category : String)
    (mn mx : Option Rat) (ex : Option Nat) (hcat : category ≠ "Byproduct") :
    (∃ e, check_overlaps db plant_id category mn mx ex = .error e) ↔
      ∃ wc ∈ db.classifications, wc_excluded ex wc = false
        ∧ wc.plant_id = plant_id ∧ wc.category = category
        ∧ spec_ranges_overlap mn mx wc.min_weight wc.max_weight := by
  unfold check_overlaps overlap_conflict
  have hc : (category == "Byproduct") = false := by simp [hcat]
  rw [hc]
  simp only [Bool.false_eq_true, if_false]
  constructor
  · rintro ⟨e, he⟩
    cases hfind : (db.classifications.filter
        (fun wc => wc.plant_id == plant_id && wc.category == category)).find?
        (fun wc => !(wc_excluded ex wc)
          && ranges_overlap mn mx wc.min_weight wc.max_weight) with
    | none => rw [hfind] at he; exact absurd he (by simp)
    | some wc =>
      have hmem := List.mem_of_find?_eq_some hfind
      have hp := List.find?_some hfind
      rw [List.mem_filter] at hmem
      simp only [Bool.and_eq_true, beq_iff_eq] at hmem
      simp only [Bool.and_eq_true, Bool.not_eq_true'] at hp
      exact ⟨wc, hmem.1, hp.1, hmem.2.1, hmem.2.2,
        (ranges_overlap_iff_spec mn mx wc.min_weight wc.max_weight).mp hp.2⟩
  · rintro ⟨wc, hmem, hex, hp, hcat2, hov⟩
    cases hfind : (db.classifications.filter
        (fun wc => wc.plant_id == plant_id && wc.category == category)).find?
        (fun wc => !(wc_excluded ex wc)
          && ranges_overlap mn mx wc.min_weight wc.max_weight) with
    | some w =>
      exact ⟨"Weight range overlaps with existing classification "
        ++ w.classification ++ " for the same plant and category", rfl⟩
    | none =>
      exfalso
      have hnone := List.find?_eq_none.mp hfind wc
        (List.mem_filter.mpr ⟨hmem, by simp [hp, hcat2]⟩)
      apply hnone
      simp [hex, (ranges_overlap_iff_spec mn mx wc.min_weight wc.max_weight).mpr hov]

/-- C6: catch-all intervals conflict with everything in their plant+category,
creation of a Dressed/Frozen classification is rejected exactly when the
normalized `min1 ≤ max2 AND min2 ≤ max1` test succeeds against some existing
classification of the same plant and category, and likewise for updates
(excluding the updated classification itself) on any state whose existing
Dressed/Frozen classifications are pairwise non-overlapping. -/
theorem weight_range_overlap_rule :
    (∀ m2 M2 : Option Rat, spec_ranges_overlap none none m2 M2)
    ∧ (∀ (db : DB) (w : WeightClassificationCreate),
        (w.category = "Dressed" ∨ w.category = "Frozen") →
        ((∃ e, create_weight_classification db w = .error e) ↔
          ∃ wc ∈ db.classifications, wc.plant_id = w.plant_id ∧ wc.category = w.category
            ∧ spec_ranges_overlap w.min_weight w.max_weight wc.min_weight wc.max_weight))
    ∧ (∀ (db : DB) (wc_id : Nat) (u : WeightClassificationUpdate)
        (db_wc : WeightClassification),
        get_weight_classification db wc_id = some db_wc →
        wc_id ≠ 0 →
        ((apply_wc_update db_wc u).category = "Dressed"
          ∨ (apply_wc_update db_wc u).category = "Frozen") →
        (∀ wc1 ∈ db.classifications, ∀ wc2 ∈ db.classifications,
          wc1.id ≠ wc2.id → wc1.plant_id = wc2.plant_id → wc1.category = wc2.category →
          wc1.category ≠ "Byproduct" →
          ¬ spec_ranges_overlap wc1.min_weight wc1.max_weight
              wc2.min_weight wc2.max_weight) →
        ((∃ e, update_weight_classification db wc_id u = .error e) ↔
          ∃ wc ∈ db.classifications, wc.id ≠ wc_id
            ∧ wc.plant_id = db_wc.plant_id
            ∧ wc.category = (apply_wc_update db_wc u).category
            ∧ spec_ranges_overlap (apply_wc_update db_wc u).min_weight
                (apply_wc_update db_wc u).max_weight wc.min_weight wc.max_weight)) := by
  refine ⟨?_, ?_, ?_⟩
  · intro m2 M2
    exact ⟨by cases M2 <;> rfl, by cases m2 <;> rfl⟩
  · intro db w hdf
    have hcat : w.category ≠ "Byproduct" := by
      rcases hdf with h | h <;> rw [h] <;> decide
    have hc : (w.category == "Byproduct") = false := by simp [hcat]
    simp only [create_weight_classification, hc, Bool.false_eq_true, if_false]
    rw [and_then_error_iff]
    rw [check_overlaps_error_iff db w.plant_id w.category w.min_weight w.max_weight none hcat]
    constructor
    · rintro ⟨wc, hmem, _, h1, h2, h3⟩
      exact ⟨wc, hmem, h1, h2, h3⟩
    · rintro ⟨wc, hmem, h1, h2, h3⟩
      exact ⟨wc, hmem, wc_excluded_none wc, h1, h2, h3⟩
  · intro db wc_id u db_wc hget h0 hdf hinv
    have hdbmem : db_wc ∈ db.classifications := List.mem_of_find?_eq_some hget
    have hdbid : db_wc.id = wc_id := by
      have := List.find?_some hget
      simpa using this
    have hcat : (apply_wc_update db_wc u).category ≠ "Byproduct" := by
      rcases hdf with h | h <;> rw [h] <;> decide
    have hc : ((apply_wc_update db_wc u).category == "Byproduct") = false := by
      simp [hcat]
    simp only [update_weight_classification, hget, hc, Bool.false_eq_true, if_false]
    by_cases hcond : (u.min_weight_set || u.max_weight_set || u.category.isSome) = true
    · rw [hcond]
      simp only [if_true]
      rw [and_then_error_iff]
      rw [check_overlaps_error_iff db db_wc.plant_id (apply_wc_update db_wc u).category
        (apply_wc_update db_wc u).min_weight (apply_wc_update db_wc u).max_weight
        (some wc_id) hcat]
      constructor
      · rintro ⟨wc, hmem, hex, h1, h2, h3⟩
        exact ⟨wc, hmem, (wc_excluded_some_iff wc_id wc h0).mp hex, h1, h2, h3⟩
      · rintro ⟨wc, hmem, hex, h1, h2, h3⟩
        exact ⟨wc, hmem, (wc_excluded_some_iff wc_id wc h0).mpr hex, h1, h2, h3⟩
    · have hcond2 : (u.min_weight_set || u.max_weight_set || u.category.isSome) = false := by
        simpa using hcond
      rw [hcond2]
      simp only [Bool.false_eq_true, if_false]
      have hmin : u.min_weight_set = false := by
        simp only [Bool.or_eq_false_iff] at hcond2; exact hcond2.1.1
      have hmax : u.max_weight_set = false := by
        simp only [Bool.or_eq_false_iff] at hcond2; exact hcond2.1.2
      have hcatn : u.category = none := by
        have hcats : u.category.isSome = false := by
          simp only [Bool.or_eq_false_iff] at hcond2; exact hcond2.2
        cases hcg : u.category with
        | none => rfl
        | some c => rw [hcg] at hcats; exact absurd hcats (by simp)
      have hfinmin : (apply_wc_update db_wc u).min_weight = db_wc.min_weight := by
        simp [apply_wc_update, hmin]
      have hfinmax : (apply_wc_update db_wc u).max_weight = db_wc.max_weight := by
        simp [apply_wc_update, hmax]
      have hfincat : (apply_wc_update db_wc u).category = db_wc.category := by
        simp [apply_wc_update, hcatn]
      constructor
      · rintro ⟨e, he⟩
        rw [and_then_ok _ _ rfl] at he
        exact absurd he (by simp)
      · rintro ⟨wc, hmem, hid, h1, h2, h3⟩
        exfalso
        have hne : wc.id ≠ db_wc.id := by rw [hdbid]; exact hid
        have hover := hinv wc hmem db_wc hdbmem hne h1
          (by rw [h2, hfincat]) (by rw [h2]; exact hcat)
        apply hover
        rw [spec_ranges_overlap_symm]
        rw [hfinmin, hfinmax] at h3
        exact h3

/-- C6 witness: a proposed "P5" Dressed [17, 19] for plant 1 is rejected on
create (overlaps both rows), an update moving P4 to [17, 19] is rejected
(overlaps OS), and the catch-all part at concrete bounds. -/
theorem weight_range_overlap_rule_witness :
    (∃ e, create_weight_classification db6
      ⟨1, "P5", none, some 17, some 19, "Dressed", some 15⟩ = .error e)
    ∧ (∃ e, update_weight_classification db6 2
        { min_weight_set := true, min_weight := some 17,
          max_weight_set := true, max_weight := some 19 } = .error e)
    ∧ spec_ranges_overlap none none (some 1) (some 2) := by
  refine ⟨?_, ?_, weight_range_overlap_rule.1 (some 1) (some 2)⟩
  · refine (weight_range_overlap_rule.2.1 db6
      ⟨1, "P5", none, some 17, some 19, "Dressed", some 15⟩ (Or.inl rfl)).mpr ?_
    refine ⟨⟨1, 1, "OS", none, some 18, none, "Dressed", some 15⟩, ?_, rfl, rfl, ?_⟩
    · simp [db6]
    · exact ⟨by decide, by decide⟩
  · refine (weight_range_overlap_rule.2.2 db6 2
      { min_weight_set := true, min_weight := some 17,
        max_weight_set := true, max_weight := some 19 }
      ⟨2, 1, "P4", none, some 16, some 17, "Dressed", some 15⟩
      (by decide) (by decide) (Or.inl rfl) ?_).mpr ?_
    · intro wc1 h1 wc2 h2 hne hp hc hnb
      simp only [db6, List.mem_cons, List.not_mem_nil, or_false] at h1 h2
      rcases h1 with rfl | rfl <;> rcases h2 with rfl | rfl <;>
        first
        | exact absurd rfl hne
        | (intro hov; exact absurd hov (by decide))
    · refine ⟨⟨1, 1, "OS", none, some 18, none, "Dressed", some 15⟩, ?_, ?_, rfl, rfl, ?_⟩
      · simp [db6]
      · decide
      · exact ⟨by decide, by decide⟩

theorem alloc_heads_of_map (db db' : DB) (g : AllocationDetails → AllocationDetails)
    (hg : KeyPreserving g) (hh : ∀ a, (g a).heads = a.heads)
    (hal : db'.allocations = db.allocations.map g) (S C : Nat) :
    alloc_heads db' S C = alloc_heads db S C := by
  unfold alloc_heads find_allocation
  rw [hal, find?_map_pred g _ _ (fun a => allocation_matches_of_keyPreserving hg S C a)]
  cases db.allocations.find? (allocation_matches S C) with
  | none => rfl
  | some a => simp [hh]

theorem required_of_map (db db' : DB) (g : AllocationDetails → AllocationDetails)
    (hg : KeyPreserving g) (hr : ∀ a, (g a).required_bags = a.required_bags)
    (hal : db'.allocations = db.allocations.map g) (S C : Nat) :
    required_of db' S C = required_of db S C := by
  unfold required_of find_allocation
  rw [hal, find?_map_pred g _ _ (fun a => allocation_matches_of_keyPreserving hg S C a)]
  cases db.allocations.find? (allocation_matches S C) with
  | none => rfl
  | some a => simp [hr]

/-! ### C8: bulk reset effect and frame -/
/-- C8: with reset_tally, all TALLY entries of the session are deleted and
allocated_bags_tally zeroed on every allocation of the session (symmetrically
for reset_dispatcher), heads and required_bags are untouched, the returned
counts are as documented, and a session without allocations is a no-op. -/
theorem bulk_reset_effect (db : DB) (sid : Nat) :
    ((db.allocations.filter (fun a => a.tally_session_id == sid)) = [] →
      ∀ rt rd, reset_allocated_bags_for_session db sid rt rd = (db, 0, 0))
    ∧ ((db.allocations.filter (fun a => a.tally_session_id == sid)) ≠ [] →
      (reset_allocated_bags_for_session db sid true false).1.entries
          = db.entries.filter
              (fun e => !(e.tally_session_id == sid && e.role == Role.tally))
        ∧ (reset_allocated_bags_for_session db sid true false).1.allocations
          = db.allocations.map (fun a => if a.tally_session_id == sid
              then { a with allocated_bags_tally := 0 } else a)
        ∧ (∀ S C, alloc_heads (reset_allocated_bags_for_session db sid true false).1 S C
              = alloc_heads db S C
            ∧ required_of (reset_allocated_bags_for_session db sid true false).1 S C
              = required_of db S C)
        ∧ (reset_allocated_bags_for_session db sid true false).2
          = ((db.allocations.filter (fun a => a.tally_session_id == sid)).length,
             db.entries.countP
               (fun e => e.tally_session_id == sid && e.role == Role.tally)))
    ∧ ((db.allocations.filter (fun a => a.tally_session_id == sid)) ≠ [] →
      (reset_allocated_bags_for_session db sid false true).1.entries
          = db.entries.filter
              (fun e => !(e.tally_session_id == sid && e.role == Role.dispatcher))
        ∧ (reset_allocated_bags_for_session db sid false true).1.allocations
          = db.allocations.map (fun a => if a.tally_session_id == sid
              then { a with allocated_bags_dispatcher := 0 } else a)
        ∧ (∀ S C, alloc_heads (reset_allocated_bags_for_session db sid false true).1 S C
              = alloc_heads db S C
            ∧ required_of (reset_allocated_bags_for_session db sid false true).1 S C
              = required_of db S C)
        ∧ (reset_allocated_bags_for_session db sid false true).2
          = ((db.allocations.filter (fun a => a.tally_session_id == sid)).length,
             db.entries.countP
               (fun e => e.tally_session_id == sid && e.role == Role.dispatcher))) := by
  refine ⟨?_, ?_, ?_⟩
  · intro h rt rd
    unfold reset_allocated_bags_for_session
    rw [h]
    rfl
  · intro h
    have hne : (db.allocations.filter (fun a => a.tally_session_id == sid)).isEmpty
        = false := by
      simpa [List.isEmpty_iff] using h
    have hallocs : (reset_allocated_bags_for_session db sid true false).1.allocations
        = db.allocations.map (fun a => if a.tally_session_id == sid
            then { a with allocated_bags_tally := 0 } else a) := by
      simp only [reset_allocated_bags_for_session, hne]
      simp
    refine ⟨?_, hallocs, ?_, ?_⟩
    · simp only [reset_allocated_bags_for_session, hne]
      simp
    · intro S C
      have hg : KeyPreserving (fun a => if a.tally_session_id == sid
          then { a with allocated_bags_tally := 0 } else a) := by
        intro a; dsimp only; split <;> simp
      constructor
      · exact alloc_heads_of_map db _ _ hg
          (fun a => by by_cases hx : (a.tally_session_id == sid) = true <;> simp [hx]) hallocs S C
      · exact required_of_map db _ _ hg
          (fun a => by by_cases hx : (a.tally_session_id == sid) = true <;> simp [hx]) hallocs S C
    · simp only [reset_allocated_bags_for_session, hne]
      simp
  · intro h
    have hne : (db.allocations.filter (fun a => a.tally_session_id == sid)).isEmpty
        = false := by
      simpa [List.isEmpty_iff] using h
    have hallocs : (reset_allocated_bags_for_session db sid false true).1.allocations
        = db.allocations.map (fun a => if a.tally_session_id == sid
            then { a with allocated_bags_dispatcher := 0 } else a) := by
      simp only [reset_allocated_bags_for_session, hne]
      simp
    refine ⟨?_, hallocs, ?_, ?_⟩
    · simp only [reset_allocated_bags_for_session, hne]
      simp
    · intro S C
      have hg : KeyPreserving (fun a => if a.tally_session_id == sid
          then { a with allocated_bags_dispatcher := 0 } else a) := by
        intro a; dsimp only; split <;> simp
      constructor
      · exact alloc_heads_of_map db _ _ hg
          (fun a => by by_cases hx : (a.tally_session_id == sid) = true <;> simp [hx]) hallocs S C
      · exact required_of_map db _ _ hg
          (fun a => by by_cases hx : (a.tally_session_id == sid) = true <;> simp [hx]) hallocs S C
    · simp only [reset_allocated_bags_for_session, hne]
      simp

/-- C8 witness: the reset applied to the concrete state, plus the no-op case
on a session without allocations. -/
theorem bulk_reset_effect_witness :
    (reset_allocated_bags_for_session db8 1 true false).1.entries
        = [⟨2, 1, 1, .dispatcher, 2, some 15, none, none, none⟩]
    ∧ alloc_heads (reset_allocated_bags_for_session db8 1 true false).1 1 1 = 30
    ∧ required_of (reset_allocated_bags_for_session db8 1 true false).1 1 1 = 5
    ∧ (reset_allocated_bags_for_session db8 1 true false).2 = (1, 1)
    ∧ reset_allocated_bags_for_session db8 2 true true = (db8, 0, 0) := by
  have h := bulk_reset_effect db8 1
  have h2 := (h.2.1 (by decide))
  refine ⟨?_, ?_, ?_, ?_, ?_⟩
  · rw [h2.1]; decide
  · rw [(h2.2.2.1 1 1).1]; decide
  · rw [(h2.2.2.1 1 1).2]; decide
  · rw [h2.2.2.2]; decide
  · exact (bulk_reset_effect db8 2).1 (by decide) true true

/-! ### C10: allocation deletion cascade and reclassification guards -/
/-- C10: deleting an allocation row also deletes every log entry of its
(session, classification) key, and changing an allocation's classification is
rejected when any log entry exists for the old key or when another allocation
already occupies the new key. -/
theorem allocation_delete_and_reclassify_rules :
    (∀ (db : DB) (aid : Nat) (a : AllocationDetails),
      get_allocation_detail db aid = some a →
      (delete_allocation_detail db aid).1.entries
          = db.entries.filter (fun e =>
              !(e.tally_session_id == a.tally_session_id
                && e.weight_classification_id == a.weight_classification_id))
        ∧ (delete_allocation_detail db aid).2 = true
        ∧ (∀ e ∈ db.entries, e.tally_session_id = a.tally_session_id →
            e.weight_classification_id = a.weight_classification_id →
            e ∉ (delete_allocation_detail db aid).1.entries))
    ∧ (∀ (db : DB) (aid : Nat) (a : AllocationDetails) (u : AllocationDetailsUpdate)
        (nw : Nat),
      get_allocation_detail db aid = some a →
      u.weight_classification_id = some nw →
      nw ≠ a.weight_classification_id →
      0 < db.entries.countP (fun e =>
        e.tally_session_id == a.tally_session_id
          && e.weight_classification_id == a.weight_classification_id) →
      ∃ e, update_allocation_detail db aid u = .error e)
    ∧ (∀ (db : DB) (aid : Nat) (a : AllocationDetails) (u : AllocationDetailsUpdate)
        (nw : Nat) (b : AllocationDetails),
      get_allocation_detail db aid = some a →
      u.weight_classification_id = some nw →
      nw ≠ a.weight_classification_id →
      b ∈ db.allocations → b.id ≠ aid → b.tally_session_id = a.tally_session_id →
      b.weight_classification_id = nw →
      ∃ e, update_allocation_detail db aid u = .error e) := by
  refine ⟨?_, ?_, ?_⟩
  · intro db aid a hget
    refine ⟨?_, ?_, ?_⟩
    · unfold delete_allocation_detail
      rw [hget]
    · unfold delete_allocation_detail
      rw [hget]
    · intro e hmem hs hw hmem'
      have : (delete_allocation_detail db aid).1.entries
          = db.entries.filter (fun e =>
              !(e.tally_session_id == a.tally_session_id
                && e.weight_classification_id == a.weight_classification_id)) := by
        unfold delete_allocation_detail
        rw [hget]
      rw [this, List.mem_filter] at hmem'
      simp [hs, hw] at hmem'
  · intro db aid a u nw hget hu hne hcount
    simp only [update_allocation_detail, hget, hu]
    rw [if_pos hne]
    rw [if_pos hcount]
    exact ⟨_, rfl⟩
  · intro db aid a u nw b hget hu hne hbmem hbid hbs hbw
    simp only [update_allocation_detail, hget, hu]
    rw [if_pos hne]
    by_cases hcount : 0 < db.entries.countP (fun e =>
        e.tally_session_id == a.tally_session_id
          && e.weight_classification_id == a.weight_classification_id)
    · rw [if_pos hcount]
      exact ⟨_, rfl⟩
    · rw [if_neg hcount]
      have hany : db.allocations.any (fun x =>
          x.tally_session_id == a.tally_session_id
            && x.weight_classification_id == nw
            && x.id != aid) = true := by
        rw [List.any_eq_true]
        exact ⟨b, hbmem, by simp [hbs, hbw, hbid]⟩
      rw [if_pos hany]
      exact ⟨_, rfl⟩

/-- C10 witness: the cascade delete and both rejection rules at the concrete
state. -/
theorem allocation_delete_and_reclassify_rules_witness :
    (delete_allocation_detail db10 1).1.entries = []
    ∧ (∃ e, update_allocation_detail db10 1
        { weight_classification_id := some 2 } = .error e)
    ∧ (∃ e, update_allocation_detail db10 2
        { weight_classification_id := some 1 } = .error e) := by
  have h := allocation_delete_and_reclassify_rules
  refine ⟨?_, ?_, ?_⟩
  · rw [(h.1 db10 1 ⟨1, 1, 1, 5, 1, 0, some 15⟩ (by decide)).1]
    decide
  · exact h.2.1 db10 1 ⟨1, 1, 1, 5, 1, 0, some 15⟩
      { weight_classification_id := some 2 } 2 (by decide) rfl (by decide) (by decide)
  · exact h.2.2 db10 2 ⟨2, 1, 2, 3, 0, 0, some 0⟩
      { weight_classification_id := some 1 } 1 ⟨1, 1, 1, 5, 1, 0, some 15⟩
      (by decide) rfl (by decide) (by decide) (by decide) (by decide) (by decide)

/-! ### Transfer inversion -/
theorem transfer_ok_inversion (db : DB) (entry_ids : List Nat) (target : Nat)
    (db' : DB) (n : Nat)
    (h : transfer_tally_log_entries db entry_ids target = .ok (db', n)) :
    entry_ids ≠ []
    ∧ (transfer_entries db entry_ids).length = entry_ids.length
    ∧ (∀ e ∈ transfer_entries db entry_ids, e.tally_session_id ≠ target)
    ∧ (∃ ts, get_tally_session db target = some ts ∧ ts.status = .ongoing
        ∧ (∀ e ∈ transfer_entries db entry_ids, ∀ s,
            get_tally_session db e.tally_session_id = some s →
              s.plant_id = ts.plant_id))
    ∧ (∀ e ∈ transfer_entries db entry_ids,
        ∃ s, get_tally_session db e.tally_session_id = some s)
    ∧ (∀ e ∈ transfer_entries db entry_ids,
        ∃ wc, get_weight_classification db e.weight_classification_id = some wc
          ∧ ∀ s, get_tally_session db e.tally_session_id = some s →
              wc.plant_id = s.plant_id)
    ∧ db' = (group_tally_counts (transfer_entries db entry_ids)).foldl
        (move_required target) ((transfer_entries db entry_ids).foldl (move_entry target) db)
    ∧ n = (transfer_entries db entry_ids).length := by
  simp only [transfer_tally_log_entries] at h
  split at h
  · exact absurd h (by simp)
  next hne =>
  split at h
  next hlen => exact absurd h (by simp)
  next hlen =>
  split at h
  next hany => exact absurd h (by simp)
  next hany =>
  split at h
  next hsrc => exact absurd h (by simp)
  next hsrc =>
  split at h
  next hsp => exact absurd h (by simp)
  next source_plant_id rest hsp =>
  split at h
  next hrest => exact absurd h (by simp)
  next hrest =>
  split at h
  next hts => exact absurd h (by simp)
  next target_session hts =>
  split at h
  next hpl => exact absurd h (by simp)
  next hpl =>
  split at h
  next hst => exact absurd h (by simp)
  next hst =>
  split at h
  next hwc1 => exact absurd h (by simp)
  next hwc1 =>
  split at h
  next hwc2 => exact absurd h (by simp)
  next hwc2 =>
  simp only [Except.ok.injEq, Prod.mk.injEq] at h
  obtain ⟨hdb, hn⟩ := h
  have hrest2 : rest = [] := by simpa using hrest
  subst hrest2
  have hplants : ∀ e ∈ transfer_entries db entry_ids, ∀ s,
      get_tally_session db e.tally_session_id = some s →
        s.plant_id = source_plant_id := by
    intro e he s hs
    have hsidmem : e.tally_session_id ∈
        ((transfer_entries db entry_ids).map (fun e => e.tally_session_id)).dedup :=
      List.mem_dedup.mpr (List.mem_map_of_mem _ he)
    have hpmem : s.plant_id ∈
        ((((transfer_entries db entry_ids).map (fun e => e.tally_session_id)).dedup).filterMap
          (fun sid => (get_tally_session db sid).map (fun s => s.plant_id))).dedup := by
      apply List.mem_dedup.mpr
      apply List.mem_filterMap.mpr
      exact ⟨e.tally_session_id, hsidmem, by rw [hs]; rfl⟩
    rw [hsp] at hpmem
    simpa using hpmem
  have hplt : target_session.plant_id = source_plant_id := by
    by_contra hcon
    exact hpl hcon
  refine ⟨?_, ?_, ?_, ?_, ?_, ?_, hdb.symm, hn.symm⟩
  · simpa [List.isEmpty_iff] using hne
  · by_contra hcon
    exact hlen hcon
  · intro e he
    intro hcon
    apply hany
    rw [List.any_eq_true]
    exact ⟨e, he, by simp [hcon]⟩
  · refine ⟨target_session, hts, ?_, ?_⟩
    · by_contra hcon
      exact hst hcon
    · intro e he s hs
      rw [hplants e he s hs, hplt]
  · intro e he
    have hsidmem : e.tally_session_id ∈
        ((transfer_entries db entry_ids).map (fun e => e.tally_session_id)).dedup :=
      List.mem_dedup.mpr (List.mem_map_of_mem _ he)
    cases hg : get_tally_session db e.tally_session_id with
    | some s => exact ⟨s, rfl⟩
    | none =>
      exfalso
      apply hsrc
      rw [List.any_eq_true]
      exact ⟨e.tally_session_id, hsidmem, by simp [hg]⟩
  · intro e he
    have hwmem : e.weight_classification_id ∈
        ((transfer_entries db entry_ids).map (fun e => e.weight_classification_id)).dedup :=
      List.mem_dedup.mpr (List.mem_map_of_mem _ he)
    cases hg : get_weight_classification db e.weight_classification_id with
    | none =>
      exfalso
      apply hwc1
      rw [List.any_eq_true]
      exact ⟨e.weight_classification_id, hwmem, by simp [hg]⟩
    | some wc =>
      refine ⟨wc, rfl, ?_⟩
      intro s hs
      have hwp : wc.plant_id = source_plant_id := by
        by_contra hcon
        apply hwc2
        rw [List.any_eq_true]
        refine ⟨e.weight_classification_id, hwmem, ?_⟩
        rw [hg]
        simpa using hcon
      rw [hwp, hplants e he s hs]

/-! ### Frame lemmas for the allocation reads -/
theorem find_allocation_eq_of_allocations (db db' : DB)
    (hal : db'.allocations = db.allocations) (S C : Nat) :
    find_allocation db' S C = find_allocation db S C := by
  unfold find_allocation
  rw [hal]

theorem required_of_eq_of_allocations (db db' : DB)
    (hal : db'.allocations = db.allocations) (S C : Nat) :
    required_of db' S C = required_of db S C := by
  unfold required_of
  rw [find_allocation_eq_of_allocations db db' hal]

theorem required_of_modify (db : DB) (S0 C0 : Nat)
    {f : AllocationDetails → AllocationDetails} (hf : KeyPreserving f)
    (hr : ∀ a, (f a).required_bags = a.required_bags) (S C : Nat) :
    required_of (modify_allocation db S0 C0 f) S C = required_of db S C := by
  unfold required_of
  by_cases h : S = S0 ∧ C = C0
  · obtain ⟨rfl, rfl⟩ := h
    rw [find_allocation_modify_same db S C hf]
    cases hfa : find_allocation db S C with
    | none => rfl
    | some a => simp [hr]
  · rw [find_allocation_modify_other db S0 C0 S C hf h]

theorem required_of_modify_key (db : DB) (S C : Nat)
    {f : AllocationDetails → AllocationDetails} (hf : KeyPreserving f) :
    required_of (modify_allocation db S C f) S C
      = ((find_allocation db S C).map (fun a => (f a).required_bags)).getD 0 := by
  unfold required_of
  rw [find_allocation_modify_same db S C hf]
  cases find_allocation db S C <;> rfl

theorem required_of_modify_other_key (db : DB) (S0 C0 S C : Nat)
    {f : AllocationDetails → AllocationDetails} (hf : KeyPreserving f)
    (h : ¬(S = S0 ∧ C = C0)) :
    required_of (modify_allocation db S0 C0 f) S C = required_of db S C := by
  unfold required_of
  rw [find_allocation_modify_other db S0 C0 S C hf h]

theorem required_of_ensure (db : DB) (S0 C0 S C : Nat) :
    required_of (ensure_allocation db S0 C0) S C = required_of db S C := by
  unfold required_of
  by_cases h : S = S0 ∧ C = C0
  · obtain ⟨rfl, rfl⟩ := h
    rw [find_allocation_ensure_same db S C]
    cases hfa : find_allocation db S C with
    | none => simp [hfa, new_allocation]
    | some a => simp [hfa]
  · rw [find_allocation_ensure_other db S0 C0 S C h]

theorem alloc_tally_ensure (db : DB) (S0 C0 S C : Nat) :
    alloc_tally (ensure_allocation db S0 C0) S C = alloc_tally db S C := by
  unfold alloc_tally
  by_cases h : S = S0 ∧ C = C0
  · obtain ⟨rfl, rfl⟩ := h
    rw [find_allocation_ensure_same db S C]
    cases hfa : find_allocation db S C with
    | none => simp [hfa, new_allocation]
    | some a => simp [hfa]
  · rw [find_allocation_ensure_other db S0 C0 S C h]

theorem alloc_dispatcher_ensure (db : DB) (S0 C0 S C : Nat) :
    alloc_dispatcher (ensure_allocation db S0 C0) S C = alloc_dispatcher db S C := by
  unfold alloc_dispatcher
  by_cases h : S = S0 ∧ C = C0
  · obtain ⟨rfl, rfl⟩ := h
    rw [find_allocation_ensure_same db S C]
    cases hfa : find_allocation db S C with
    | none => simp [hfa, new_allocation]
    | some a => simp [hfa]
  · rw [find_allocation_ensure_other db S0 C0 S C h]

theorem required_of_nonneg (db : DB)
    (hnn : ∀ a ∈ db.allocations, 0 ≤ a.required_bags) (S C : Nat) :
    0 ≤ required_of db S C := by
  unfold required_of
  cases hfa : find_allocation db S C with
  | none => simp
  | some a =>
    have := List.mem_of_find?_eq_some hfa
    simpa using hnn a this

/-! ### The required_bags phase of the transfer -/
theorem required_of_move_required (db : DB) (target gs gc : Nat) (cnt : Nat)
    (htgt : gs ≠ target) (hnn : 0 ≤ required_of db gs gc) (S C : Nat) :
    required_of (move_required target db ((gs, gc), cnt)) S C =
      if S = gs ∧ C = gc then
        required_of db gs gc - min (cnt : Rat) (required_of db gs gc)
      else if S = target ∧ C = gc then
        required_of db S C + min (cnt : Rat) (required_of db gs gc)
      else required_of db S C := by
  cases hfa : find_allocation db gs gc with
  | none =>
    simp only [move_required, hfa]
    have hr0 : required_of db gs gc = 0 := by
      unfold required_of
      rw [hfa]
      rfl
    rw [hr0]
    have hm : min (cnt : Rat) 0 = 0 := min_eq_right (by positivity)
    rw [hm]
    by_cases h1 : S = gs ∧ C = gc
    · obtain ⟨rfl, rfl⟩ := h1
      simp [hr0]
    · rw [if_neg h1]
      by_cases h2 : S = target ∧ C = gc
      · rw [if_pos h2]; ring
      · rw [if_neg h2]
  | some src =>
    simp only [move_required, hfa]
    have hreq : required_of db gs gc = src.required_bags := by
      unfold required_of
      rw [hfa]
      rfl
    by_cases hpos : 0 < src.required_bags
    · rw [if_pos hpos]
      have hkp1 : KeyPreserving (fun a =>
          { a with required_bags := max 0 (a.required_bags
              - min (cnt : Rat) src.required_bags) }) := by
        intro a; exact ⟨rfl, rfl⟩
      have hkp2 : KeyPreserving (fun a =>
          { a with required_bags := a.required_bags
              + min (cnt : Rat) src.required_bags }) := by
        intro a; exact ⟨rfl, rfl⟩
      have htle : min (cnt : Rat) src.required_bags ≤ src.required_bags :=
        min_le_right _ _
      by_cases h1 : S = gs ∧ C = gc
      · obtain ⟨rfl, rfl⟩ := h1
        rw [if_pos ⟨rfl, rfl⟩]
        rw [required_of_modify_other_key _ _ _ _ _ hkp2
            (by intro hcon; exact htgt hcon.1),
          required_of_ensure,
          required_of_modify_key _ _ _ hkp1, hfa, hreq]
        show max 0 (src.required_bags - min (cnt : Rat) src.required_bags)
          = src.required_bags - min (cnt : Rat) src.required_bags
        have : (0 : Rat) ≤ src.required_bags - min (cnt : Rat) src.required_bags := by
          linarith
        exact max_eq_right this
      · rw [if_neg h1]
        by_cases h2 : S = target ∧ C = gc
        · obtain ⟨rfl, rfl⟩ := h2
          rw [if_pos ⟨rfl, rfl⟩]
          rw [required_of_modify_key _ _ _ hkp2,
            find_allocation_ensure_same,
            find_allocation_modify_other _ _ _ _ _ hkp1
              (by intro hcon; exact htgt hcon.1.symm)]
          cases hfb : find_allocation db S C with
          | none =>
            have hz : required_of db S C = 0 := by
              unfold required_of
              rw [hfb]
              rfl
            rw [hreq, hz]
            show (0 : Rat) + min (cnt : Rat) src.required_bags
              = 0 + min (cnt : Rat) src.required_bags
            rfl
          | some b =>
            have hb : required_of db S C = b.required_bags := by
              unfold required_of
              rw [hfb]
              rfl
            rw [hreq, hb]
            rfl
        · rw [if_neg h2]
          rw [required_of_modify_other_key _ _ _ _ _ hkp2 h2,
            required_of_ensure,
            required_of_modify_other_key _ _ _ _ _ hkp1 h1]
    · rw [if_neg hpos]
      have hr0 : src.required_bags = 0 := le_antisymm (not_lt.mp hpos) (hreq ▸ hnn)
      have hm : min (cnt : Rat) (required_of db gs gc) = 0 := by
        rw [hreq, hr0]
        exact min_eq_right (by positivity)
      by_cases h1 : S = gs ∧ C = gc
      · obtain ⟨rfl, rfl⟩ := h1
        rw [if_pos ⟨rfl, rfl⟩, hm, hreq, hr0]
        ring
      · rw [if_neg h1]
        by_cases h2 : S = target ∧ C = gc
        · rw [if_pos h2, hm]; ring
        · rw [if_neg h2]

theorem map_congr_mem {α β : Type} (l : List α) (f g : α → β)
    (h : ∀ a ∈ l, f a = g a) : l.map f = l.map g := by
  induction l with
  | nil => rfl
  | cons a t ih =>
    simp only [List.map_cons]
    rw [h a (List.mem_cons_self a t), ih (fun x hx => h x (List.mem_cons_of_mem _ hx))]

theorem required_fold_char (target : Nat) (groups : List ((Nat × Nat) × Nat)) (db : DB)
    (hnd : (groups.map (fun g => g.1)).Nodup)
    (htgt : ∀ g ∈ groups, g.1.1 ≠ target)
    (hnn : ∀ S C, 0 ≤ required_of db S C) :
    (∀ g ∈ groups,
        required_of (groups.foldl (move_required target) db) g.1.1 g.1.2
          = required_of db g.1.1 g.1.2 - min (g.2 : Rat) (required_of db g.1.1 g.1.2))
    ∧ (∀ C, required_of (groups.foldl (move_required target) db) target C
        = required_of db target C
          + ((groups.filter (fun g => g.1.2 == C)).map
              (fun g => min (g.2 : Rat) (required_of db g.1.1 g.1.2))).sum)
    ∧ (∀ S C, S ≠ target → (∀ g ∈ groups, g.1 ≠ (S, C)) →
        required_of (groups.foldl (move_required target) db) S C = required_of db S C) := by
  induction groups generalizing db with
  | nil => simp
  | cons g gs ih =>
    obtain ⟨⟨gsid, gwc⟩, gcnt⟩ := g
    simp only [List.map_cons, List.nodup_cons] at hnd
    have hgt : gsid ≠ target := htgt ((gsid, gwc), gcnt) (List.mem_cons_self _ _)
    have hchar := required_of_move_required db target gsid gwc gcnt hgt (hnn gsid gwc)
    have hnn1 : ∀ S C, 0 ≤ required_of (move_required target db ((gsid, gwc), gcnt)) S C := by
      intro S C
      rw [hchar S C]
      by_cases h1 : S = gsid ∧ C = gwc
      · rw [if_pos h1]
        have := min_le_right (gcnt : Rat) (required_of db gsid gwc)
        have := hnn gsid gwc
        linarith
      · rw [if_neg h1]
        by_cases h2 : S = target ∧ C = gwc
        · rw [if_pos h2]
          have h3 : (0 : Rat) ≤ min (gcnt : Rat) (required_of db gsid gwc) :=
            le_min (by positivity) (hnn gsid gwc)
          have := hnn S C
          linarith
        · rw [if_neg h2]
          exact hnn S C
    have ih' := ih (move_required target db ((gsid, gwc), gcnt)) hnd.2
      (fun g hg => htgt g (List.mem_cons_of_mem _ hg)) hnn1
    have hkey : ∀ g' ∈ gs, g'.1 ≠ (gsid, gwc) := by
      intro g' hg' hcon
      exact hnd.1 (hcon ▸ List.mem_map_of_mem (fun g => g.1) hg')
    have hsame : ∀ g' ∈ gs,
        required_of (move_required target db ((gsid, gwc), gcnt)) g'.1.1 g'.1.2
          = required_of db g'.1.1 g'.1.2 := by
      intro g' hg'
      rw [hchar]
      rw [if_neg, if_neg]
      · intro hcon
        exact htgt g' (List.mem_cons_of_mem _ hg') hcon.1
      · intro hcon
        exact hkey g' hg' (Prod.ext hcon.1 hcon.2)
    refine ⟨?_, ?_, ?_⟩
    · intro g'' hg''
      rcases List.mem_cons.1 hg'' with rfl | hmem
      · show required_of (gs.foldl (move_required target)
            (move_required target db ((gsid, gwc), gcnt))) gsid gwc = _
        rw [ih'.2.2 gsid gwc hgt (fun g' hg' hcon => hkey g' hg' hcon)]
        rw [hchar]
        rw [if_pos ⟨rfl, rfl⟩]
      · show required_of (gs.foldl (move_required target)
            (move_required target db ((gsid, gwc), gcnt))) g''.1.1 g''.1.2 = _
        rw [ih'.1 g'' hmem, hsame g'' hmem]
    · intro C
      show required_of (gs.foldl (move_required target)
          (move_required target db ((gsid, gwc), gcnt))) target C = _
      rw [ih'.2.1 C]
      have hmapeq : (gs.filter (fun g => g.1.2 == C)).map
            (fun g => min (g.2 : Rat)
              (required_of (move_required target db ((gsid, gwc), gcnt)) g.1.1 g.1.2))
          = (gs.filter (fun g => g.1.2 == C)).map
            (fun g => min (g.2 : Rat) (required_of db g.1.1 g.1.2)) := by
        apply map_congr_mem
        intro g' hg'
        rw [hsame g' (List.mem_of_mem_filter hg')]
      rw [hmapeq]
      have htc : required_of (move_required target db ((gsid, gwc), gcnt)) target C
          = required_of db target C
            + (if gwc = C then min (gcnt : Rat) (required_of db gsid gwc) else 0) := by
        rw [hchar]
        rw [if_neg (by intro hcon; exact hgt hcon.1.symm)]
        by_cases h2 : gwc = C
        · rw [if_pos ⟨rfl, h2.symm⟩, if_pos h2]
        · rw [if_neg (by intro hcon; exact h2 hcon.2.symm), if_neg h2]
          ring
      rw [htc]
      by_cases h2 : gwc = C
      · rw [if_pos h2]
        rw [List.filter_cons_of_pos (by simp [h2])]
        simp only [List.map_cons, List.sum_cons]
        ring
      · rw [if_neg h2]
        rw [List.filter_cons_of_neg (by simp [h2])]
        ring
    · intro S C hS hks
      show required_of (gs.foldl (move_required target)
          (move_required target db ((gsid, gwc), gcnt))) S C = _
      rw [ih'.2.2 S C hS (fun g' hg' => hks g' (List.mem_cons_of_mem _ hg'))]
      rw [hchar]
      rw [if_neg, if_neg]
      · intro hcon
        exact hS hcon.1
      · intro hcon
        exact hks ((gsid, gwc), gcnt) (List.mem_cons_self _ _)
          (by rw [hcon.1, hcon.2])

/-! ### Grouping lemmas -/
theorem group_count_bump (l : List ((Nat × Nat) × Nat)) (k0 k : Nat × Nat) :
    group_count (bump_key l k0) k = group_count l k + (if k = k0 then 1 else 0) := by
  unfold bump_key group_count
  by_cases hany : (l.any (fun p => p.1 == k0)) = true
  · rw [if_pos hany]
    rw [find?_map_pred _ _ _ (fun p => by
      show ((if (p.1 == k0) = true then (p.1, p.2 + 1) else p).1 == k)
        = (p.1 == k)
      split
      · rfl
      · rfl)]
    cases hf : l.find? (fun g => g.1 == k) with
    | none =>
      by_cases hk : k = k0
      · subst hk
        exfalso
        rw [List.any_eq_true] at hany
        obtain ⟨p, hp, hpk⟩ := hany
        have := List.find?_eq_none.mp hf p hp
        exact this hpk
      · simp [hk]
    | some a =>
      have hak := List.find?_some hf
      rw [beq_iff_eq] at hak
      by_cases hk : k = k0
      · subst hk
        simp [hak]
      · have hne : (a.1 == k0) = false := by
          rw [beq_eq_false_iff_ne]
          rw [hak]
          exact hk
        simp only [Option.map_some, Option.getD_some, if_neg hk]
        show (if (a.1 == k0) = true then (a.1, a.2 + 1) else a).2 = a.2 + 0
        rw [hne]
        simp
  · rw [if_neg hany]
    rw [find?_append_or]
    cases hf : l.find? (fun g => g.1 == k) with
    | some a =>
      have hak := List.find?_some hf
      rw [beq_iff_eq] at hak
      have hk : ¬k = k0 := by
        intro hcon
        apply hany
        rw [List.any_eq_true]
        exact ⟨a, List.mem_of_find?_eq_some hf, by simp [hak, hcon]⟩
      simp [Option.orElse, hk]
    | none =>
      by_cases hk : k = k0
      · subst hk
        simp [Option.orElse, List.find?]
      · have : (((k0, 1) : (Nat × Nat) × Nat).1 == k) = false := by
          rw [beq_eq_false_iff_ne]
          exact Ne.symm hk
        simp [Option.orElse, List.find?, this, hk]

theorem group_count_foldl (entries : List TallyLogEntry)
    (acc : List ((Nat × Nat) × Nat)) (S C : Nat) :
    group_count (entries.foldl (fun acc e =>
        if e.role == Role.tally then
          bump_key acc (e.tally_session_id, e.weight_classification_id)
        else acc) acc) (S, C)
      = group_count acc (S, C) + entries.countP
          (fun e => e.tally_session_id == S && e.weight_classification_id == C
            && e.role == Role.tally) := by
  induction entries generalizing acc with
  | nil => simp
  | cons e t ih =>
    simp only [List.foldl_cons, List.countP_cons]
    by_cases hrole : (e.role == Role.tally) = true
    · rw [if_pos hrole]
      rw [ih]
      rw [group_count_bump]
      by_cases hk : (S, C) = (e.tally_session_id, e.weight_classification_id)
      · rw [if_pos hk]
        have : (e.tally_session_id == S && e.weight_classification_id == C
            && e.role == Role.tally) = true := by
          rw [Prod.mk.injEq] at hk
          simp [hk.1, hk.2, hrole]
        rw [this]
        simp only [if_true]
        omega
      · rw [if_neg hk]
        have : (e.tally_session_id == S && e.weight_classification_id == C
            && e.role == Role.tally) = false := by
          rw [Prod.mk.injEq] at hk
          by_cases h1 : e.tally_session_id = S
          · by_cases h2 : e.weight_classification_id = C
            · exact absurd ⟨h1.symm, h2.symm⟩ hk
            · simp [h2]
          · simp [h1]
        rw [this]
        simp only [Bool.false_eq_true, if_false]
        omega
    · rw [if_neg hrole]
      rw [ih]
      have : (e.tally_session_id == S && e.weight_classification_id == C
          && e.role == Role.tally) = false := by
        simp only [Bool.and_eq_false_iff]
        right
        simpa using hrole
      rw [this]
      simp only [Bool.false_eq_true, if_false]
      omega

theorem group_count_spec (entries : List TallyLogEntry) (S C : Nat) :
    group_count (group_tally_counts entries) (S, C)
      = entries.countP (fun e => e.tally_session_id == S
          && e.weight_classification_id == C && e.role == Role.tally) := by
  unfold group_tally_counts
  rw [group_count_foldl]
  simp [group_count]

theorem bump_key_keys (l : List ((Nat × Nat) × Nat)) (k0 : Nat × Nat) :
    (bump_key l k0).map (fun g => g.1) = l.map (fun g => g.1)
      ∨ (bump_key l k0).map (fun g => g.1) = l.map (fun g => g.1) ++ [k0] := by
  unfold bump_key
  by_cases hany : (l.any (fun p => p.1 == k0)) = true
  · left
    rw [if_pos hany]
    rw [List.map_map]
    apply map_congr_mem
    intro p hp
    show (if (p.1 == k0) = true then (p.1, p.2 + 1) else p).1 = p.1
    split
    · rfl
    · rfl
  · right
    rw [if_neg hany]
    simp

theorem group_keys_nodup_aux (entries : List TallyLogEntry)
    (acc : List ((Nat × Nat) × Nat)) (hacc : (acc.map (fun g => g.1)).Nodup) :
    (((entries.foldl (fun acc e =>
        if e.role == Role.tally then
          bump_key acc (e.tally_session_id, e.weight_classification_id)
        else acc) acc)).map (fun g => g.1)).Nodup := by
  induction entries generalizing acc with
  | nil => exact hacc
  | cons e t ih =>
    simp only [List.foldl_cons]
    by_cases hrole : (e.role == Role.tally) = true
    · rw [if_pos hrole]
      apply ih
      unfold bump_key
      by_cases hany : (acc.any (fun p =>
          p.1 == (e.tally_session_id, e.weight_classification_id))) = true
      · rw [if_pos hany]
        rw [List.map_map]
        have : acc.map ((fun g => g.1) ∘ (fun p =>
            if p.1 == (e.tally_session_id, e.weight_classification_id)
            then (p.1, p.2 + 1) else p)) = acc.map (fun g => g.1) := by
          apply map_congr_mem
          intro p hp
          show (if (p.1 == (e.tally_session_id, e.weight_classification_id)) = true
            then (p.1, p.2 + 1) else p).1 = p.1
          split
          · rfl
          · rfl
        rw [this]
        exact hacc
      · rw [if_neg hany]
        rw [List.map_append]
        rw [List.nodup_append]
        refine ⟨hacc, List.nodup_singleton _, ?_⟩
        intro x hx
        simp only [List.map_cons, List.map_nil, List.mem_singleton]
        intro hcon
        subst hcon
        rw [List.mem_map] at hx
        obtain ⟨p, hp, hpk⟩ := hx
        rw [List.any_eq_true] at hany
        exact hany ⟨p, hp, by simp [hpk]⟩
    · rw [if_neg hrole]
      exact ih acc hacc

theorem group_keys_nodup (entries : List TallyLogEntry) :
    ((group_tally_counts entries).map (fun g => g.1)).Nodup :=
  group_keys_nodup_aux entries [] (by simp)

theorem group_keys_from_aux (entries : List TallyLogEntry)
    (acc : List ((Nat × Nat) × Nat)) (k : Nat × Nat)
    (hk : k ∈ ((entries.foldl (fun acc e =>
        if e.role == Role.tally then
          bump_key acc (e.tally_session_id, e.weight_classification_id)
        else acc) acc)).map (fun g => g.1)) :
    k ∈ acc.map (fun g => g.1)
      ∨ ∃ e ∈ entries, e.role = Role.tally
          ∧ (e.tally_session_id, e.weight_classification_id) = k := by
  induction entries generalizing acc with
  | nil => exact Or.inl hk
  | cons e t ih =>
    simp only [List.foldl_cons] at hk
    by_cases hrole : (e.role == Role.tally) = true
    · rw [if_pos hrole] at hk
      rcases ih _ hk with hmem | ⟨e', he', h1, h2⟩
      · rcases bump_key_keys acc (e.tally_session_id, e.weight_classification_id)
          with heq | heq
        · rw [heq] at hmem
          exact Or.inl hmem
        · rw [heq] at hmem
          rcases List.mem_append.mp hmem with hmem | hmem
          · exact Or.inl hmem
          · right
            refine ⟨e, List.mem_cons_self _ _, by simpa using hrole, ?_⟩
            have : k = (e.tally_session_id, e.weight_classification_id) := by
              simpa using hmem
            exact this.symm
      · exact Or.inr ⟨e', List.mem_cons_of_mem _ he', h1, h2⟩
    · rw [if_neg hrole] at hk
      rcases ih _ hk with hmem | ⟨e', he', h1, h2⟩
      · exact Or.inl hmem
      · exact Or.inr ⟨e', List.mem_cons_of_mem _ he', h1, h2⟩

theorem group_keys_from (entries : List TallyLogEntry) (g : (Nat × Nat) × Nat)
    (hg : g ∈ group_tally_counts entries) :
    ∃ e ∈ entries, e.role = Role.tally
      ∧ (e.tally_session_id, e.weight_classification_id) = g.1 := by
  have := group_keys_from_aux entries [] g.1
    (List.mem_map_of_mem (fun g => g.1) hg)
  rcases this with hmem | h
  · simp at hmem
  · exact h

/-! ### The entry-moving phase preserves required_bags -/
@[simp] theorem required_of_set_entries (db : DB) (es : List TallyLogEntry) (S C : Nat) :
    required_of { db with entries := es } S C = required_of db S C := rfl

theorem required_of_move_entry (target : Nat) (db : DB) (e : TallyLogEntry) (S C : Nat) :
    required_of (move_entry target db e) S C = required_of db S C := by
  simp only [move_entry, reaggregate_entry]
  rw [required_of_modify _ _ _
    (keyPreserving_comp (keyPreserving_increment_role _) (keyPreserving_add_heads _))
    (fun a => by simp),
    required_of_ensure, required_of_set_entries]
  split
  · rw [required_of_modify _ _ _
      (keyPreserving_comp (keyPreserving_decrement_role _) (keyPreserving_sub_heads _))
      (fun a => by simp)]
  · rfl

theorem required_of_move_fold (target : Nat) (es : List TallyLogEntry) (db : DB)
    (S C : Nat) :
    required_of (es.foldl (move_entry target) db) S C = required_of db S C := by
  induction es generalizing db with
  | nil => rfl
  | cons e t ih =>
    simp only [List.foldl_cons]
    rw [ih, required_of_move_entry]

/-! ### C5: required-bags transfer cap -/
/-- C5: on a successful transfer, the transferred entries are grouped by
(source session, classification) counting only TALLY-role entries, each group
moves exactly `min(tally_count, source required_bags)` units of required_bags
out of its source allocation (which never goes negative), and the target
allocation of each classification gains exactly the sum of those moved
amounts. -/
theorem transfer_required_bags_cap (db db' : DB) (entry_ids : List Nat)
    (target n : Nat)
    (h : transfer_tally_log_entries db entry_ids target = .ok (db', n))
    (hnn : ∀ a ∈ db.allocations, 0 ≤ a.required_bags) :
    (∀ S C, group_count (group_tally_counts (transfer_entries db entry_ids)) (S, C)
        = (transfer_entries db entry_ids).countP
            (fun e => e.tally_session_id == S && e.weight_classification_id == C
              && e.role == Role.tally))
    ∧ (∀ g ∈ group_tally_counts (transfer_entries db entry_ids),
        required_of db' g.1.1 g.1.2
          = required_of db g.1.1 g.1.2 - min (g.2 : Rat) (required_of db g.1.1 g.1.2)
        ∧ 0 ≤ required_of db' g.1.1 g.1.2)
    ∧ (∀ C, required_of db' target C
        = required_of db target C
          + (((group_tally_counts (transfer_entries db entry_ids)).filter
              (fun g => g.1.2 == C)).map
              (fun g => min (g.2 : Rat) (required_of db g.1.1 g.1.2))).sum) := by
  obtain ⟨hne, hlen, hnot, _, _, _, hdb, hn⟩ :=
    transfer_ok_inversion db entry_ids target db' n h
  have hreq1 : ∀ S C,
      required_of ((transfer_entries db entry_ids).foldl (move_entry target) db) S C
        = required_of db S C :=
    fun S C => required_of_move_fold target (transfer_entries db entry_ids) db S C
  have hnn1 : ∀ S C,
      0 ≤ required_of ((transfer_entries db entry_ids).foldl (move_entry target) db) S C := by
    intro S C
    rw [hreq1]
    exact required_of_nonneg db hnn S C
  have hnd := group_keys_nodup (transfer_entries db entry_ids)
  have htgt : ∀ g ∈ group_tally_counts (transfer_entries db entry_ids),
      g.1.1 ≠ target := by
    intro g hg
    obtain ⟨e, he, _, hkey⟩ := group_keys_from _ g hg
    rw [← hkey]
    exact hnot e he
  have hfold := required_fold_char target
    (group_tally_counts (transfer_entries db entry_ids))
    ((transfer_entries db entry_ids).foldl (move_entry target) db) hnd htgt hnn1
  subst hdb
  refine ⟨?_, ?_, ?_⟩
  · intro S C
    exact group_count_spec _ S C
  · intro g hg
    have h1 := hfold.1 g hg
    simp only [hreq1] at h1
    refine ⟨h1, ?_⟩
    rw [h1]
    have hmr := min_le_right (g.2 : Rat) (required_of db g.1.1 g.1.2)
    have hr0 := required_of_nonneg db hnn g.1.1 g.1.2
    linarith
  · intro C
    have h2 := hfold.2.1 C
    simp only [hreq1] at h2
    exact h2

/-- C5 witness: transferring the five TALLY entries from an allocation with
required_bags 3 moves exactly 3 (not 5) — the source ends at 0 and the target
at 3. -/
theorem transfer_required_bags_cap_witness :
    (match transfer_tally_log_entries db5 [1, 2, 3, 4, 5] 2 with
     | .ok (d, _) => required_of d 1 1 = 0 ∧ required_of d 2 1 = 3
     | .error _ => False) := by
  have hsome : (match transfer_tally_log_entries db5 [1, 2, 3, 4, 5] 2 with
      | Except.ok _ => true
      | _ => false) = true := by decide
  cases hok : transfer_tally_log_entries db5 [1, 2, 3, 4, 5] 2 with
  | error msg => rw [hok] at hsome; simp at hsome
  | ok p =>
    obtain ⟨d, m⟩ := p
    have h := transfer_required_bags_cap db5 d [1, 2, 3, 4, 5] 2 m hok
      (by intro a ha
          simp only [db5, List.mem_cons, List.not_mem_nil, or_false] at ha
          subst ha
          norm_num)
    show required_of d 1 1 = 0 ∧ required_of d 2 1 = 3
    have hgroups : group_tally_counts (transfer_entries db5 [1, 2, 3, 4, 5])
        = [((1, 1), 5)] := by decide
    have hv1 : required_of db5 1 1 = 3 := by
      unfold required_of find_allocation db5
      decide
    have hv2 : required_of db5 2 1 = 0 := by
      unfold required_of find_allocation db5
      decide
    constructor
    · have h1 := (h.2.1 ((1, 1), 5) (by rw [hgroups]; exact List.mem_singleton.mpr rfl)).1
      rw [hv1] at h1
      rw [h1]
      norm_num [min_def]
    · have h2 := h.2.2 1
      rw [hgroups, hv2] at h2
      rw [h2]
      simp only [List.filter_cons, List.filter_nil]
      norm_num [min_def, hv1]

/-! ### C4: transfer pre-validation -/
theorem transfer_missing_id_length (db : DB) (entry_ids : List Nat) (i : Nat)
    (hnodup : (db.entries.map (fun e => e.id)).Nodup)
    (hi : i ∈ entry_ids) (hmiss : get_tally_log_entry db i = none) :
    (transfer_entries db entry_ids).length ≠ entry_ids.length := by
  have hno : ∀ e ∈ db.entries, e.id ≠ i := by
    intro e he
    have := List.find?_eq_none.mp hmiss e he
    simpa using this
  have hsub : List.Sublist ((transfer_entries db entry_ids).map (fun e => e.id))
      (db.entries.map (fun e => e.id)) :=
    List.Sublist.map _ (List.filter_sublist db.entries)
  have hnd : ((transfer_entries db entry_ids).map (fun e => e.id)).Nodup :=
    hnodup.sublist hsub
  have hlen1 : (transfer_entries db entry_ids).length
      = ((transfer_entries db entry_ids).map (fun e => e.id)).toFinset.card := by
    rw [List.toFinset_card_of_nodup hnd, List.length_map]
  have hsubset : ((transfer_entries db entry_ids).map (fun e => e.id)).toFinset
      ⊆ entry_ids.toFinset.erase i := by
    intro x hx
    rw [List.mem_toFinset, List.mem_map] at hx
    obtain ⟨e, he, rfl⟩ := hx
    simp only [transfer_entries, List.mem_filter] at he
    rw [Finset.mem_erase, List.mem_toFinset]
    refine ⟨hno e he.1, ?_⟩
    simpa using he.2
  have hcard : ((transfer_entries db entry_ids).map (fun e => e.id)).toFinset.card
      ≤ entry_ids.toFinset.card - 1 := by
    have := Finset.card_le_card hsubset
    rwa [Finset.card_erase_of_mem (List.mem_toFinset.mpr hi)] at this
  have hpos : 0 < entry_ids.toFinset.card :=
    Finset.card_pos.mpr ⟨i, List.mem_toFinset.mpr hi⟩
  have hle : entry_ids.toFinset.card ≤ entry_ids.length := entry_ids.toFinset_card_le
  omega

/-- C4: every listed precondition violation makes transferLogEntries raise,
and the raise rolls the single transaction back, leaving the state exactly as
before — the validations all run before any mutation. -/
theorem transfer_prevalidation_atomicity (db : DB) (entry_ids : List Nat) (target : Nat) :
    (((db.entries.map (fun e => e.id)).Nodup →
      (∃ i ∈ entry_ids, get_tally_log_entry db i = none) →
      (∃ msg, transfer_tally_log_entries db entry_ids target = .error msg)
        ∧ run_transfer db entry_ids target = db))
    ∧ ((∃ e ∈ transfer_entries db entry_ids, e.tally_session_id = target) →
      (∃ msg, transfer_tally_log_entries db entry_ids target = .error msg)
        ∧ run_transfer db entry_ids target = db)
    ∧ ((∃ e1 ∈ transfer_entries db entry_ids, ∃ e2 ∈ transfer_entries db entry_ids,
        ∃ s1 s2, get_tally_session db e1.tally_session_id = some s1
          ∧ get_tally_session db e2.tally_session_id = some s2
          ∧ s1.plant_id ≠ s2.plant_id) →
      (∃ msg, transfer_tally_log_entries db entry_ids target = .error msg)
        ∧ run_transfer db entry_ids target = db)
    ∧ (entry_ids ≠ [] → get_tally_session db target = none →
      (∃ msg, transfer_tally_log_entries db entry_ids target = .error msg)
        ∧ run_transfer db entry_ids target = db)
    ∧ ((∃ ts, get_tally_session db target = some ts ∧ ts.status ≠ .ongoing) →
      (∃ msg, transfer_tally_log_entries db entry_ids target = .error msg)
        ∧ run_transfer db entry_ids target = db)
    ∧ ((∃ ts, get_tally_session db target = some ts
        ∧ ∃ e ∈ transfer_entries db entry_ids, ∃ s,
            get_tally_session db e.tally_session_id = some s
              ∧ s.plant_id ≠ ts.plant_id) →
      (∃ msg, transfer_tally_log_entries db entry_ids target = .error msg)
        ∧ run_transfer db entry_ids target = db)
    ∧ ((∃ e ∈ transfer_entries db entry_ids,
        get_weight_classification db e.weight_classification_id = none) →
      (∃ msg, transfer_tally_log_entries db entry_ids target = .error msg)
        ∧ run_transfer db entry_ids target = db)
    ∧ ((∃ e ∈ transfer_entries db entry_ids, ∃ wc s,
        get_weight_classification db e.weight_classification_id = some wc
          ∧ get_tally_session db e.tally_session_id = some s
          ∧ wc.plant_id ≠ s.plant_id) →
      (∃ msg, transfer_tally_log_entries db entry_ids target = .error msg)
        ∧ run_transfer db entry_ids target = db) := by
  have herr : ∀ msg, transfer_tally_log_entries db entry_ids target = .error msg →
      run_transfer db entry_ids target = db := by
    intro msg hres
    unfold run_transfer
    rw [hres]
  have hok :
      (∀ db' n, transfer_tally_log_entries db entry_ids target = .ok (db', n) → False) →
      ((∃ msg, transfer_tally_log_entries db entry_ids target = .error msg)
        ∧ run_transfer db entry_ids target = db) := by
    intro hcontra
    cases hres : transfer_tally_log_entries db entry_ids target with
    | error msg => exact ⟨⟨msg, rfl⟩, herr msg hres⟩
    | ok p =>
      exfalso
      obtain ⟨d, m⟩ := p
      exact hcontra d m hres
  refine ⟨?_, ?_, ?_, ?_, ?_, ?_, ?_, ?_⟩
  · intro hnodup ⟨i, hi, hmiss⟩
    refine hok ?_
    intro db' n hres
    have hinv := transfer_ok_inversion db entry_ids target db' n hres
    exact transfer_missing_id_length db entry_ids i hnodup hi hmiss hinv.2.1
  · intro ⟨e, he, hsid⟩
    refine hok ?_
    intro db' n hres
    have hinv := transfer_ok_inversion db entry_ids target db' n hres
    exact hinv.2.2.1 e he hsid
  · intro ⟨e1, he1, e2, he2, s1, s2, hs1, hs2, hdiff⟩
    refine hok ?_
    intro db' n hres
    have hinv := transfer_ok_inversion db entry_ids target db' n hres
    obtain ⟨ts, _, _, hpl⟩ := hinv.2.2.2.1
    exact hdiff ((hpl e1 he1 s1 hs1).trans (hpl e2 he2 s2 hs2).symm)
  · intro hne hmiss
    refine hok ?_
    intro db' n hres
    have hinv := transfer_ok_inversion db entry_ids target db' n hres
    obtain ⟨ts, hts, _, _⟩ := hinv.2.2.2.1
    rw [hmiss] at hts
    exact absurd hts (by simp)
  · intro ⟨ts, hts, hstat⟩
    refine hok ?_
    intro db' n hres
    have hinv := transfer_ok_inversion db entry_ids target db' n hres
    obtain ⟨ts2, hts2, hstat2, _⟩ := hinv.2.2.2.1
    rw [hts] at hts2
    cases hts2
    exact hstat hstat2
  · intro ⟨ts, hts, e, he, s, hs, hdiff⟩
    refine hok ?_
    intro db' n hres
    have hinv := transfer_ok_inversion db entry_ids target db' n hres
    obtain ⟨ts2, hts2, _, hpl⟩ := hinv.2.2.2.1
    rw [hts] at hts2
    cases hts2
    exact hdiff (hpl e he s hs)
  · intro ⟨e, he, hmiss⟩
    refine hok ?_
    intro db' n hres
    have hinv := transfer_ok_inversion db entry_ids target db' n hres
    obtain ⟨wc, hwc, _⟩ := hinv.2.2.2.2.2.1 e he
    rw [hmiss] at hwc
    exact absurd hwc (by simp)
  · intro ⟨e, he, wc, s, hwc, hs, hdiff⟩
    refine hok ?_
    intro db' n hres
    have hinv := transfer_ok_inversion db entry_ids target db' n hres
    obtain ⟨wc2, hwc2, hplw⟩ := hinv.2.2.2.2.2.1 e he
    rw [hwc] at hwc2
    cases hwc2
    exact hdiff (hplw s hs)

/-- C4 witness: a transfer to the completed session fails and leaves the
state unchanged, and a transfer naming a missing entry id fails and leaves
the state unchanged. -/
theorem transfer_prevalidation_atomicity_witness :
    ((∃ msg, transfer_tally_log_entries dbT4 [1] 2 = .error msg)
      ∧ run_transfer dbT4 [1] 2 = dbT4)
    ∧ ((∃ msg, transfer_tally_log_entries dbT4 [5] 1 = .error msg)
      ∧ run_transfer dbT4 [5] 1 = dbT4) := by
  constructor
  · exact (transfer_prevalidation_atomicity dbT4 [1] 2).2.2.2.2.1
      ⟨⟨2, 1, 1, .completed, 2⟩, by decide, by decide⟩
  · exact (transfer_prevalidation_atomicity dbT4 [5] 1).1 (by decide)
      ⟨5, by decide, by decide⟩

/-! ### C3: update commit structure -/
theorem update_apply_audits (db : DB) (entry_id : Nat) (le : TallyLogEntry)
    (u : TallyLogEntryUpdate) :
    (update_apply db entry_id le u).audits = db.audits := by
  unfold update_apply reaggregate_entry
  simp only [modify_allocation_audits, ensure_allocation_audits]
  split <;> rfl

/-- C3 counterexample: updating the entry's weight produces TWO distinct
durable states — the first commit already holds the mutated entry but no
audit row; the audit row is committed by a second, separate transaction. A
failure between the commits leaves the mutation persisted without its audit
record, so the four steps are not one atomic transaction. -/
theorem update_audit_commits_separately :
    (match update_tally_log_entry dbU3 1 { weight := some 3 } 7 with
     | .ok (some (d1, d2, _)) =>
        decide (d1.audits = []) && decide (d2.audits ≠ [])
          && ((get_tally_log_entry d1 1).map (fun e => e.weight) == some 3)
     | _ => false) = true := by decide

/-- C3 amended: the decrement of the old allocation, the entry mutation and
the increment of the new allocation commit together in a first transaction
whose state carries no new audit row; the audit record is committed by a
second transaction that only appends to the audit table (and is skipped when
the changes map is empty). -/
theorem update_audit_separate_transaction (db : DB) (entry_id user_id : Nat)
    (u : TallyLogEntryUpdate) (d1 d2 : DB) (e : TallyLogEntry)
    (h : update_tally_log_entry db entry_id u user_id = .ok (some (d1, d2, e))) :
    d1.audits = db.audits
    ∧ d2.entries = d1.entries
    ∧ d2.allocations = d1.allocations
    ∧ (d2 = d1 ∨ ∃ ch, ch ≠ [] ∧
        d2 = { d1 with audits := d1.audits ++ [⟨entry_id, user_id, ch⟩] }) := by
  cases hget : get_tally_log_entry db entry_id with
  | none =>
    simp only [update_tally_log_entry, hget] at h
    exact absurd h (by simp)
  | some le =>
    simp only [update_tally_log_entry, hget] at h
    cases hchk : update_checks db le u with
    | error msg =>
      rw [hchk] at h
      exact absurd h (by simp [and_then])
    | ok uu =>
      rw [and_then_ok _ _ (by rw [hchk])] at h
      simp only [Except.ok.injEq, Option.some.injEq, Prod.mk.injEq] at h
      obtain ⟨h1, h2, h3⟩ := h
      by_cases hch : update_changes db le u ≠ []
      · rw [if_pos hch] at h2
        refine ⟨?_, ?_, ?_, ?_⟩
        · rw [← h1]; exact update_apply_audits db entry_id le u
        · rw [← h2, ← h1]
        · rw [← h2, ← h1]
        · right
          exact ⟨update_changes db le u, hch, by rw [← h2, ← h1]⟩
      · rw [if_neg hch] at h2
        refine ⟨?_, ?_, ?_, ?_⟩
        · rw [← h1]; exact update_apply_audits db entry_id le u
        · rw [← h2, ← h1]
        · rw [← h2, ← h1]
        · left; rw [← h2, ← h1]

/-- C3 witness: the amended theorem applied to the concrete update. -/
theorem update_audit_separate_transaction_witness :
    (match update_tally_log_entry dbU3 1 { weight := some 3 } 7 with
     | .ok (some (d1, d2, _)) =>
        d1.audits = dbU3.audits ∧ d2.entries = d1.entries ∧ d2.allocations = d1.allocations
     | _ => False) := by
  have hsome : (match update_tally_log_entry dbU3 1 { weight := some 3 } 7 with
      | Except.ok (some _) => true
      | _ => false) = true := by decide
  cases hok : update_tally_log_entry dbU3 1 { weight := some 3 } 7 with
  | error msg => rw [hok] at hsome; simp at hsome
  | ok r =>
    cases r with
    | none => rw [hok] at hsome; simp at hsome
    | some p =>
      obtain ⟨d1, d2, e⟩ := p
      have h := update_audit_separate_transaction dbU3 1 7 { weight := some 3 } d1 d2 e hok
      exact ⟨h.1, h.2.1, h.2.2.1⟩

/-! ### C9: session numbering -/
/-- C9 counterexample state: two sessions created for customer 1, then the
second (the one with the highest session number) deleted, then a third
created. The third session receives session_number 2 again, so a
session_number IS reused after a deletion, refuting the claim's non-reuse
part at this concrete input. -/
theorem session_number_reused_after_delete :
    (((create_tally_session emptyDB ⟨1, 1, .ongoing⟩).1 |> fun d1 =>
      (create_tally_session d1 ⟨1, 1, .ongoing⟩) |> fun (d2, s2) =>
      (delete_tally_session d2 s2.id).1 |> fun d3 =>
      ((create_tally_session d3 ⟨1, 1, .ongoing⟩).2.session_number,
        s2.session_number))) = (2, 2) := by decide

/-- C9 amended: session numbers are assigned as `max(existing numbers for the
customer) + 1` (so a customer's first three creations yield 1, 2, 3 whatever
other customers have), but a deleted session's number CAN be reused when the
deleted session carried the customer's highest number. -/
theorem session_number_assignment (db : DB) (ts : TallySessionCreate) :
    (create_tally_session db ts).2.session_number
      = max_session_number db ts.customer_id + 1
    ∧ ((db.sessions.filter (fun s => s.customer_id == ts.customer_id)) = [] →
        ((create_tally_session db ts).2.session_number = 1
        ∧ ((create_tally_session db ts).1 |> fun d1 =>
            (create_tally_session d1 ts).2.session_number = 2
            ∧ ((create_tally_session d1 ts).1 |> fun d2 =>
                (create_tally_session d2 ts).2.session_number = 3)))) := by
  constructor
  · rfl
  · intro hempty
    refine ⟨?_, ?_, ?_⟩
    · simp [create_tally_session, max_session_number, hempty]
    · simp [create_tally_session, max_session_number, List.filter_append, hempty]
    · simp [create_tally_session, max_session_number, List.filter_append, hempty]

/-- C9 witness: the amended theorem applied at a concrete fresh state. -/
theorem session_number_assignment_witness :
    (create_tally_session emptyDB ⟨1, 1, .ongoing⟩).2.session_number
      = max_session_number emptyDB 1 + 1
    ∧ (create_tally_session emptyDB ⟨1, 1, .ongoing⟩).2.session_number = 1 := by
  have h := session_number_assignment emptyDB ⟨1, 1, .ongoing⟩
  exact ⟨h.1, (h.2 (by decide)).1⟩

/-- C2 counterexample: with the heads field absent from the input, pydantic
fills the schema default 15.0 before the crud layer runs, so the persisted
heads is 15 even though the classification's default_heads is 10 — the
claim's "persisted heads equals the classification's default_heads" is false
at this input. -/
theorem create_absent_heads_is_schema_default :
    ((create_tally_log_entry dbC2 (parse_tally_log_entry_create rawC2)).toOption.map
      (fun p => p.2.heads)) = some (some 15)
    ∧ (get_weight_classification dbC2 1).map (·.default_heads) = some (some 10)
    ∧ some (15 : Rat) ≠ some (10 : Rat) := by decide

/-- C2 amended: an absent heads field is parsed to the schema default 15.0
and persisted as 15 regardless of the classification's default_heads; the
default_heads fallback chain (classification default, then global 15.0)
applies only when heads is explicitly supplied as null. The same resolved
value is added to the allocation's heads aggregate. -/
theorem create_heads_resolution (db db' : DB) (raw : RawTallyLogEntryInput)
    (e : TallyLogEntry) (wc : WeightClassification)
    (hwc : get_weight_classification db raw.weight_classification_id = some wc)
    (h : create_tally_log_entry db (parse_tally_log_entry_create raw) = .ok (db', e)) :
    e.heads = some (if raw.heads_provided then raw.heads.getD (wc.default_heads.getD 15) else 15)
    ∧ alloc_heads db' raw.tally_session_id raw.weight_classification_id
        = alloc_heads db raw.tally_session_id raw.weight_classification_id
          + (if raw.heads_provided then raw.heads.getD (wc.default_heads.getD 15) else 15) := by
  cases hs : get_tally_session db raw.tally_session_id with
  | none =>
    rw [create_tally_log_entry_no_session db _ hs] at h
    exact absurd h (by simp)
  | some sess =>
    rw [create_tally_log_entry_eq db _ sess wc hs hwc] at h
    have hv : (if raw.heads_provided then raw.heads else some 15).getD (wc.default_heads.getD 15)
        = (if raw.heads_provided then raw.heads.getD (wc.default_heads.getD 15) else 15) := by
      by_cases hp : raw.heads_provided
      · cases hh : raw.heads <;> simp [hp, hh]
      · simp [hp]
    simp only [Except.ok.injEq, Prod.mk.injEq, parse_tally_log_entry_create] at h
    obtain ⟨hdb, he⟩ := h
    refine ⟨?_, ?_⟩
    · rw [← he]
      simp only [create_result_entry, Option.some.injEq]
      exact hv
    · rw [← hdb]
      simp only [alloc_heads, find_allocation_update_entries]
      rw [find_allocation_modify_same _ _ _
        (keyPreserving_comp (keyPreserving_increment_role _) (keyPreserving_add_heads _)),
        find_allocation_ensure_same]
      rw [hv]
      cases hfa : find_allocation db raw.tally_session_id raw.weight_classification_id with
      | none => simp [hfa, new_allocation]
      | some a => simp [hfa]

/-- C2 witness: the amended resolution applied to the concrete state. -/
theorem create_heads_resolution_witness :
    ((create_tally_log_entry dbC2 (parse_tally_log_entry_create rawC2)).toOption.map
      (fun p => p.2.heads)) = some (some 15) := by
  cases hok : create_tally_log_entry dbC2 (parse_tally_log_entry_create rawC2) with
  | error msg =>
    have hsome : (create_tally_log_entry dbC2 (parse_tally_log_entry_create rawC2)).isOk
        = true := by decide
    rw [hok] at hsome
    exact absurd hsome (by simp [Except.isOk, Except.toBool])
  | ok p =>
    obtain ⟨db', e⟩ := p
    have h := create_heads_resolution dbC2 db' rawC2 e
      ⟨1, 1, "OS", none, some 18, none, "Dressed", some 10⟩ (by decide) hok
    show some e.heads = some (some 15)
    rw [h.1]
    simp [rawC2]

/-! ### C1/C7: aggregate-consistency and non-negativity machinery -/
theorem alloc_col_increment (a : AllocationDetails) (r' r : Role) :
    alloc_col (increment_role a r') r
      = alloc_col a r + (if r' = r then 1 else 0) := by
  cases r' <;> cases r <;> simp [alloc_col, increment_role]

theorem alloc_col_decrement (a : AllocationDetails) (r' r : Role) :
    alloc_col (decrement_role a r') r
      = if r' = r then max 0 (alloc_col a r - 1) else alloc_col a r := by
  cases r' <;> cases r <;> simp [alloc_col, decrement_role]

theorem alloc_col_add_heads (a : AllocationDetails) (v : Rat) (r : Role) :
    alloc_col (add_heads a v) r = alloc_col a r := by
  cases r <;> rfl

theorem alloc_col_sub_heads (a : AllocationDetails) (v : Rat) (r : Role) :
    alloc_col (sub_heads a v) r = alloc_col a r := by
  cases r <;> rfl

theorem alloc_col_new_allocation (i S C : Nat) (r : Role) :
    alloc_col (new_allocation i S C) r = 0 := by
  cases r <;> rfl

theorem alloc_role_of_find (db : DB) (S C : Nat) (a : AllocationDetails)
    (ha : find_allocation db S C = some a) (r : Role) :
    alloc_role db S C r = alloc_col a r := by
  unfold alloc_role
  rw [ha]
  rfl

theorem alloc_role_of_find_none (db : DB) (S C : Nat)
    (ha : find_allocation db S C = none) (r : Role) :
    alloc_role db S C r = 0 := by
  unfold alloc_role
  rw [ha]
  rfl

theorem alloc_role_modify_key (db : DB) (S C : Nat)
    {f : AllocationDetails → AllocationDetails} (hf : KeyPreserving f) (r : Role) :
    alloc_role (modify_allocation db S C f) S C r
      = ((find_allocation db S C).map (fun a => alloc_col (f a) r)).getD 0 := by
  unfold alloc_role
  rw [find_allocation_modify_same db S C hf]
  cases find_allocation db S C <;> rfl

theorem alloc_role_modify_other (db : DB) (S C S' C' : Nat)
    {f : AllocationDetails → AllocationDetails} (hf : KeyPreserving f)
    (h : ¬(S' = S ∧ C' = C)) (r : Role) :
    alloc_role (modify_allocation db S C f) S' C' r = alloc_role db S' C' r := by
  unfold alloc_role
  rw [find_allocation_modify_other db S C S' C' hf h]

theorem alloc_role_ensure (db : DB) (S0 C0 S C : Nat) (r : Role) :
    alloc_role (ensure_allocation db S0 C0) S C r = alloc_role db S C r := by
  by_cases h : S = S0 ∧ C = C0
  · rcases h with ⟨rfl, rfl⟩
    unfold alloc_role
    rw [find_allocation_ensure_same]
    cases hfa : find_allocation db S C with
    | some a => simp
    | none => simp [alloc_col_new_allocation]
  · unfold alloc_role
    rw [find_allocation_ensure_other db S0 C0 S C h]

theorem alloc_role_set_entries (db : DB) (es : List TallyLogEntry) (S C : Nat)
    (r : Role) :
    alloc_role { db with entries := es } S C r = alloc_role db S C r := rfl

/-- Effect of the get-or-create + increment pair on the allocated aggregate of
every key: exactly the incremented (key, role) gains 1. -/
theorem alloc_role_ensure_increment (db : DB) (S0 C0 : Nat) (r0 : Role) (v : Rat)
    (S C : Nat) (r : Role) :
    alloc_role (modify_allocation (ensure_allocation db S0 C0) S0 C0
        (fun a => add_heads (increment_role a r0) v)) S C r
      = alloc_role db S C r + (if S0 = S ∧ C0 = C ∧ r0 = r then 1 else 0) := by
  by_cases hk : S = S0 ∧ C = C0
  · rcases hk with ⟨rfl, rfl⟩
    rw [alloc_role_modify_key _ _ _
      (keyPreserving_comp (keyPreserving_increment_role _) (keyPreserving_add_heads _)) r,
      find_allocation_ensure_same]
    cases hfa : find_allocation db S C with
    | some a =>
      rw [alloc_role_of_find db S C a hfa r]
      simp only [Option.getD_some, Option.map_some', alloc_col_add_heads,
        alloc_col_increment]
      by_cases hr : r0 = r <;> simp [hr]
    | none =>
      rw [alloc_role_of_find_none db S C hfa r]
      simp only [Option.getD_none, Option.map_some', alloc_col_add_heads,
        alloc_col_increment, alloc_col_new_allocation]
      by_cases hr : r0 = r <;> simp [hr]
  · rw [alloc_role_modify_other _ _ _ _ _
      (keyPreserving_comp (keyPreserving_increment_role _) (keyPreserving_add_heads _)) hk r,
      alloc_role_ensure]
    have hno : ¬(S0 = S ∧ C0 = C ∧ r0 = r) := by
      rintro ⟨h1, h2, _⟩
      exact hk ⟨h1.symm, h2.symm⟩
    rw [if_neg hno, add_zero]

/-- Effect of the clamped decrement on the allocated aggregate of every key
(the decremented row exists). -/
theorem alloc_role_decrement (db : DB) (S0 C0 : Nat) (r0 : Role) (v : Rat)
    (a0 : AllocationDetails) (ha0 : find_allocation db S0 C0 = some a0)
    (S C : Nat) (r : Role) :
    alloc_role (modify_allocation db S0 C0
        (fun a => sub_heads (decrement_role a r0) v)) S C r
      = if S0 = S ∧ C0 = C ∧ r0 = r
        then max 0 (alloc_role db S C r - 1) else alloc_role db S C r := by
  by_cases hk : S = S0 ∧ C = C0
  · rcases hk with ⟨rfl, rfl⟩
    rw [alloc_role_modify_key _ _ _
      (keyPreserving_comp (keyPreserving_decrement_role _) (keyPreserving_sub_heads _)) r,
      ha0, alloc_role_of_find db S C a0 ha0 r]
    simp only [Option.map_some', Option.getD_some, alloc_col_sub_heads,
      alloc_col_decrement]
    by_cases hr : r0 = r <;> simp [hr]
  · rw [alloc_role_modify_other _ _ _ _ _
      (keyPreserving_comp (keyPreserving_decrement_role _) (keyPreserving_sub_heads _)) hk r]
    have hno : ¬(S0 = S ∧ C0 = C ∧ r0 = r) := by
      rintro ⟨h1, h2, _⟩
      exact hk ⟨h1.symm, h2.symm⟩
    rw [if_neg hno]

theorem role_ind_eq (S C : Nat) (r : Role) (e : TallyLogEntry) :
    (if e.tally_session_id == S && e.weight_classification_id == C && e.role == r
      then (1 : Nat) else 0) = role_ind S C r e := by
  unfold role_ind
  by_cases h : e.tally_session_id = S ∧ e.weight_classification_id = C ∧ e.role = r
  · obtain ⟨h1, h2, h3⟩ := h
    simp [h1, h2, h3]
  · rw [if_neg h, if_neg]
    intro hb
    simp only [Bool.and_eq_true, beq_iff_eq] at hb
    exact h ⟨hb.1.1, hb.1.2, hb.2⟩

theorem reaggregate_entries (db : DB) (entry_id : Nat) (old new : TallyLogEntry)
    (old_hv new_hv : Rat) :
    (reaggregate_entry db entry_id old old_hv new new_hv).entries
      = db.entries.map (fun e => if e.id == entry_id then new else e) := by
  unfold reaggregate_entry
  simp only [modify_allocation_entries, ensure_allocation_entries]
  split <;> rfl

/-- How the per-(key, role) entry counts change across a reaggregation step:
the old row's indicator is exchanged for the new row's indicator. -/
theorem role_count_reaggregate (db : DB) (entry_id : Nat) (old new : TallyLogEntry)
    (old_hv new_hv : Rat) (S C : Nat) (r : Role)
    (hnd : (db.entries.map (fun e => e.id)).Nodup)
    (hfind : db.entries.find? (fun x => x.id == entry_id) = some old) :
    role_count (reaggregate_entry db entry_id old old_hv new new_hv) S C r
        + role_ind S C r old
      = role_count db S C r + role_ind S C r new := by
  unfold role_count
  rw [reaggregate_entries, ← role_ind_eq S C r old, ← role_ind_eq S C r new]
  exact countP_map_update _ (fun e => e.id) db.entries entry_id new old hfind hnd

theorem consistent_of_alloc_role (db : DB)
    (h : ∀ S C r, alloc_role db S C r = (role_count db S C r : Rat)) :
    Consistent db :=
  fun S C => ⟨h S C Role.tally, h S C Role.dispatcher⟩

theorem consistent_alloc_role (db : DB) (hc : Consistent db) (S C : Nat) (r : Role) :
    alloc_role db S C r = (role_count db S C r : Rat) := by
  cases r
  · exact (hc S C).1
  · exact (hc S C).2

/-- In a consistent state, the allocation row of any live entry's key exists. -/
theorem consistent_find_some (db : DB) (hc : Consistent db) (e : TallyLogEntry)
    (hmem : e ∈ db.entries) :
    (find_allocation db e.tally_session_id e.weight_classification_id).isSome = true := by
  have hcount : 0 < role_count db e.tally_session_id e.weight_classification_id e.role := by
    unfold role_count
    rw [List.countP_pos_iff]
    exact ⟨e, hmem, by simp⟩
  cases hfa : find_allocation db e.tally_session_id e.weight_classification_id with
  | some a => rfl
  | none =>
    exfalso
    have h1 := consistent_alloc_role db hc e.tally_session_id e.weight_classification_id e.role
    rw [alloc_role_of_find_none db _ _ hfa] at h1
    have h2 : role_count db e.tally_session_id e.weight_classification_id e.role = 0 := by
      exact_mod_cast h1.symm
    omega

/-- Reaggregation preserves C1's invariant. -/
theorem consistent_reaggregate (db : DB) (entry_id : Nat) (old new : TallyLogEntry)
    (old_hv new_hv : Rat)
    (hnd : (db.entries.map (fun e => e.id)).Nodup)
    (hfind : db.entries.find? (fun x => x.id == entry_id) = some old)
    (hc : Consistent db) :
    Consistent (reaggregate_entry db entry_id old old_hv new new_hv) := by
  have hmem : old ∈ db.entries := List.mem_of_find?_eq_some hfind
  have hsome := consistent_find_some db hc old hmem
  obtain ⟨a0, ha0⟩ := Option.isSome_iff_exists.mp hsome
  apply consistent_of_alloc_role
  intro S C r
  have h1 : reaggregate_entry db entry_id old old_hv new new_hv
      = modify_allocation
          (ensure_allocation
            { modify_allocation db old.tally_session_id old.weight_classification_id
                (fun a => sub_heads (decrement_role a old.role) old_hv) with
              entries :=
                (modify_allocation db old.tally_session_id old.weight_classification_id
                  (fun a => sub_heads (decrement_role a old.role) old_hv)).entries.map
                    (fun e => if e.id == entry_id then new else e) }
            new.tally_session_id new.weight_classification_id)
          new.tally_session_id new.weight_classification_id
          (fun a => add_heads (increment_role a new.role) new_hv) := by
    unfold reaggregate_entry
    rw [if_pos hsome]
  have halloc : alloc_role (reaggregate_entry db entry_id old old_hv new new_hv) S C r
      = alloc_role db S C r - (role_ind S C r old : Rat) + (role_ind S C r new : Rat) := by
    rw [h1, alloc_role_ensure_increment, alloc_role_set_entries,
      alloc_role_decrement db old.tally_session_id old.weight_classification_id old.role
        old_hv a0 ha0 S C r]
    by_cases hO : old.tally_session_id = S ∧ old.weight_classification_id = C
        ∧ old.role = r
    · have hge : (1 : Rat) ≤ alloc_role db S C r := by
        obtain ⟨e1, e2, e3⟩ := hO
        rw [consistent_alloc_role db hc S C r]
        have hcount : 0 < role_count db S C r := by
          unfold role_count
          rw [List.countP_pos_iff]
          exact ⟨old, hmem, by simp [e1, e2, e3]⟩
        exact_mod_cast hcount
      have hmax : max 0 (alloc_role db S C r - 1) = alloc_role db S C r - 1 :=
        max_eq_right (by linarith)
      by_cases hN : new.tally_session_id = S ∧ new.weight_classification_id = C
          ∧ new.role = r
      · simp only [role_ind, hO, hN, hmax, true_and, and_true, and_self,
          if_true, if_false]
        push_cast
        ring
      · simp only [role_ind, hO, hN, hmax, true_and, and_true, and_self,
          if_true, if_false]
        push_cast
        ring
    · by_cases hN : new.tally_session_id = S ∧ new.weight_classification_id = C
          ∧ new.role = r
      · simp only [role_ind, hO, hN, true_and, and_true, and_self,
          if_true, if_false]
        push_cast
        ring
      · simp only [role_ind, hO, hN, true_and, and_true, and_self,
          if_true, if_false]
        push_cast
        ring
  have hcnt := role_count_reaggregate db entry_id old new old_hv new_hv S C r hnd hfind
  have hcast : (role_count (reaggregate_entry db entry_id old old_hv new new_hv) S C r : Rat)
      + (role_ind S C r old : Rat)
      = (role_count db S C r : Rat) + (role_ind S C r new : Rat) := by
    exact_mod_cast hcnt
  rw [halloc, consistent_alloc_role db hc S C r]
  linarith

theorem map_key_update {α : Type} (key : α → Nat) (k : Nat) (new : α) (l : List α)
    (h : key new = k) :
    (l.map (fun x => if key x == k then new else x)).map key = l.map key := by
  rw [List.map_map]
  apply map_congr_mem
  intro a _
  show key (if key a == k then new else a) = key a
  by_cases hx : key a = k
  · simp [hx, h]
  · simp [hx]

theorem reaggregate_nextEntryId (db : DB) (entry_id : Nat) (old : TallyLogEntry)
    (old_hv : Rat) (new : TallyLogEntry) (new_hv : Rat) :
    (reaggregate_entry db entry_id old old_hv new new_hv).nextEntryId
      = db.nextEntryId := by
  unfold reaggregate_entry
  simp only [modify_allocation_nextEntryId, ensure_allocation_nextEntryId]
  split <;> rfl

theorem reaggregate_classifications (db : DB) (entry_id : Nat) (old : TallyLogEntry)
    (old_hv : Rat) (new : TallyLogEntry) (new_hv : Rat) :
    (reaggregate_entry db entry_id old old_hv new new_hv).classifications
      = db.classifications := by
  unfold reaggregate_entry
  simp only [modify_allocation_classifications, ensure_allocation_classifications]
  split <;> rfl

theorem create_ok_state (db : DB) (c : TallyLogEntryCreate) (db' : DB)
    (e : TallyLogEntry) (h : create_tally_log_entry db c = .ok (db', e)) :
    ∃ wc, get_weight_classification db c.weight_classification_id = some wc
      ∧ db' = created_db db c (c.heads.getD (wc.default_heads.getD 15)) := by
  unfold create_tally_log_entry at h
  split at h
  · exact absurd h (by simp)
  next s0 hs =>
  split at h
  · exact absurd h (by simp)
  next wc hwc =>
  refine ⟨wc, hwc, ?_⟩
  simp only [Except.ok.injEq, Prod.mk.injEq] at h
  exact h.1.symm

theorem created_db_entries (db : DB) (c : TallyLogEntryCreate) (v : Rat) :
    (created_db db c v).entries
      = db.entries ++ [create_result_entry
          (modify_allocation
            (ensure_allocation db c.tally_session_id c.weight_classification_id)
            c.tally_session_id c.weight_classification_id
            (fun a => add_heads (increment_role a c.role) v)) c v] := by
  unfold created_db
  simp only [modify_allocation_entries, ensure_allocation_entries]

theorem created_db_nextEntryId (db : DB) (c : TallyLogEntryCreate) (v : Rat) :
    (created_db db c v).nextEntryId = db.nextEntryId + 1 := by
  unfold created_db
  simp only [modify_allocation_nextEntryId, ensure_allocation_nextEntryId]

theorem created_db_alloc (db : DB) (c : TallyLogEntryCreate) (v : Rat) (S C : Nat)
    (r : Role) :
    alloc_role (created_db db c v) S C r
      = alloc_role db S C r
        + (if c.tally_session_id = S ∧ c.weight_classification_id = C ∧ c.role = r
           then 1 else 0) := by
  have h0 : alloc_role (created_db db c v) S C r
      = alloc_role (modify_allocation
          (ensure_allocation db c.tally_session_id c.weight_classification_id)
          c.tally_session_id c.weight_classification_id
          (fun a => add_heads (increment_role a c.role) v)) S C r := rfl
  rw [h0, alloc_role_ensure_increment]

theorem key_ind_eq (S C : Nat) (r : Role) (S0 C0 : Nat) (r0 : Role) :
    (if S0 == S && C0 == C && r0 == r then (1 : Nat) else 0)
      = if S0 = S ∧ C0 = C ∧ r0 = r then 1 else 0 := by
  by_cases h : S0 = S ∧ C0 = C ∧ r0 = r
  · obtain ⟨h1, h2, h3⟩ := h
    simp [h1, h2, h3]
  · rw [if_neg h, if_neg]
    intro hb
    simp only [Bool.and_eq_true, beq_iff_eq] at hb
    exact h ⟨hb.1.1, hb.1.2, hb.2⟩

theorem created_db_count (db : DB) (c : TallyLogEntryCreate) (v : Rat) (S C : Nat)
    (r : Role) :
    role_count (created_db db c v) S C r
      = role_count db S C r
        + (if c.tally_session_id = S ∧ c.weight_classification_id = C ∧ c.role = r
           then 1 else 0) := by
  unfold role_count
  rw [created_db_entries, List.countP_append,
    ← key_ind_eq S C r c.tally_session_id c.weight_classification_id c.role]
  congr 1
  simp [List.countP_cons, create_result_entry]

theorem consistent_created (db : DB) (c : TallyLogEntryCreate) (v : Rat)
    (hc : Consistent db) : Consistent (created_db db c v) := by
  apply consistent_of_alloc_role
  intro S C r
  rw [created_db_alloc, created_db_count, consistent_alloc_role db hc S C r]
  push_cast
  ring

theorem entriesWF_created (db : DB) (c : TallyLogEntryCreate) (v : Rat)
    (hwf : EntriesWF db) : EntriesWF (created_db db c v) := by
  obtain ⟨hnd, hlt⟩ := hwf
  have hid : (create_result_entry
      (modify_allocation
        (ensure_allocation db c.tally_session_id c.weight_classification_id)
        c.tally_session_id c.weight_classification_id
        (fun a => add_heads (increment_role a c.role) v)) c v).id = db.nextEntryId := by
    show (modify_allocation
        (ensure_allocation db c.tally_session_id c.weight_classification_id)
        c.tally_session_id c.weight_classification_id
        (fun a => add_heads (increment_role a c.role) v)).nextEntryId = db.nextEntryId
    simp only [modify_allocation_nextEntryId, ensure_allocation_nextEntryId]
  constructor
  · rw [created_db_entries, List.map_append, List.nodup_append]
    refine ⟨hnd, List.nodup_singleton _, ?_⟩
    intro x hx hx2
    simp only [List.map_cons, List.map_nil, List.mem_singleton] at hx2
    obtain ⟨y, hy, hyx⟩ := List.mem_map.mp hx
    have hb := hlt y hy
    rw [hyx, hx2, hid] at hb
    omega
  · intro x hx
    rw [created_db_nextEntryId]
    rw [created_db_entries] at hx
    rcases List.mem_append.mp hx with h1 | h2
    · exact Nat.lt_succ_of_lt (hlt x h1)
    · rw [List.mem_singleton.mp h2, hid]
      omega

theorem delete_ok_state (db : DB) (entry_id : Nat) (db' : DB) (e : TallyLogEntry)
    (h : delete_tally_log_entry db entry_id = some (db', e)) :
    ∃ old hv, get_tally_log_entry db entry_id = some old ∧ e = old
      ∧ db' = deleted_db db entry_id old hv := by
  unfold delete_tally_log_entry at h
  split at h
  · exact absurd h (by simp)
  next log_entry hget =>
  simp only [Option.some.injEq, Prod.mk.injEq] at h
  exact ⟨log_entry, _, hget, h.2.symm, h.1.symm⟩

theorem deleted_db_entries (db : DB) (entry_id : Nat) (old : TallyLogEntry) (hv : Rat) :
    (deleted_db db entry_id old hv).entries
      = db.entries.eraseP (fun x => x.id == entry_id) := by
  unfold deleted_db
  split <;> rfl

theorem deleted_db_nextEntryId (db : DB) (entry_id : Nat) (old : TallyLogEntry)
    (hv : Rat) :
    (deleted_db db entry_id old hv).nextEntryId = db.nextEntryId := by
  unfold deleted_db
  split <;> rfl

theorem consistent_deleted_db (db : DB) (entry_id : Nat) (old : TallyLogEntry)
    (hv : Rat)
    (hget : db.entries.find? (fun x => x.id == entry_id) = some old)
    (hc : Consistent db) :
    Consistent (deleted_db db entry_id old hv) := by
  have hmem : old ∈ db.entries := List.mem_of_find?_eq_some hget
  have hsome := consistent_find_some db hc old hmem
  obtain ⟨a0, ha0⟩ := Option.isSome_iff_exists.mp hsome
  apply consistent_of_alloc_role
  intro S C r
  have halloc : alloc_role (deleted_db db entry_id old hv) S C r
      = if old.tally_session_id = S ∧ old.weight_classification_id = C ∧ old.role = r
        then max 0 (alloc_role db S C r - 1) else alloc_role db S C r := by
    have h0 : alloc_role (deleted_db db entry_id old hv) S C r
        = alloc_role (if (find_allocation db old.tally_session_id
              old.weight_classification_id).isSome then
            modify_allocation db old.tally_session_id old.weight_classification_id
              (fun a => sub_heads (decrement_role a old.role) hv)
          else db) S C r := rfl
    rw [h0, if_pos hsome, alloc_role_decrement db _ _ _ _ a0 ha0 S C r]
  have hcnt : role_count (deleted_db db entry_id old hv) S C r + role_ind S C r old
      = role_count db S C r := by
    unfold role_count
    rw [deleted_db_entries, ← role_ind_eq]
    exact countP_eraseP _ _ db.entries old hget
  rw [halloc, consistent_alloc_role db hc S C r]
  by_cases hO : old.tally_session_id = S ∧ old.weight_classification_id = C
      ∧ old.role = r
  · have hcount : 0 < role_count db S C r := by
      unfold role_count
      rw [List.countP_pos_iff]
      exact ⟨old, hmem, by simp [hO.1, hO.2.1, hO.2.2]⟩
    have hge : (1 : Rat) ≤ (role_count db S C r : Rat) := by exact_mod_cast hcount
    have hind : role_ind S C r old = 1 := by simp [role_ind, hO]
    rw [hind] at hcnt
    have hq : (role_count (deleted_db db entry_id old hv) S C r : Rat) + 1
        = (role_count db S C r : Rat) := by exact_mod_cast hcnt
    rw [if_pos hO, max_eq_right (by linarith)]
    linarith
  · have hind : role_ind S C r old = 0 := by simp [role_ind, hO]
    rw [hind, add_zero] at hcnt
    rw [if_neg hO, hcnt]

theorem entriesWF_deleted_db (db : DB) (entry_id : Nat) (old : TallyLogEntry)
    (hv : Rat) (hwf : EntriesWF db) :
    EntriesWF (deleted_db db entry_id old hv) := by
  obtain ⟨hnd, hlt⟩ := hwf
  have hsub : List.Sublist (deleted_db db entry_id old hv).entries db.entries := by
    rw [deleted_db_entries]
    exact List.eraseP_sublist _
  constructor
  · exact List.Nodup.sublist (hsub.map _) hnd
  · intro e he
    rw [deleted_db_nextEntryId]
    exact hlt e (hsub.subset he)

theorem update_ok_state (db : DB) (entry_id : Nat) (u : TallyLogEntryUpdate)
    (user_id : Nat) (db1 db2 : DB) (e : TallyLogEntry)
    (h : update_tally_log_entry db entry_id u user_id = .ok (some (db1, db2, e))) :
    ∃ log_entry, get_tally_log_entry db entry_id = some log_entry
      ∧ db1 = update_apply db entry_id log_entry u
      ∧ (db2 = db1
        ∨ db2 = { db1 with audits := db1.audits
            ++ [⟨entry_id, user_id, update_changes db log_entry u⟩] })
      ∧ e = update_entry_result db log_entry u := by
  unfold update_tally_log_entry at h
  split at h
  · exact absurd h (by simp)
  next log_entry hget =>
  cases hchk : update_checks db log_entry u with
  | error msg =>
    rw [hchk] at h
    exact absurd h (by simp [and_then])
  | ok u0 =>
    cases u0
    rw [and_then_ok _ _ hchk] at h
    simp only [Except.ok.injEq, Option.some.injEq, Prod.mk.injEq] at h
    obtain ⟨h1, h2, h3⟩ := h
    refine ⟨log_entry, hget, h1.symm, ?_, h3.symm⟩
    by_cases hch : update_changes db log_entry u ≠ []
    · right
      rw [← h2, if_pos hch, h1]
    · left
      rw [← h2, if_neg hch, h1]

theorem consistent_updated (db : DB) (entry_id : Nat) (u : TallyLogEntryUpdate)
    (user_id : Nat) (db1 db2 : DB) (e : TallyLogEntry)
    (h : update_tally_log_entry db entry_id u user_id = .ok (some (db1, db2, e)))
    (hnd : (db.entries.map (fun x => x.id)).Nodup)
    (hc : Consistent db) : Consistent db2 := by
  obtain ⟨log_entry, hget, h1, h2, -⟩ := update_ok_state db entry_id u user_id db1 db2 e h
  have hcm : Consistent (update_apply db entry_id log_entry u) := by
    unfold update_apply
    exact consistent_reaggregate db entry_id log_entry
      (update_entry_result db log_entry u) (update_old_heads_value db log_entry)
      (update_new_heads_value db log_entry u) hnd hget hc
  rcases h2 with h2 | h2
  · rw [h2, h1]
    exact hcm
  · rw [h2, h1]
    exact hcm

theorem entriesWF_updated (db : DB) (entry_id : Nat) (u : TallyLogEntryUpdate)
    (user_id : Nat) (db1 db2 : DB) (e : TallyLogEntry)
    (h : update_tally_log_entry db entry_id u user_id = .ok (some (db1, db2, e)))
    (hwf : EntriesWF db) : EntriesWF db2 := by
  obtain ⟨log_entry, hget, h1, h2, -⟩ := update_ok_state db entry_id u user_id db1 db2 e h
  have hle : log_entry.id = entry_id := by
    have hb := List.find?_some hget
    simpa using hb
  have hid : (update_entry_result db log_entry u).id = entry_id := by
    rw [← hle]
    rfl
  have hids : db1.entries.map (fun x => x.id) = db.entries.map (fun x => x.id) := by
    rw [h1]
    unfold update_apply
    rw [reaggregate_entries]
    exact map_key_update (fun x => x.id) entry_id _ db.entries hid
  have hnid : db1.nextEntryId = db.nextEntryId := by
    rw [h1]
    unfold update_apply
    exact reaggregate_nextEntryId db entry_id log_entry _ _ _
  have he2 : db2.entries = db1.entries ∧ db2.nextEntryId = db1.nextEntryId := by
    rcases h2 with h2 | h2 <;> rw [h2] <;> exact ⟨rfl, rfl⟩
  constructor
  · rw [he2.1, hids]
    exact hwf.1
  · intro x hx
    rw [he2.2, hnid]
    rw [he2.1] at hx
    have hxid : x.id ∈ db.entries.map (fun t => t.id) := by
      rw [← hids]
      exact List.mem_map_of_mem _ hx
    obtain ⟨y, hy, hyx⟩ := List.mem_map.mp hxid
    rw [← hyx]
    exact hwf.2 y hy

theorem move_entry_entries (target : Nat) (db : DB) (e : TallyLogEntry) :
    (move_entry target db e).entries
      = db.entries.map (fun x => if x.id == e.id then
          { e with
            original_session_id := some (e.original_session_id.getD e.tally_session_id),
            transferred_at := some db.now,
            tally_session_id := target } else x) := by
  unfold move_entry
  exact reaggregate_entries db e.id e _ _ _

theorem move_entry_ids (target : Nat) (db : DB) (e : TallyLogEntry) :
    (move_entry target db e).entries.map (fun x => x.id)
      = db.entries.map (fun x => x.id) := by
  rw [move_entry_entries]
  exact map_key_update (fun x => x.id) e.id
    { e with
      original_session_id := some (e.original_session_id.getD e.tally_session_id),
      transferred_at := some db.now,
      tally_session_id := target } db.entries rfl

theorem move_entry_nextEntryId (target : Nat) (db : DB) (e : TallyLogEntry) :
    (move_entry target db e).nextEntryId = db.nextEntryId := by
  unfold move_entry
  exact reaggregate_nextEntryId db e.id e _ _ _

theorem consistent_move_entry (target : Nat) (db : DB) (e : TallyLogEntry)
    (hnd : (db.entries.map (fun x => x.id)).Nodup)
    (hfind : db.entries.find? (fun x => x.id == e.id) = some e)
    (hc : Consistent db) : Consistent (move_entry target db e) := by
  unfold move_entry
  exact consistent_reaggregate db e.id e _ _ _ hnd hfind hc

theorem consistent_move_fold (target : Nat) (es : List TallyLogEntry) (db : DB)
    (hnd : (db.entries.map (fun x => x.id)).Nodup)
    (hes : ∀ e ∈ es, db.entries.find? (fun x => x.id == e.id) = some e)
    (hesnd : (es.map (fun x => x.id)).Nodup)
    (hc : Consistent db) :
    Consistent (es.foldl (move_entry target) db) := by
  induction es generalizing db with
  | nil => exact hc
  | cons e tl ih =>
    simp only [List.foldl_cons]
    have hfe := hes e (List.mem_cons_self e tl)
    simp only [List.map_cons, List.nodup_cons, List.mem_map] at hesnd
    refine ih (move_entry target db e) ?_ ?_ hesnd.2
      (consistent_move_entry target db e hnd hfe hc)
    · rw [move_entry_ids]
      exact hnd
    · intro x hx
      have hne : x.id ≠ e.id := fun hh => hesnd.1 ⟨x, hx, hh⟩
      rw [move_entry_entries, find?_map_pred]
      · rw [hes x (List.mem_cons_of_mem _ hx)]
        simp [hne]
      · intro y
        by_cases hy : y.id = e.id <;> simp [hy]

theorem alloc_role_modify_required (db : DB) (S0 C0 : Nat)
    (f : AllocationDetails → AllocationDetails) (hf : KeyPreserving f)
    (hcol : ∀ a r, alloc_col (f a) r = alloc_col a r) (S C : Nat) (r : Role) :
    alloc_role (modify_allocation db S0 C0 f) S C r = alloc_role db S C r := by
  by_cases hk : S = S0 ∧ C = C0
  · rcases hk with ⟨rfl, rfl⟩
    rw [alloc_role_modify_key _ _ _ hf r]
    unfold alloc_role
    cases hfa : find_allocation db S C with
    | some a => simp [hcol]
    | none => simp
  · exact alloc_role_modify_other db S0 C0 S C hf hk r

theorem move_required_entries (t : Nat) (db : DB) (g : (Nat × Nat) × Nat) :
    (move_required t db g).entries = db.entries := by
  unfold move_required
  split
  · rfl
  · split
    · simp only [modify_allocation_entries, ensure_allocation_entries]
    · rfl

theorem move_required_nextEntryId (t : Nat) (db : DB) (g : (Nat × Nat) × Nat) :
    (move_required t db g).nextEntryId = db.nextEntryId := by
  unfold move_required
  split
  · rfl
  · split
    · simp only [modify_allocation_nextEntryId, ensure_allocation_nextEntryId]
    · rfl

theorem alloc_role_move_required (t : Nat) (db : DB) (g : (Nat × Nat) × Nat)
    (S C : Nat) (r : Role) :
    alloc_role (move_required t db g) S C r = alloc_role db S C r := by
  have h1 : ∀ (d : DB) (S0 C0 : Nat) (v : Rat),
      alloc_role (modify_allocation d S0 C0
        (fun a => { a with required_bags := max 0 (a.required_bags - v) })) S C r
        = alloc_role d S C r :=
    fun d S0 C0 v => alloc_role_modify_required d S0 C0
      (fun a => { a with required_bags := max 0 (a.required_bags - v) })
      (fun a => ⟨rfl, rfl⟩) (fun a r' => by cases r' <;> rfl) S C r
  have h2 : ∀ (d : DB) (S0 C0 : Nat) (v : Rat),
      alloc_role (modify_allocation d S0 C0
        (fun a => { a with required_bags := a.required_bags + v })) S C r
        = alloc_role d S C r :=
    fun d S0 C0 v => alloc_role_modify_required d S0 C0
      (fun a => { a with required_bags := a.required_bags + v })
      (fun a => ⟨rfl, rfl⟩) (fun a r' => by cases r' <;> rfl) S C r
  unfold move_required
  split
  · rfl
  · split
    · simp only [h1, h2, alloc_role_ensure]
    · rfl

theorem consistent_move_required (t : Nat) (db : DB) (g : (Nat × Nat) × Nat)
    (hc : Consistent db) : Consistent (move_required t db g) := by
  apply consistent_of_alloc_role
  intro S C r
  rw [alloc_role_move_required]
  have hcnt : role_count (move_required t db g) S C r = role_count db S C r := by
    unfold role_count
    rw [move_required_entries]
  rw [hcnt]
  exact consistent_alloc_role db hc S C r

theorem consistent_required_fold (t : Nat) (gs : List ((Nat × Nat) × Nat)) (db : DB)
    (hc : Consistent db) : Consistent (gs.foldl (move_required t) db) := by
  induction gs generalizing db with
  | nil => exact hc
  | cons g tl ih =>
    simp only [List.foldl_cons]
    exact ih _ (consistent_move_required t db g hc)

theorem move_fold_ids (target : Nat) (es : List TallyLogEntry) (db : DB) :
    (es.foldl (move_entry target) db).entries.map (fun x => x.id)
      = db.entries.map (fun x => x.id) := by
  induction es generalizing db with
  | nil => rfl
  | cons e tl ih =>
    simp only [List.foldl_cons]
    rw [ih, move_entry_ids]

theorem move_fold_nextEntryId (target : Nat) (es : List TallyLogEntry) (db : DB) :
    (es.foldl (move_entry target) db).nextEntryId = db.nextEntryId := by
  induction es generalizing db with
  | nil => rfl
  | cons e tl ih =>
    simp only [List.foldl_cons]
    rw [ih, move_entry_nextEntryId]

theorem required_fold_entries (t : Nat) (gs : List ((Nat × Nat) × Nat)) (db : DB) :
    (gs.foldl (move_required t) db).entries = db.entries := by
  induction gs generalizing db with
  | nil => rfl
  | cons g tl ih =>
    simp only [List.foldl_cons]
    rw [ih, move_required_entries]

theorem required_fold_nextEntryId (t : Nat) (gs : List ((Nat × Nat) × Nat)) (db : DB) :
    (gs.foldl (move_required t) db).nextEntryId = db.nextEntryId := by
  induction gs generalizing db with
  | nil => rfl
  | cons g tl ih =>
    simp only [List.foldl_cons]
    rw [ih, move_required_nextEntryId]

theorem consistent_run_transfer (db : DB) (entry_ids : List Nat) (target : Nat)
    (hwf : EntriesWF db) (hc : Consistent db) :
    Consistent (run_transfer db entry_ids target) := by
  unfold run_transfer
  cases htr : transfer_tally_log_entries db entry_ids target with
  | error msg => exact hc
  | ok p =>
    obtain ⟨db2, n⟩ := p
    obtain ⟨-, -, -, -, -, -, hdb, -⟩ := transfer_ok_inversion db entry_ids target db2 n htr
    rw [hdb]
    apply consistent_required_fold
    refine consistent_move_fold target (transfer_entries db entry_ids) db hwf.1 ?_ ?_ hc
    · intro e he
      have hmem : e ∈ db.entries := List.mem_of_mem_filter he
      exact find?_of_mem_nodup (fun x => x.id) db.entries e hmem hwf.1
    · have hsub : List.Sublist (transfer_entries db entry_ids) db.entries :=
        List.filter_sublist _
      exact List.Nodup.sublist (hsub.map _) hwf.1

theorem entriesWF_run_transfer (db : DB) (entry_ids : List Nat) (target : Nat)
    (hwf : EntriesWF db) : EntriesWF (run_transfer db entry_ids target) := by
  unfold run_transfer
  cases htr : transfer_tally_log_entries db entry_ids target with
  | error msg => exact hwf
  | ok p =>
    obtain ⟨db2, n⟩ := p
    obtain ⟨-, -, -, -, -, -, hdb, -⟩ := transfer_ok_inversion db entry_ids target db2 n htr
    rw [hdb]
    constructor
    · show (((group_tally_counts (transfer_entries db entry_ids)).foldl
          (move_required target)
          ((transfer_entries db entry_ids).foldl (move_entry target) db)).entries.map
            (fun x => x.id)).Nodup
      rw [required_fold_entries, move_fold_ids]
      exact hwf.1
    · intro e he
      rw [required_fold_nextEntryId, move_fold_nextEntryId]
      rw [required_fold_entries] at he
      have hxid : e.id ∈ db.entries.map (fun t => t.id) := by
        rw [← move_fold_ids target (transfer_entries db entry_ids) db]
        exact List.mem_map_of_mem _ he
      obtain ⟨y, hy, hyx⟩ := List.mem_map.mp hxid
      rw [← hyx]
      exact hwf.2 y hy

theorem countP_filter_zero {α : Type} (p q : α → Bool) (l : List α)
    (h : ∀ x, p x = true → q x = false) : (l.filter q).countP p = 0 := by
  rw [List.countP_eq_zero]
  intro x hx hpx
  have hq := (List.mem_filter.mp hx).2
  rw [h x hpx] at hq
  exact absurd hq (by simp)

theorem countP_filter_keep {α : Type} (p q : α → Bool) (l : List α)
    (h : ∀ x, p x = true → q x = true) : (l.filter q).countP p = l.countP p := by
  have hpq : ∀ a, (p a && q a) = p a := by
    intro a
    cases hpa : p a with
    | false => simp
    | true => simp [h a hpa]
  rw [List.countP_filter]
  simp only [hpq]

theorem reset_state (db : DB) (sid : Nat) (rt rd : Bool) :
    (reset_allocated_bags_for_session db sid rt rd).1 = db
    ∨ (reset_allocated_bags_for_session db sid rt rd).1
      = { db with
          entries :=
            (if rd then
              (if rt then db.entries.filter
                  (fun e => !(e.tally_session_id == sid && e.role == Role.tally))
               else db.entries).filter
                (fun e => !(e.tally_session_id == sid && e.role == Role.dispatcher))
             else
              (if rt then db.entries.filter
                  (fun e => !(e.tally_session_id == sid && e.role == Role.tally))
               else db.entries)),
          allocations := db.allocations.map (fun a =>
            if a.tally_session_id == sid then
              (fun b => if rd then { b with allocated_bags_dispatcher := 0 } else b)
                (if rt then { a with allocated_bags_tally := 0 } else a)
            else a) } := by
  simp only [reset_allocated_bags_for_session]
  split
  · left
    rfl
  · right
    rfl

theorem alloc_role_map_allocations (db : DB) (es : List TallyLogEntry)
    (g : AllocationDetails → AllocationDetails)
    (hg : ∀ a, allocation_matches S C (g a) = allocation_matches S C a)
    (r : Role) :
    alloc_role { db with entries := es, allocations := db.allocations.map g } S C r
      = ((find_allocation db S C).map (fun a => alloc_col (g a) r)).getD 0 := by
  unfold alloc_role find_allocation
  show ((((db.allocations.map g).find? (allocation_matches S C)).map
      (fun a => alloc_col a r)).getD 0) = _
  rw [find?_map_pred g (allocation_matches S C) db.allocations hg]
  cases db.allocations.find? (allocation_matches S C) <;> rfl

theorem consistent_reset (db : DB) (sid : Nat) (rt rd : Bool) (hc : Consistent db) :
    Consistent (reset_allocated_bags_for_session db sid rt rd).1 := by
  rcases reset_state db sid rt rd with h | h
  · rw [h]
    exact hc
  rw [h]
  apply consistent_of_alloc_role
  intro S C r
  have hG : ∀ a : AllocationDetails,
      allocation_matches S C ((fun a =>
        if a.tally_session_id == sid then
          (fun b => if rd then { b with allocated_bags_dispatcher := 0 } else b)
            (if rt then { a with allocated_bags_tally := 0 } else a)
        else a) a) = allocation_matches S C a := by
    intro a
    cases rt <;> cases rd <;>
      by_cases h1 : (a.tally_session_id == sid) = true <;>
        simp [allocation_matches, h1]
  have hstage : ∀ (l : List TallyLogEntry) (flag : Bool) (r0 : Role),
      List.countP (fun e => e.tally_session_id == S
          && e.weight_classification_id == C && e.role == r)
        (if flag then l.filter
            (fun e => !(e.tally_session_id == sid && e.role == r0)) else l)
        = if S = sid ∧ r = r0 ∧ flag = true then 0
          else List.countP (fun e => e.tally_session_id == S
            && e.weight_classification_id == C && e.role == r) l := by
    intro l flag r0
    cases flag with
    | false => simp
    | true =>
      have hred : (if (true : Bool) then l.filter
          (fun e => !(e.tally_session_id == sid && e.role == r0)) else l)
          = l.filter (fun e => !(e.tally_session_id == sid && e.role == r0)) := rfl
      rw [hred]
      by_cases hSr : S = sid ∧ r = r0
      · have hcond : S = sid ∧ r = r0 ∧ true = true := ⟨hSr.1, hSr.2, rfl⟩
        rw [if_pos hcond]
        apply countP_filter_zero
        intro x hpx
        simp only [Bool.and_eq_true, beq_iff_eq] at hpx
        rw [show x.tally_session_id = S from hpx.1.1, show x.role = r from hpx.2]
        simp [hSr.1, hSr.2]
      · have hcond : ¬(S = sid ∧ r = r0 ∧ true = true) := fun hh => hSr ⟨hh.1, hh.2.1⟩
        rw [if_neg hcond]
        apply countP_filter_keep
        intro x hpx
        simp only [Bool.and_eq_true, beq_iff_eq] at hpx
        rw [show x.tally_session_id = S from hpx.1.1, show x.role = r from hpx.2]
        by_cases hS : S = sid
        · have hr : r ≠ r0 := fun hh => hSr ⟨hS, hh⟩
          simp [hS, hr]
        · simp [hS]
  have hcnt : role_count { db with
      entries :=
        (if rd then
          (if rt then db.entries.filter
              (fun e => !(e.tally_session_id == sid && e.role == Role.tally))
           else db.entries).filter
            (fun e => !(e.tally_session_id == sid && e.role == Role.dispatcher))
         else
          (if rt then db.entries.filter
              (fun e => !(e.tally_session_id == sid && e.role == Role.tally))
           else db.entries)),
      allocations := db.allocations.map (fun a =>
        if a.tally_session_id == sid then
          (fun b => if rd then { b with allocated_bags_dispatcher := 0 } else b)
            (if rt then { a with allocated_bags_tally := 0 } else a)
        else a) } S C r
      = if S = sid ∧ r = Role.dispatcher ∧ rd = true then 0
        else if S = sid ∧ r = Role.tally ∧ rt = true then 0
        else role_count db S C r := by
    unfold role_count
    rw [show ({ db with
        entries :=
          (if rd then
            (if rt then db.entries.filter
                (fun e => !(e.tally_session_id == sid && e.role == Role.tally))
             else db.entries).filter
              (fun e => !(e.tally_session_id == sid && e.role == Role.dispatcher))
           else
            (if rt then db.entries.filter
                (fun e => !(e.tally_session_id == sid && e.role == Role.tally))
             else db.entries)),
        allocations := db.allocations.map (fun a =>
          if a.tally_session_id == sid then
            (fun b => if rd then { b with allocated_bags_dispatcher := 0 } else b)
              (if rt then { a with allocated_bags_tally := 0 } else a)
          else a) } : DB).entries
      = (if rd then
          (if rt then db.entries.filter
              (fun e => !(e.tally_session_id == sid && e.role == Role.tally))
           else db.entries).filter
            (fun e => !(e.tally_session_id == sid && e.role == Role.dispatcher))
         else
          (if rt then db.entries.filter
              (fun e => !(e.tally_session_id == sid && e.role == Role.tally))
           else db.entries)) from rfl]
    rw [hstage _ rd Role.dispatcher, hstage db.entries rt Role.tally]
  rw [alloc_role_map_allocations db _ _ hG r, hcnt]
  cases hfa : find_allocation db S C with
  | none =>
    have hb : role_count db S C r = 0 := by
      have h1 := consistent_alloc_role db hc S C r
      rw [alloc_role_of_find_none db S C hfa r] at h1
      exact_mod_cast h1.symm
    simp [hb]
  | some a =>
    have haS : a.tally_session_id = S := by
      have hm := List.find?_some hfa
      simp only [allocation_matches, Bool.and_eq_true, beq_iff_eq] at hm
      exact hm.1
    have hbase : alloc_col a r = (role_count db S C r : Rat) := by
      have h1 := consistent_alloc_role db hc S C r
      rw [alloc_role_of_find db S C a hfa r] at h1
      exact h1
    simp only [Option.map_some', Option.getD_some]
    by_cases hS : S = sid
    · have hsid : (a.tally_session_id == sid) = true := by
        simp [haS, hS]
      cases r with
      | tally =>
        have hd1 : ¬(S = sid ∧ Role.tally = Role.dispatcher ∧ rd = true) := by
          rintro ⟨-, hbad, -⟩
          exact Role.noConfusion hbad
        rw [if_neg hd1]
        cases rt with
        | true =>
          have hd2 : S = sid ∧ Role.tally = Role.tally ∧ true = true := ⟨hS, rfl, rfl⟩
          rw [if_pos hd2]
          cases rd <;> simp [alloc_col, hsid]
        | false =>
          have hd2 : ¬(S = sid ∧ Role.tally = Role.tally ∧ false = true) := by
            rintro ⟨-, -, hbad⟩
            exact absurd hbad (by simp)
          rw [if_neg hd2]
          cases rd <;> simp [alloc_col, hsid] <;> exact hbase
      | dispatcher =>
        cases rd with
        | true =>
          have hd1 : S = sid ∧ Role.dispatcher = Role.dispatcher ∧ true = true :=
            ⟨hS, rfl, rfl⟩
          rw [if_pos hd1]
          cases rt <;> simp [alloc_col, hsid]
        | false =>
          have hd1 : ¬(S = sid ∧ Role.dispatcher = Role.dispatcher ∧ false = true) := by
            rintro ⟨-, -, hbad⟩
            exact absurd hbad (by simp)
          rw [if_neg hd1]
          have hd2 : ¬(S = sid ∧ Role.dispatcher = Role.tally ∧ rt = true) := by
            rintro ⟨-, hbad, -⟩
            exact Role.noConfusion hbad
          rw [if_neg hd2]
          cases rt <;> simp [alloc_col, hsid] <;> exact hbase
    · have hsid : (a.tally_session_id == sid) = false := by
        simp only [beq_eq_false_iff_ne, ne_eq, haS]
        exact hS
      have hS1 : ¬(S = sid ∧ r = Role.dispatcher ∧ rd = true) := fun hh => hS hh.1
      have hS2 : ¬(S = sid ∧ r = Role.tally ∧ rt = true) := fun hh => hS hh.1
      rw [if_neg hS1, if_neg hS2]
      simp only [hsid, Bool.false_eq_true, if_false]
      exact hbase

theorem entriesWF_reset (db : DB) (sid : Nat) (rt rd : Bool) (hwf : EntriesWF db) :
    EntriesWF (reset_allocated_bags_for_session db sid rt rd).1 := by
  rcases reset_state db sid rt rd with h | h
  · rw [h]
    exact hwf
  rw [h]
  have hst : ∀ (l : List TallyLogEntry) (flag : Bool) (f : TallyLogEntry → Bool),
      List.Sublist (if flag then l.filter f else l) l := by
    intro l flag f
    cases flag
    · exact List.Sublist.refl l
    · exact List.filter_sublist l
  have hsub : List.Sublist
      (if rd then
        (if rt then db.entries.filter
            (fun e => !(e.tally_session_id == sid && e.role == Role.tally))
         else db.entries).filter
          (fun e => !(e.tally_session_id == sid && e.role == Role.dispatcher))
       else
        (if rt then db.entries.filter
            (fun e => !(e.tally_session_id == sid && e.role == Role.tally))
         else db.entries)) db.entries :=
    List.Sublist.trans (hst _ rd _) (hst db.entries rt _)
  constructor
  · exact List.Nodup.sublist (hsub.map _) hwf.1
  · intro e he
    exact hwf.2 e (hsub.subset he)

/-- Every committed API call preserves C1's invariant. -/
theorem consistent_applyOp (db : DB) (op : Op) (hwf : EntriesWF db)
    (hc : Consistent db) : Consistent (applyOp db op) := by
  cases op with
  | createEntry c =>
    show Consistent (match create_tally_log_entry db c with
      | .ok (db', _) => db'
      | .error _ => db)
    cases hcr : create_tally_log_entry db c with
    | error msg => exact hc
    | ok p =>
      obtain ⟨db', e⟩ := p
      show Consistent db'
      obtain ⟨wc, hwc, hdb⟩ := create_ok_state db c db' e hcr
      rw [hdb]
      exact consistent_created db c _ hc
  | updateEntry entry_id u user_id =>
    show Consistent (match update_tally_log_entry db entry_id u user_id with
      | .ok (some (_, dbFinal, _)) => dbFinal
      | .ok none => db
      | .error _ => db)
    cases hup : update_tally_log_entry db entry_id u user_id with
    | error msg => exact hc
    | ok o =>
      cases o with
      | none => exact hc
      | some t =>
        obtain ⟨db1, db2, e⟩ := t
        show Consistent db2
        exact consistent_updated db entry_id u user_id db1 db2 e hup hwf.1 hc
  | deleteEntry entry_id =>
    show Consistent (match delete_tally_log_entry db entry_id with
      | some (db', _) => db'
      | none => db)
    cases hdel : delete_tally_log_entry db entry_id with
    | none => exact hc
    | some t =>
      obtain ⟨db', e⟩ := t
      show Consistent db'
      obtain ⟨old, hv, hget, -, hdb⟩ := delete_ok_state db entry_id db' e hdel
      rw [hdb]
      exact consistent_deleted_db db entry_id old hv hget hc
  | transferEntries entry_ids target =>
    exact consistent_run_transfer db entry_ids target hwf hc
  | resetAllocations sid rt rd =>
    exact consistent_reset db sid rt rd hc

/-- Every committed API call preserves the primary-key discipline of the
entries table. -/
theorem entriesWF_applyOp (db : DB) (op : Op) (hwf : EntriesWF db) :
    EntriesWF (applyOp db op) := by
  cases op with
  | createEntry c =>
    show EntriesWF (match create_tally_log_entry db c with
      | .ok (db', _) => db'
      | .error _ => db)
    cases hcr : create_tally_log_entry db c with
    | error msg => exact hwf
    | ok p =>
      obtain ⟨db', e⟩ := p
      show EntriesWF db'
      obtain ⟨wc, hwc, hdb⟩ := create_ok_state db c db' e hcr
      rw [hdb]
      exact entriesWF_created db c _ hwf
  | updateEntry entry_id u user_id =>
    show EntriesWF (match update_tally_log_entry db entry_id u user_id with
      | .ok (some (_, dbFinal, _)) => dbFinal
      | .ok none => db
      | .error _ => db)
    cases hup : update_tally_log_entry db entry_id u user_id with
    | error msg => exact hwf
    | ok o =>
      cases o with
      | none => exact hwf
      | some t =>
        obtain ⟨db1, db2, e⟩ := t
        show EntriesWF db2
        exact entriesWF_updated db entry_id u user_id db1 db2 e hup hwf
  | deleteEntry entry_id =>
    show EntriesWF (match delete_tally_log_entry db entry_id with
      | some (db', _) => db'
      | none => db)
    cases hdel : delete_tally_log_entry db entry_id with
    | none => exact hwf
    | some t =>
      obtain ⟨db', e⟩ := t
      show EntriesWF db'
      obtain ⟨old, hv, hget, -, hdb⟩ := delete_ok_state db entry_id db' e hdel
      rw [hdb]
      exact entriesWF_deleted_db db entry_id old hv hwf
  | transferEntries entry_ids target =>
    exact entriesWF_run_transfer db entry_ids target hwf
  | resetAllocations sid rt rd =>
    exact entriesWF_reset db sid rt rd hwf

theorem consistent_applyOps (db : DB) (ops : List Op) (hwf : EntriesWF db)
    (hc : Consistent db) :
    Consistent (applyOps db ops) ∧ EntriesWF (applyOps db ops) := by
  induction ops generalizing db with
  | nil => exact ⟨hc, hwf⟩
  | cons op tl ih =>
    exact ih (applyOp db op) (entriesWF_applyOp db op hwf)
      (consistent_applyOp db op hwf hc)

/-! ### C1: aggregate consistency invariant -/
/-- C1: starting from a state where every AllocationDetails row agrees with
its log entries (and entry ids obey the primary-key discipline), after any
sequence of createLogEntry, updateLogEntry, deleteLogEntry, transferLogEntries
and resetAllocations calls, for every (session S, classification C) pair the
allocation's allocated_bags_tally equals the count of TALLY log entries with
that key and allocated_bags_dispatcher the count of DISPATCHER entries. -/
theorem aggregate_consistency (db : DB) (ops : List Op)
    (hwf : EntriesWF db) (hc : Consistent db) :
    ∀ S C : Nat,
      alloc_tally (applyOps db ops) S C
        = (role_count (applyOps db ops) S C Role.tally : Rat)
      ∧ alloc_dispatcher (applyOps db ops) S C
        = (role_count (applyOps db ops) S C Role.dispatcher : Rat) :=
  (consistent_applyOps db ops hwf hc).1

theorem aggregate_consistency_witness :
    EntriesWF dbC1 ∧ Consistent dbC1
      ∧ (∀ S C : Nat,
          alloc_tally (applyOps dbC1 opsC1) S C
            = (role_count (applyOps dbC1 opsC1) S C Role.tally : Rat)
          ∧ alloc_dispatcher (applyOps dbC1 opsC1) S C
            = (role_count (applyOps dbC1 opsC1) S C Role.dispatcher : Rat)) :=
  ⟨⟨List.nodup_nil, by simp [dbC1, emptyDB]⟩,
   fun S C => ⟨by simp [alloc_tally, find_allocation, dbC1, emptyDB, role_count],
     by simp [alloc_dispatcher, find_allocation, dbC1, emptyDB, role_count]⟩,
   aggregate_consistency dbC1 opsC1
     ⟨List.nodup_nil, by simp [dbC1, emptyDB]⟩
     (fun S C => ⟨by simp [alloc_tally, find_allocation, dbC1, emptyDB, role_count],
       by simp [alloc_dispatcher, find_allocation, dbC1, emptyDB, role_count]⟩)⟩

/-! ### C7: non-negativity machinery -/
theorem nonNegRow_increment (a : AllocationDetails) (r : Role) (h : NonNegRow a) :
    NonNegRow (increment_role a r) := by
  obtain ⟨h1, h2, h3, h4⟩ := h
  cases r
  · refine ⟨h1, ?_, h3, h4⟩
    show (0 : Rat) ≤ a.allocated_bags_tally + 1
    linarith
  · refine ⟨h1, h2, ?_, h4⟩
    show (0 : Rat) ≤ a.allocated_bags_dispatcher + 1
    linarith

theorem nonNegRow_decrement (a : AllocationDetails) (r : Role) (h : NonNegRow a) :
    NonNegRow (decrement_role a r) := by
  obtain ⟨h1, h2, h3, h4⟩ := h
  cases r
  · exact ⟨h1, le_max_left 0 _, h3, h4⟩
  · exact ⟨h1, h2, le_max_left 0 _, h4⟩

theorem nonNegRow_add_heads (a : AllocationDetails) (v : Rat) (hv : 0 ≤ v)
    (h : NonNegRow a) : NonNegRow (add_heads a v) := by
  obtain ⟨h1, h2, h3, h4⟩ := h
  refine ⟨h1, h2, h3, ?_⟩
  intro q hq
  simp only [add_heads_heads, Option.mem_def, Option.some.injEq] at hq
  have h0 : 0 ≤ a.heads.getD 0 := by
    cases ha : a.heads with
    | none => simp
    | some w => simpa using h4 w (by simp [ha])
  rw [← hq]
  linarith

theorem nonNegRow_sub_heads (a : AllocationDetails) (v : Rat) (h : NonNegRow a) :
    NonNegRow (sub_heads a v) := by
  obtain ⟨h1, h2, h3, h4⟩ := h
  refine ⟨h1, h2, h3, ?_⟩
  intro q hq
  simp only [sub_heads_heads, Option.mem_def, Option.some.injEq] at hq
  rw [← hq]
  exact le_max_left 0 _

theorem nonNegRow_new_allocation (i S C : Nat) : NonNegRow (new_allocation i S C) := by
  refine ⟨le_refl 0, le_refl 0, le_refl 0, ?_⟩
  intro q hq
  simp only [new_allocation, Option.mem_def, Option.some.injEq] at hq
  rw [← hq]

theorem nonNeg_modify (db : DB) (S C : Nat) (f : AllocationDetails → AllocationDetails)
    (hf : ∀ a, NonNegRow a → NonNegRow (f a))
    (h : ∀ a ∈ db.allocations, NonNegRow a) :
    ∀ a ∈ (modify_allocation db S C f).allocations, NonNegRow a := by
  intro a ha
  obtain ⟨b, hb, rfl⟩ := List.mem_map.mp ha
  by_cases hm : allocation_matches S C b = true
  · rw [if_pos hm]
    exact hf b (h b hb)
  · rw [if_neg hm]
    exact h b hb

theorem nonNeg_ensure (db : DB) (S C : Nat)
    (h : ∀ a ∈ db.allocations, NonNegRow a) :
    ∀ a ∈ (ensure_allocation db S C).allocations, NonNegRow a := by
  intro a ha
  unfold ensure_allocation at ha
  split at ha
  · exact h a ha
  · rcases List.mem_append.mp ha with h1 | h2
    · exact h a h1
    · rw [List.mem_singleton.mp h2]
      exact nonNegRow_new_allocation _ _ _

theorem nonNeg_reaggregate_allocations (db : DB) (entry_id : Nat)
    (old : TallyLogEntry) (old_hv : Rat) (new : TallyLogEntry) (new_hv : Rat)
    (hv : 0 ≤ new_hv) (hA : ∀ a ∈ db.allocations, NonNegRow a) :
    ∀ a ∈ (reaggregate_entry db entry_id old old_hv new new_hv).allocations,
      NonNegRow a := by
  have h1 : ∀ a ∈ (if (find_allocation db old.tally_session_id
      old.weight_classification_id).isSome then
        modify_allocation db old.tally_session_id old.weight_classification_id
          (fun a => sub_heads (decrement_role a old.role) old_hv)
      else db).allocations, NonNegRow a := by
    split
    · exact nonNeg_modify db old.tally_session_id old.weight_classification_id
        (fun a => sub_heads (decrement_role a old.role) old_hv)
        (fun a ha => nonNegRow_sub_heads _ _ (nonNegRow_decrement _ _ ha)) hA
    · exact hA
  have h2 : ∀ a ∈ ({ (if (find_allocation db old.tally_session_id
      old.weight_classification_id).isSome then
        modify_allocation db old.tally_session_id old.weight_classification_id
          (fun a => sub_heads (decrement_role a old.role) old_hv)
      else db) with entries :=
        (if (find_allocation db old.tally_session_id
            old.weight_classification_id).isSome then
          modify_allocation db old.tally_session_id old.weight_classification_id
            (fun a => sub_heads (decrement_role a old.role) old_hv)
        else db).entries.map (fun e => if e.id == entry_id then new else e) } :
      DB).allocations, NonNegRow a := h1
  have h3 := nonNeg_ensure _ new.tally_session_id new.weight_classification_id h2
  have h4 := nonNeg_modify _ new.tally_session_id new.weight_classification_id
    (fun a => add_heads (increment_role a new.role) new_hv)
    (fun a ha => nonNegRow_add_heads _ _ hv (nonNegRow_increment _ _ ha)) h3
  exact fun a ha => h4 a ha

theorem nonNegState_reaggregate (db : DB) (entry_id : Nat) (old : TallyLogEntry)
    (old_hv : Rat) (new : TallyLogEntry) (new_hv : Rat)
    (hv : 0 ≤ new_hv) (hnew : ∀ q ∈ new.heads, 0 ≤ q) (h : NonNegState db) :
    NonNegState (reaggregate_entry db entry_id old old_hv new new_hv) := by
  obtain ⟨hA, hE, hW⟩ := h
  refine ⟨nonNeg_reaggregate_allocations db entry_id old old_hv new new_hv hv hA,
    ?_, ?_⟩
  · intro e he
    rw [reaggregate_entries] at he
    obtain ⟨b, hb, rfl⟩ := List.mem_map.mp he
    by_cases hid : (b.id == entry_id) = true
    · rw [if_pos hid]
      exact hnew
    · rw [if_neg hid]
      exact hE b hb
  · rw [reaggregate_classifications]
    exact hW

/-- The classification-default fallback chain never resolves to a negative
value in a state with non-negative defaults. -/
theorem default_heads_nonneg (db : DB) (wcid : Nat)
    (hW : ∀ wc ∈ db.classifications, ∀ q ∈ wc.default_heads, 0 ≤ q) :
    0 ≤ ((get_weight_classification db wcid).bind
      (fun wc => wc.default_heads)).getD 15 := by
  cases hg : get_weight_classification db wcid with
  | none => norm_num
  | some wc =>
    have hmem : wc ∈ db.classifications := List.mem_of_find?_eq_some hg
    cases hd : wc.default_heads with
    | none => norm_num [hd]
    | some d =>
      have hq := hW wc hmem d (by simp [hd])
      norm_num [hd, hq]

theorem update_new_heads_value_nonneg (db : DB) (log_entry : TallyLogEntry)
    (u : TallyLogEntryUpdate)
    (hu : ∀ q ∈ u.heads, 0 ≤ q)
    (hle : ∀ q ∈ log_entry.heads, 0 ≤ q)
    (hW : ∀ wc ∈ db.classifications, ∀ q ∈ wc.default_heads, 0 ≤ q) :
    0 ≤ update_new_heads_value db log_entry u := by
  have hndh := default_heads_nonneg db
    (u.weight_classification_id.getD log_entry.weight_classification_id) hW
  simp only [update_new_heads_value]
  split
  · cases hh : u.heads with
    | none => simpa using hndh
    | some q => simpa using hu q (by simp [hh])
  · split
    · exact hndh
    · cases hh : log_entry.heads with
      | none => simpa using hndh
      | some q => simpa using hle q (by simp [hh])

theorem update_entry_result_heads (db : DB) (log_entry : TallyLogEntry)
    (u : TallyLogEntryUpdate) :
    (update_entry_result db log_entry u).heads = log_entry.heads
    ∨ (update_entry_result db log_entry u).heads
      = some (update_new_heads_value db log_entry u) := by
  simp only [update_entry_result, update_new_heads_value]
  split
  · right
    rfl
  · split
    · right
      rfl
    · left
      rfl

theorem created_db_classifications (db : DB) (c : TallyLogEntryCreate) (v : Rat) :
    (created_db db c v).classifications = db.classifications := by
  unfold created_db
  simp only [modify_allocation_classifications, ensure_allocation_classifications]

theorem nonNegState_created (db : DB) (c : TallyLogEntryCreate) (v : Rat)
    (hv : 0 ≤ v) (h : NonNegState db) : NonNegState (created_db db c v) := by
  obtain ⟨hA, hE, hW⟩ := h
  refine ⟨?_, ?_, ?_⟩
  · intro a ha
    have h3 := nonNeg_ensure db c.tally_session_id c.weight_classification_id hA
    have h4 := nonNeg_modify _ c.tally_session_id c.weight_classification_id
      (fun a => add_heads (increment_role a c.role) v)
      (fun a ha => nonNegRow_add_heads _ _ hv (nonNegRow_increment _ _ ha)) h3
    exact h4 a ha
  · intro e he
    rw [created_db_entries] at he
    rcases List.mem_append.mp he with h1 | h2
    · exact hE e h1
    · rw [List.mem_singleton.mp h2]
      intro q hq
      simp only [create_result_entry, Option.mem_def, Option.some.injEq] at hq
      rw [← hq]
      exact hv
  · rw [created_db_classifications]
    exact hW

theorem deleted_db_classifications (db : DB) (entry_id : Nat) (old : TallyLogEntry)
    (hv : Rat) :
    (deleted_db db entry_id old hv).classifications = db.classifications := by
  unfold deleted_db
  split <;> rfl

theorem nonNegState_deleted (db : DB) (entry_id : Nat) (old : TallyLogEntry)
    (hv : Rat) (h : NonNegState db) :
    NonNegState (deleted_db db entry_id old hv) := by
  obtain ⟨hA, hE, hW⟩ := h
  refine ⟨?_, ?_, ?_⟩
  · intro a ha
    have h1 : ∀ a ∈ (if (find_allocation db old.tally_session_id
        old.weight_classification_id).isSome then
          modify_allocation db old.tally_session_id old.weight_classification_id
            (fun a => sub_heads (decrement_role a old.role) hv)
        else db).allocations, NonNegRow a := by
      split
      · exact nonNeg_modify db old.tally_session_id old.weight_classification_id
          (fun a => sub_heads (decrement_role a old.role) hv)
          (fun a ha => nonNegRow_sub_heads _ _ (nonNegRow_decrement _ _ ha)) hA
      · exact hA
    exact h1 a ha
  · intro e he
    rw [deleted_db_entries] at he
    exact hE e ((List.eraseP_sublist _).subset he)
  · rw [deleted_db_classifications]
    exact hW

theorem move_entry_classifications (t : Nat) (db : DB) (e : TallyLogEntry) :
    (move_entry t db e).classifications = db.classifications := by
  unfold move_entry
  exact reaggregate_classifications db e.id e _ _ _

theorem nonNegState_move_entry (t : Nat) (db : DB) (e : TallyLogEntry)
    (he : ∀ q ∈ e.heads, 0 ≤ q) (h : NonNegState db) :
    NonNegState (move_entry t db e) := by
  unfold move_entry
  apply nonNegState_reaggregate
  · cases hh : e.heads with
    | none => simpa using default_heads_nonneg db e.weight_classification_id h.2.2
    | some q => simpa using he q (by simp [hh])
  · exact he
  · exact h

theorem nonNegState_move_fold (t : Nat) (es : List TallyLogEntry) (db : DB)
    (hs : ∀ e ∈ es, ∀ q ∈ e.heads, 0 ≤ q) (h : NonNegState db) :
    NonNegState (es.foldl (move_entry t) db) := by
  induction es generalizing db with
  | nil => exact h
  | cons e tl ih =>
    simp only [List.foldl_cons]
    exact ih (move_entry t db e) (fun x hx => hs x (List.mem_cons_of_mem _ hx))
      (nonNegState_move_entry t db e (hs e (List.mem_cons_self e tl)) h)

theorem nonNegState_move_required (t : Nat) (db : DB) (g : (Nat × Nat) × Nat)
    (h : NonNegState db) : NonNegState (move_required t db g) := by
  obtain ⟨hA, hE, hW⟩ := h
  unfold move_required
  split
  · exact ⟨hA, hE, hW⟩
  next src hsrc =>
    split
    next hpos =>
      have ht : 0 ≤ min (g.2 : Rat) src.required_bags :=
        le_min (by positivity) (le_of_lt hpos)
      refine ⟨?_, ?_, ?_⟩
      · have h1 := nonNeg_modify db g.1.1 g.1.2
          (fun a => { a with required_bags := max 0 (a.required_bags - min (g.2 : Rat) src.required_bags) })
          (fun a ha => ⟨le_max_left 0 _, ha.2.1, ha.2.2.1, ha.2.2.2⟩) hA
        have h2 := nonNeg_ensure _ t g.1.2 h1
        have h3 := nonNeg_modify _ t g.1.2
          (fun a => { a with required_bags := a.required_bags + min (g.2 : Rat) src.required_bags })
          (fun a ha => ⟨add_nonneg ha.1 ht, ha.2.1, ha.2.2.1, ha.2.2.2⟩) h2
        exact fun a ha => h3 a ha
      · intro e he
        simp only [modify_allocation_entries, ensure_allocation_entries] at he
        exact hE e he
      · intro wc hwc
        simp only [modify_allocation_classifications,
          ensure_allocation_classifications] at hwc
        exact hW wc hwc
    · exact ⟨hA, hE, hW⟩

theorem nonNegState_required_fold (t : Nat) (gs : List ((Nat × Nat) × Nat)) (db : DB)
    (h : NonNegState db) : NonNegState (gs.foldl (move_required t) db) := by
  induction gs generalizing db with
  | nil => exact h
  | cons g tl ih =>
    simp only [List.foldl_cons]
    exact ih _ (nonNegState_move_required t db g h)

theorem nonNegState_reset (db : DB) (sid : Nat) (rt rd : Bool) (h : NonNegState db) :
    NonNegState (reset_allocated_bags_for_session db sid rt rd).1 := by
  obtain ⟨hA, hE, hW⟩ := h
  rcases reset_state db sid rt rd with heq | heq
  · rw [heq]
    exact ⟨hA, hE, hW⟩
  · rw [heq]
    refine ⟨?_, ?_, ?_⟩
    · intro a ha
      obtain ⟨b, hb, rfl⟩ := List.mem_map.mp ha
      have hnb := hA b hb
      by_cases h1 : (b.tally_session_id == sid) = true
      · rw [if_pos h1]
        have hinner : NonNegRow (if rt then { b with allocated_bags_tally := 0 }
            else b) := by
          split
          · exact ⟨hnb.1, le_refl 0, hnb.2.2.1, hnb.2.2.2⟩
          · exact hnb
        cases rd
        · exact hinner
        · exact ⟨hinner.1, hinner.2.1, le_refl 0, hinner.2.2.2⟩
      · rw [if_neg h1]
        exact hnb
    · intro e he
      have hst : ∀ (l : List TallyLogEntry) (flag : Bool) (f : TallyLogEntry → Bool),
          List.Sublist (if flag then l.filter f else l) l := by
        intro l flag f
        cases flag
        · exact List.Sublist.refl l
        · exact List.filter_sublist l
      exact hE e
        ((List.Sublist.trans (hst _ rd _) (hst db.entries rt _)).subset he)
    · exact hW

/-- Every committed API call with a pydantic-valid payload preserves C7's
non-negativity. -/
theorem nonNegState_applyOp (db : DB) (op : Op) (hv : op.Valid)
    (h : NonNegState db) : NonNegState (applyOp db op) := by
  cases op with
  | createEntry c =>
    show NonNegState (match create_tally_log_entry db c with
      | .ok (db', _) => db'
      | .error _ => db)
    cases hcr : create_tally_log_entry db c with
    | error msg => exact h
    | ok p =>
      obtain ⟨db', e⟩ := p
      show NonNegState db'
      obtain ⟨wc, hwc, hdb⟩ := create_ok_state db c db' e hcr
      rw [hdb]
      refine nonNegState_created db c _ ?_ h
      cases hh : c.heads with
      | some q => simpa using hv q (by simp [hh])
      | none =>
        have hmem : wc ∈ db.classifications := List.mem_of_find?_eq_some hwc
        cases hd : wc.default_heads with
        | none => norm_num [hh, hd]
        | some d =>
          have hq := h.2.2 wc hmem d (by simp [hd])
          norm_num [hh, hd, hq]
  | updateEntry entry_id u user_id =>
    show NonNegState (match update_tally_log_entry db entry_id u user_id with
      | .ok (some (_, dbFinal, _)) => dbFinal
      | .ok none => db
      | .error _ => db)
    cases hup : update_tally_log_entry db entry_id u user_id with
    | error msg => exact h
    | ok o =>
      cases o with
      | none => exact h
      | some t =>
        obtain ⟨db1, db2, e⟩ := t
        show NonNegState db2
        obtain ⟨log_entry, hget, h1, h2, -⟩ :=
          update_ok_state db entry_id u user_id db1 db2 e hup
        have hle : ∀ q ∈ log_entry.heads, 0 ≤ q :=
          h.2.1 log_entry (List.mem_of_find?_eq_some hget)
        have hnn1 : NonNegState (update_apply db entry_id log_entry u) := by
          unfold update_apply
          apply nonNegState_reaggregate
          · exact update_new_heads_value_nonneg db log_entry u hv hle h.2.2
          · rcases update_entry_result_heads db log_entry u with hh | hh
            · rw [hh]
              exact hle
            · rw [hh]
              intro q hq
              simp only [Option.mem_def, Option.some.injEq] at hq
              rw [← hq]
              exact update_new_heads_value_nonneg db log_entry u hv hle h.2.2
          · exact h
        rcases h2 with h2 | h2
        · rw [h2, h1]
          exact hnn1
        · rw [h2, h1]
          exact ⟨hnn1.1, hnn1.2.1, hnn1.2.2⟩
  | deleteEntry entry_id =>
    show NonNegState (match delete_tally_log_entry db entry_id with
      | some (db', _) => db'
      | none => db)
    cases hdel : delete_tally_log_entry db entry_id with
    | none => exact h
    | some t =>
      obtain ⟨db', e⟩ := t
      show NonNegState db'
      obtain ⟨old, hvv, hget, -, hdb⟩ := delete_ok_state db entry_id db' e hdel
      rw [hdb]
      exact nonNegState_deleted db entry_id old hvv h
  | transferEntries entry_ids target =>
    show NonNegState (run_transfer db entry_ids target)
    unfold run_transfer
    cases htr : transfer_tally_log_entries db entry_ids target with
    | error msg => exact h
    | ok p =>
      obtain ⟨db2, n⟩ := p
      obtain ⟨-, -, -, -, -, -, hdb, -⟩ :=
        transfer_ok_inversion db entry_ids target db2 n htr
      rw [hdb]
      exact nonNegState_required_fold target _ _
        (nonNegState_move_fold target (transfer_entries db entry_ids) db
          (fun e he => h.2.1 e (List.mem_of_mem_filter he)) h)
  | resetAllocations sid rt rd =>
    exact nonNegState_reset db sid rt rd h

theorem nonNegState_applyOps (ops : List Op) :
    ∀ db : DB, (∀ op ∈ ops, op.Valid) → NonNegState db →
      NonNegState (applyOps db ops) := by
  induction ops with
  | nil =>
    intro db _ h
    exact h
  | cons op tl ih =>
    intro db hv h
    exact ih (applyOp db op) (fun x hx => hv x (List.mem_cons_of_mem _ hx))
      (nonNegState_applyOp db op (hv op (List.mem_cons_self op tl)) h)

/-- C7: after any sequence of create, update, delete, transfer and reset
calls with pydantic-valid payloads, starting from a state with no negative
fields, no field of any AllocationDetails row (required_bags,
allocated_bags_tally, allocated_bags_dispatcher, heads) is ever negative:
every decrement is clamped at a floor of 0. -/
theorem allocation_nonneg (db : DB) (ops : List Op)
    (hv : ∀ op ∈ ops, op.Valid) (h0 : NonNegState db) :
    ∀ a ∈ (applyOps db ops).allocations,
      0 ≤ a.required_bags ∧ 0 ≤ a.allocated_bags_tally
        ∧ 0 ≤ a.allocated_bags_dispatcher ∧ ∀ q ∈ a.heads, 0 ≤ q :=
  (nonNegState_applyOps ops db hv h0).1

theorem allocation_nonneg_witness :
    (∀ op ∈ opsC7, op.Valid) ∧ NonNegState dbC7
      ∧ (∀ a ∈ (applyOps dbC7 opsC7).allocations,
          0 ≤ a.required_bags ∧ 0 ≤ a.allocated_bags_tally
            ∧ 0 ≤ a.allocated_bags_dispatcher ∧ ∀ q ∈ a.heads, 0 ≤ q) := by
  have hv : ∀ op ∈ opsC7, op.Valid := by
    intro op hop
    simp only [opsC7] at hop
    fin_cases hop <;> simp [Op.Valid]
  have h0 : NonNegState dbC7 := by
    refine ⟨?_, ?_, ?_⟩
    · intro a ha
      simp [dbC7, emptyDB] at ha
    · intro e he
      simp [dbC7, emptyDB] at he
    · intro wc hwc
      rw [List.mem_singleton.mp hwc]
      intro q hq
      simp only [Option.mem_def, Option.some.injEq] at hq
      rw [← hq]
      norm_num
  exact ⟨hv, h0, allocation_nonneg dbC7 opsC7 hv h0⟩

end Tally

